import Mathlib

/-! # Menu compiler of the macOS bridge (`menu_darwin.c`)

A shallow embedding of `v2/internal/ffenestri/menu_darwin.c`.

* JSON values are an inductive type; a `JsonNode *` that may be `NULL` is an
  `Option JsonNode`.
* Cocoa objects live in a heap: an `NSMenuItem` / `NSMenu` object is identified
  by its index in `World.items` / `World.menus`; an `id` that may be `nil` is an
  `Option Nat`, and a message sent to `nil` does nothing.
* C functions that mutate objects become functions `World → ... → World`;
  when the C code has no defined result (a `NULL` dereference, `ABORT`, a read
  of the wrong member of the node union) the model returns `none`.
-/

set_option autoImplicit false

namespace Wails

/-! ## JSON nodes (`json.h`) -/

/-- A JSON node: the tag of `JsonNode` together with the member of the union
that is valid for that tag.  Numbers are restricted to integers. -/
inductive JsonNode where
  | null
  | bool (bool_ : Bool)
  | string (string_ : String)
  | number (number_ : Int)
  | array (children : List JsonNode)
  | object (children : List (String × JsonNode))

namespace JsonNode

mutual
/-- Nesting depth of a node; used as the recursion bound of `processMenuItem`. -/
def depth : JsonNode → Nat
  | .array cs => depthList cs + 1
  | .object ms => depthMembers ms + 1
  | _ => 0
/-- Largest depth among the elements of an array. -/
def depthList : List JsonNode → Nat
  | [] => 0
  | c :: cs => max (depth c) (depthList cs)
/-- Largest depth among the members of an object. -/
def depthMembers : List (String × JsonNode) → Nat
  | [] => 0
  | (_, c) :: ms => max (depth c) (depthMembers ms)
end

/-- The read `node->string_`: defined only for a node tagged `JSON_STRING`. -/
def string_? : JsonNode → Option String
  | .string s => some s
  | _ => none

end JsonNode

/-- Modelled from the spec: the JSON library (`json.h`) is an external
collaborator that is not among the sources.  `json_first_child` followed by
`->next`, i.e. the nodes visited by `json_foreach`: the elements of an array,
the member values of an object, nothing for any other node. -/
def json_children : JsonNode → List JsonNode
  | .array cs => cs
  | .object ms => ms.map Prod.snd
  | _ => []

/-- Modelled from the spec: `json_find_member` of the JSON library (not among
the sources): the first member of an object with the given key, `NULL` when
the node is not an object or has no such member. -/
def json_find_member : JsonNode → String → Option JsonNode
  | .object ms, name => (ms.find? (fun m => m.1 == name)).map Prod.snd
  | _, _ => none

/-- Modelled from the spec: `json_mkobject` of the JSON library. -/
def json_mkobject : JsonNode := .object []

/-- Modelled from the spec: `json_mkstring` of the JSON library. -/
def json_mkstring (s : String) : JsonNode := .string s

/-- Modelled from the spec: `json_append_member` of the JSON library: the new
member becomes the last child of the object. -/
def json_append_member (object : JsonNode) (key : String) (value : JsonNode) : JsonNode :=
  match object with
  | .object ms => .object (ms ++ [(key, value)])
  | other => other

/-- Modelled from the spec: `getJSONString` of `common.h` (not among the
sources): the string value of member `key`, `NULL` when absent or not a string. -/
def getJSONString (item : JsonNode) (key : String) : Option String :=
  match json_find_member item key with
  | some (.string s) => some s
  | _ => none

/-- Modelled from the spec: `getJSONBool` of `common.h` (not among the
sources): the value of the boolean member `key`, `false` when absent or not a
boolean. -/
def getJSONBool (item : JsonNode) (key : String) : Bool :=
  match json_find_member item key with
  | some (.bool b) => b
  | _ => false

/-- Modelled from the spec: `getJSONInt` of `common.h` (not among the
sources): stores the value of the numeric member `key` in an `int`; `none`
when the member is absent or not a number (the `int` stays uninitialised) or
does not fit an `int`. -/
def getJSONInt (item : JsonNode) (key : String) : Option Int :=
  match json_find_member item key with
  | some (.number n) => if -2147483648 ≤ n ∧ n ≤ 2147483647 then some n else none
  | _ => none

/-- Modelled from the spec: `json_array_length` of the JSON library (not among
the sources): the number of elements `json_foreach` visits. -/
def json_array_length (array : JsonNode) : Nat := (json_children array).length

/-- The loop `json_foreach(item, node) { body }` over the nodes `items`, for a
body that may fail. -/
def json_foreach {σ : Type} (body : σ → JsonNode → Option σ) : List JsonNode → σ → Option σ
  | [], s => some s
  | c :: cs, s =>
    match body s c with
    | none => none
    | some s' => json_foreach body cs s'

/-- The values read through a list of pointers; `none` when one of the reads
is undefined. -/
def allValid {α : Type} : List (Option α) → Option (List α)
  | [] => some []
  | none :: _ => none
  | some a :: rest =>
    match allValid rest with
    | none => none
    | some values => some (a :: values)

/-! ## The environment -/

/-- What the code obtains from outside this file: the JSON encoder of the JSON
library and the process name reported by `NSProcessInfo`. -/
structure Env where
  json_encode : JsonNode → String
  processName : String

/-! ## Click messages -/

/-- The function `concat` of `common.h`: string concatenation. -/
def concat (string1 string2 : String) : String := string1 ++ string2

/-- The function `createMenuClickedMessage`: `none` models `ABORT`. -/
def createMenuClickedMessage (env : Env) (menuItemID : Option String) (data : Option String) :
    Option String :=
  let jsonObject := json_mkobject
  match menuItemID with
  | none => none
  | some menuItemID =>
    let jsonObject := json_append_member jsonObject "i" (json_mkstring menuItemID)
    let jsonObject :=
      match data with
      | some data => json_append_member jsonObject "data" (json_mkstring data)
      | none => jsonObject
    let payload := env.json_encode jsonObject
    some (concat "MC" payload)

/-! ## Native objects -/

/-- The type `enum MenuItemType {Text = 0, Checkbox = 1, Radio = 2}`. -/
inductive MenuItemType where
  | Text
  | Checkbox
  | Radio
  deriving DecidableEq, Repr

/-- The type `enum MenuType {ApplicationMenuType = 0, ContextMenuType = 1, TrayMenuType = 2}`. -/
inductive MenuType where
  | ApplicationMenuType
  | ContextMenuType
  | TrayMenuType
  deriving DecidableEq, Repr

/-- An Objective-C `id`: `none` is `nil`, `some n` is the object at index `n`
of the heap of its class. -/
abbrev ObjcId := Option Nat

/-- The constant `NSControlStateValueMixed`. -/
def NSControlStateValueMixed : Int := -1
/-- The constant `NSControlStateValueOff`. -/
def NSControlStateValueOff : Int := 0
/-- The constant `NSControlStateValueOn`. -/
def NSControlStateValueOn : Int := 1

/-- The constant `NSEventModifierFlagCommand`. -/
def NSEventModifierFlagCommand : Nat := 1 <<< 20
/-- The constant `NSEventModifierFlagOption`. -/
def NSEventModifierFlagOption : Nat := 1 <<< 19
/-- The constant `NSEventModifierFlagControl`. -/
def NSEventModifierFlagControl : Nat := 1 <<< 18
/-- The constant `NSEventModifierFlagShift`. -/
def NSEventModifierFlagShift : Nat := 1 <<< 17

/-- The struct `MenuItemCallbackData`.  The field `menu` of the C struct points to the
`Menu` being compiled, which the model passes along in `World.menu`. -/
structure MenuItemCallbackData where
  menuItem : ObjcId
  menuID : Option String
  menuItemType : MenuItemType
  deriving DecidableEq, Repr

/-- The properties of an `NSMenuItem` object that the code sets or reads.
`representedObject` holds the callback data wrapped by `valueWithPointer:`. -/
structure NSMenuItem where
  title : String := ""
  action : Option String := none
  keyEquivalent : String := ""
  keyEquivalentModifierMask : Nat := 0
  enabled : Bool := true
  state : Int := 0
  submenu : ObjcId := none
  representedObject : Option MenuItemCallbackData := none
  isSeparatorItem : Bool := false
  deriving DecidableEq, Repr

/-- The properties of an `NSMenu` object: its title, the autoenable flag and
the ids of its items, in menu order. -/
structure NSMenu where
  title : String := ""
  autoenablesItems : Bool := true
  itemArray : List Nat := []
  deriving DecidableEq, Repr

/-- Modelled from the spec: `ContextMenu` is declared in
`contextmenus_darwin.h`, which is not among the sources; only the field read
by `menuItemCallback` is kept. -/
structure ContextMenu where
  contextMenuData : Option String
  deriving DecidableEq, Repr

/-- Modelled from the spec: the hashmap utility (`hashmap.h`) is an external
collaborator that is not among the sources; a map from string keys to values
of type `V` is kept as an association list with at most one entry per key. -/
abbrev hashmap_s (V : Type) := List (String × V)

/-- Modelled from the spec: `hashmap_get` of the hashmap utility: the value
stored under the key, `NULL` when there is none. -/
def hashmap_get {V : Type} (m : hashmap_s V) (key : String) : Option V :=
  (m.find? (fun e => e.1 == key)).map Prod.snd

/-- Modelled from the spec: `hashmap_put` of the hashmap utility: stores the
value under the key, replacing the value of an existing entry. -/
def hashmap_put {V : Type} (m : hashmap_s V) (key : String) (value : V) : hashmap_s V :=
  (key, value) :: m.filter (fun e => !(e.1 == key))

/-- The `Menu` struct. -/
structure Menu where
  title : String := ""
  menuItemMap : hashmap_s Nat := []
  radioGroupMap : hashmap_s (List ObjcId) := []
  callbackDataCache : List MenuItemCallbackData := []
  menu : ObjcId := none
  parentData : Option ContextMenu := none
  menuType : MenuType := .ApplicationMenuType
  deriving DecidableEq, Repr

/-- The state the code works on: the heap of `NSMenuItem` objects, the heap of
`NSMenu` objects, the `Menu` struct, and the messages handed to
`messageFromWindowCallback` so far (oldest first). -/
structure World where
  items : List NSMenuItem := []
  menus : List NSMenu := []
  menu : Menu := {}
  sent : List String := []
  deriving DecidableEq, Repr

/-- The call `messageFromWindowCallback(message)`. -/
def messageFromWindowCallback (w : World) (message : String) : World :=
  { w with sent := w.sent ++ [message] }

/-- The call `ALLOC("NSMenuItem")`: a new item object at the end of the heap. -/
def allocMenuItem (w : World) : World × Nat :=
  ({ w with items := w.items ++ [{}] }, w.items.length)

/-- A message that changes the properties of the item `item`; nothing happens
when `item` is `nil`. -/
def msgItem (w : World) (item : ObjcId) (f : NSMenuItem → NSMenuItem) : World :=
  match item with
  | none => w
  | some i =>
    match w.items[i]? with
    | none => w
    | some it => { w with items := w.items.set i (f it) }

/-- The message `msg(item, s("state"))`, `0` for `nil`. -/
def itemState (w : World) (item : ObjcId) : Int :=
  match item with
  | none => 0
  | some i =>
    match w.items[i]? with
    | none => 0
    | some it => it.state

/-- The message `msg(item, s("setState:"), value)`. -/
def setState (w : World) (item : ObjcId) (value : Int) : World :=
  msgItem w item (fun it => { it with state := value })

/-- The message `msg(item, s("setEnabled:"), value)`. -/
def setEnabled (w : World) (item : ObjcId) (value : Bool) : World :=
  msgItem w item (fun it => { it with enabled := value })

/-- The message `msg(item, s("setSubmenu:"), menu)`. -/
def setSubmenu (w : World) (item : ObjcId) (menu : ObjcId) : World :=
  msgItem w item (fun it => { it with submenu := menu })

/-- The message `msg(item, s("setKeyEquivalentModifierMask:"), mask)`. -/
def setKeyEquivalentModifierMask (w : World) (item : ObjcId) (mask : Nat) : World :=
  msgItem w item (fun it => { it with keyEquivalentModifierMask := mask })

/-- The message `msg(item, s("setRepresentedObject:"), wrappedId)`. -/
def setRepresentedObject (w : World) (item : ObjcId) (callback : MenuItemCallbackData) : World :=
  msgItem w item (fun it => { it with representedObject := some callback })

/-- The message `msg(item, s("initWithTitle:action:keyEquivalent:"), title, action, key)`. -/
def initWithTitle (w : World) (item : ObjcId) (title : String) (action : Option String)
    (key : String) : World :=
  msgItem w item (fun it => { it with title := title, action := action, keyEquivalent := key })

/-- The message `msg(menu, s("addItem:"), item)`: the item becomes the last item of the
menu; nothing happens when `menu` is `nil`. -/
def addItem (w : World) (menu : ObjcId) (item : Nat) : World :=
  match menu with
  | none => w
  | some m =>
    match w.menus[m]? with
    | none => w
    | some mn => { w with menus := w.menus.set m { mn with itemArray := mn.itemArray ++ [item] } }

/-- The function `addSeparator`. -/
def addSeparator (w : World) (menu : ObjcId) : World :=
  let item := w.items.length
  let w := { w with items := w.items ++ [{ isSeparatorItem := true }] }
  addItem w menu item

/-- The function `createMenuItemNoAutorelease`. -/
def createMenuItemNoAutorelease (w : World) (title : String) (action : Option String)
    (key : String) : World × Nat :=
  let (w, item) := allocMenuItem w
  (initWithTitle w (some item) title action key, item)

/-- The function `createMenuItem`. -/
def createMenuItem (w : World) (title : String) (action : Option String) (key : String) :
    World × Nat :=
  let (w, item) := allocMenuItem w
  (initWithTitle w (some item) title action key, item)

/-- The function `addMenuItem`. -/
def addMenuItem (w : World) (menu : ObjcId) (title : String) (action : Option String)
    (key : String) (disabled : Bool) : World × Nat :=
  let (w, item) := createMenuItem w title action key
  let w := setEnabled w (some item) (!disabled)
  (addItem w menu item, item)

/-- The function `createMenu`. -/
def createMenu (w : World) (title : String) : World × Nat :=
  ({ w with menus := w.menus ++ [{ title := title, autoenablesItems := false }] }, w.menus.length)

/-- The function `CreateMenuItemCallbackData`. -/
def CreateMenuItemCallbackData (w : World) (menuItem : ObjcId) (menuID : Option String)
    (menuItemType : MenuItemType) : World × MenuItemCallbackData :=
  let result : MenuItemCallbackData :=
    { menuItem := menuItem, menuID := menuID, menuItemType := menuItemType }
  ({ w with menu := { w.menu with callbackDataCache := w.menu.callbackDataCache ++ [result] } },
    result)

/-! ## Accelerators -/

/-- The macro `str(input)`: the `NSString` with the given contents. -/
def str (input : String) : String := input

/-- The macro `strunicode(input)`: the one-character `NSString` made by the
format `%C` from the 16-bit code unit `input`. -/
def strunicode (input : Nat) : String := String.singleton (Char.ofNat (input % 65536))

/-- The function `processAcceleratorKey`. -/
def processAcceleratorKey (key : Option String) : String :=
  match key with
  | none => str ""
  | some key =>
  if key = "Backspace" then strunicode 0x0008
  else if key = "Tab" then strunicode 0x0009
  else if key = "Return" then strunicode 0x000d
  else if key = "Escape" then strunicode 0x001b
  else if key = "Left" then strunicode 0x001c
  else if key = "Right" then strunicode 0x001d
  else if key = "Up" then strunicode 0x001e
  else if key = "Down" then strunicode 0x001f
  else if key = "Space" then strunicode 0x0020
  else if key = "Delete" then strunicode 0x007f
  else if key = "Home" then strunicode 0x2196
  else if key = "End" then strunicode 0x2198
  else if key = "Page Up" then strunicode 0x21de
  else if key = "Page Down" then strunicode 0x21df
  else if key = "F1" then strunicode 0xf704
  else if key = "F2" then strunicode 0xf705
  else if key = "F3" then strunicode 0xf706
  else if key = "F4" then strunicode 0xf707
  else if key = "F5" then strunicode 0xf708
  else if key = "F6" then strunicode 0xf709
  else if key = "F7" then strunicode 0xf70a
  else if key = "F8" then strunicode 0xf70b
  else if key = "F9" then strunicode 0xf70c
  else if key = "F10" then strunicode 0xf70d
  else if key = "F11" then strunicode 0xf70e
  else if key = "F12" then strunicode 0xf70f
  else if key = "F13" then strunicode 0xf710
  else if key = "F14" then strunicode 0xf711
  else if key = "F15" then strunicode 0xf712
  else if key = "F16" then strunicode 0xf713
  else if key = "F17" then strunicode 0xf714
  else if key = "F18" then strunicode 0xf715
  else if key = "F19" then strunicode 0xf716
  else if key = "F20" then strunicode 0xf717
  else if key = "F21" then strunicode 0xf718
  else if key = "F22" then strunicode 0xf719
  else if key = "F23" then strunicode 0xf71a
  else if key = "F24" then strunicode 0xf71b
  else if key = "F25" then strunicode 0xf71c
  else if key = "F26" then strunicode 0xf71d
  else if key = "F27" then strunicode 0xf71e
  else if key = "F28" then strunicode 0xf71f
  else if key = "F29" then strunicode 0xf720
  else if key = "F30" then strunicode 0xf721
  else if key = "F31" then strunicode 0xf722
  else if key = "F32" then strunicode 0xf723
  else if key = "F33" then strunicode 0xf724
  else if key = "F34" then strunicode 0xf725
  else if key = "F35" then strunicode 0xf726
  else if key = "NumLock" then strunicode 0xf739
  else str key

/-- One pass of the loop body of `parseModifiers`. -/
def parseModifierStep (result : Nat) (thisModifier : String) : Nat :=
  let result := if thisModifier = "CmdOrCtrl" then result ||| NSEventModifierFlagCommand else result
  let result := if thisModifier = "OptionOrAlt" then result ||| NSEventModifierFlagOption else result
  let result := if thisModifier = "Shift" then result ||| NSEventModifierFlagShift else result
  let result := if thisModifier = "Super" then result ||| NSEventModifierFlagCommand else result
  let result := if thisModifier = "Control" then result ||| NSEventModifierFlagControl else result
  result

/-- The function `parseModifiers`, on the names that precede the `NULL`
terminator of the array. -/
def parseModifiers (modifiers : List String) : Nat :=
  modifiers.foldl parseModifierStep 0

/-! ## Role menus -/

/-- The function `createDefaultAppMenu`. -/
def createDefaultAppMenu (env : Env) (w : World) (parentMenu : ObjcId) : World :=
  let appName := env.processName
  let (w, appMenuItem) := createMenuItemNoAutorelease w appName none ""
  let (w, appMenu) := createMenu w appName
  let w := setSubmenu w (some appMenuItem) (some appMenu)
  let w := addItem w parentMenu appMenuItem
  let title := "Hide " ++ appName
  let (w, item) := createMenuItem w title (some "hide:") "h"
  let w := addItem w (some appMenu) item
  let (w, hideOthers) := addMenuItem w (some appMenu) "Hide Others" (some "hideOtherApplications:") "h" false
  let w := setKeyEquivalentModifierMask w (some hideOthers)
    (NSEventModifierFlagOption ||| NSEventModifierFlagCommand)
  let (w, _) := addMenuItem w (some appMenu) "Show All" (some "unhideAllApplications:") "" false
  let w := addSeparator w (some appMenu)
  let title := "Quit " ++ appName
  let (w, item) := createMenuItem w title (some "terminate:") "q"
  addItem w (some appMenu) item

/-- The function `createDefaultEditMenu`. -/
def createDefaultEditMenu (w : World) (parentMenu : ObjcId) : World :=
  let (w, editMenuItem) := createMenuItemNoAutorelease w "Edit" none ""
  let (w, editMenu) := createMenu w "Edit"
  let w := setSubmenu w (some editMenuItem) (some editMenu)
  let w := addItem w parentMenu editMenuItem
  let (w, _) := addMenuItem w (some editMenu) "Undo" (some "undo:") "z" false
  let (w, _) := addMenuItem w (some editMenu) "Redo" (some "redo:") "y" false
  let w := addSeparator w (some editMenu)
  let (w, _) := addMenuItem w (some editMenu) "Cut" (some "cut:") "x" false
  let (w, _) := addMenuItem w (some editMenu) "Copy" (some "copy:") "c" false
  let (w, _) := addMenuItem w (some editMenu) "Paste" (some "paste:") "v" false
  let (w, _) := addMenuItem w (some editMenu) "Select All" (some "selectAll:") "a" false
  w

/-- The function `processMenuRole`; `item` is the node of the member `"r"`.
The branch for `"pasteandmatchstyle"` has no `return`, so the checks that
follow it are still made. -/
def processMenuRole (env : Env) (w : World) (parentMenu : ObjcId) (item : JsonNode) :
    Option World :=
  match item.string_? with
  | none => none
  | some roleName =>
  if roleName = "appMenu" then some (createDefaultAppMenu env w parentMenu)
  else if roleName = "editMenu" then some (createDefaultEditMenu w parentMenu)
  else if roleName = "hide" then
    some (addMenuItem w parentMenu "Hide Window" (some "hide:") "h" false).1
  else if roleName = "hideothers" then
    let (w, hideOthers) :=
      addMenuItem w parentMenu "Hide Others" (some "hideOtherApplications:") "h" false
    some (setKeyEquivalentModifierMask w (some hideOthers)
      (NSEventModifierFlagOption ||| NSEventModifierFlagCommand))
  else if roleName = "unhide" then
    some (addMenuItem w parentMenu "Show All" (some "unhideAllApplications:") "" false).1
  else if roleName = "front" then
    some (addMenuItem w parentMenu "Bring All to Front" (some "arrangeInFront:") "" false).1
  else if roleName = "undo" then
    some (addMenuItem w parentMenu "Undo" (some "undo:") "z" false).1
  else if roleName = "redo" then
    some (addMenuItem w parentMenu "Redo" (some "redo:") "y" false).1
  else if roleName = "cut" then
    some (addMenuItem w parentMenu "Cut" (some "cut:") "x" false).1
  else if roleName = "copy" then
    some (addMenuItem w parentMenu "Copy" (some "copy:") "c" false).1
  else if roleName = "paste" then
    some (addMenuItem w parentMenu "Paste" (some "paste:") "v" false).1
  else if roleName = "delete" then
    some (addMenuItem w parentMenu "Delete" (some "delete:") "" false).1
  else
  let w :=
    if roleName = "pasteandmatchstyle" then
      let (w, pasteandmatchstyle) :=
        addMenuItem w parentMenu "Paste and Match Style" (some "pasteandmatchstyle:") "v" false
      setKeyEquivalentModifierMask w (some pasteandmatchstyle)
        (NSEventModifierFlagOption ||| NSEventModifierFlagShift ||| NSEventModifierFlagCommand)
    else w
  if roleName = "selectall" then
    some (addMenuItem w parentMenu "Select All" (some "selectAll:") "a" false).1
  else if roleName = "minimize" then
    some (addMenuItem w parentMenu "Minimize" (some "miniaturize:") "m" false).1
  else if roleName = "zoom" then
    some (addMenuItem w parentMenu "Zoom" (some "performZoom:") "" false).1
  else if roleName = "quit" then
    some (addMenuItem w parentMenu "Quit (More work TBD)" (some "terminate:") "q" false).1
  else if roleName = "togglefullscreen" then
    some (addMenuItem w parentMenu "Toggle Full Screen" (some "toggleFullScreen:") "f" false).1
  else some w

/-! ## User menu items -/

/-- The function `processRadioMenuItem`. -/
def processRadioMenuItem (w : World) (parentmenu : ObjcId) (title : String) (menuid : String)
    (disabled : Bool) (checked : Bool) (acceleratorkey : Option String) (hascallback : Bool) :
    World × Nat :=
  let (w, item) := allocMenuItem w
  let w := { w with menu := { w.menu with menuItemMap := hashmap_put w.menu.menuItemMap menuid item } }
  let w :=
    if hascallback then
      let (w, callback) := CreateMenuItemCallbackData w (some item) (some menuid) .Radio
      setRepresentedObject w (some item) callback
    else w
  let key := processAcceleratorKey acceleratorkey
  let w := initWithTitle w (some item) (str title) (some "menuItemCallback:") key
  let w := setEnabled w (some item) (!disabled)
  let w := setState w (some item) (if checked then NSControlStateValueOn else NSControlStateValueOff)
  let w := addItem w parentmenu item
  (w, item)

/-- The function `processCheckboxMenuItem`. -/
def processCheckboxMenuItem (w : World) (parentmenu : ObjcId) (title : String) (menuid : String)
    (disabled : Bool) (checked : Bool) (key : String) (hascallback : Bool) : World × Nat :=
  let (w, item) := allocMenuItem w
  let w := { w with menu := { w.menu with menuItemMap := hashmap_put w.menu.menuItemMap menuid item } }
  let w :=
    if hascallback then
      let (w, callback) := CreateMenuItemCallbackData w (some item) (some menuid) .Checkbox
      setRepresentedObject w (some item) callback
    else w
  let w := initWithTitle w (some item) (str title) (some "menuItemCallback:") (str key)
  let w := setEnabled w (some item) (!disabled)
  let w := setState w (some item) (if checked then NSControlStateValueOn else NSControlStateValueOff)
  let w := addItem w parentmenu item
  (w, item)

/-- The function `processTextMenuItem`.  `modifiers` is `none` for a `NULL`
array; an entry of the array is `none` when it was read from a node that is
not a string, and `parseModifiers` is then undefined. -/
def processTextMenuItem (w : World) (parentMenu : ObjcId) (title : String) (menuid : String)
    (disabled : Bool) (acceleratorkey : Option String) (modifiers : Option (List (Option String)))
    (hascallback : Bool) : Option (World × Nat) :=
  let (w, item) := allocMenuItem w
  let w :=
    if hascallback then
      let (w, callback) := CreateMenuItemCallbackData w (some item) (some menuid) .Text
      setRepresentedObject w (some item) callback
    else w
  let key := processAcceleratorKey acceleratorkey
  let w := initWithTitle w (some item) (str title) (some "menuItemCallback:") key
  let w := setEnabled w (some item) (!disabled)
  match modifiers with
  | none => some (addItem w parentMenu item, item)
  | some modifiers =>
    match allValid modifiers with
    | none => none
    | some names =>
      let modifierFlags := parseModifiers names
      let w := setKeyEquivalentModifierMask w (some item) modifierFlags
      some (addItem w parentMenu item, item)

/-- The part of `processMenuItem` after the submenu check: a user menu item. -/
def processUserMenuItem (w : World) (parentMenu : ObjcId) (item : JsonNode) : Option World :=
  let label := (getJSONString item "l").getD "(empty)"
  let menuid := (getJSONString item "I").getD ""
  let disabled := getJSONBool item "d"
  let accelerator := json_find_member item "a"
  let acceleratorkey : Option String :=
    match accelerator with
    | some accelerator => getJSONString accelerator "Key"
    | none => none
  let modifiers : Option (List (Option String)) :=
    match accelerator with
    | some accelerator =>
      match json_find_member accelerator "Modifiers" with
      | some modifiersList =>
        let noOfModifiers := json_array_length modifiersList
        if noOfModifiers > 0 then
          some ((json_children modifiersList).map JsonNode.string_?)
        else none
      | none => none
    | none => none
  let hascallback := getJSONBool item "C"
  match json_find_member item "t" with
  | some type =>
    match type.string_? with
    | none => none
    | some t =>
      if t = "t" then
        (processTextMenuItem w parentMenu label menuid disabled acceleratorkey modifiers
          hascallback).map Prod.fst
      else if t = "s" then some (addSeparator w parentMenu)
      else if t = "c" then
        let checked := getJSONBool item "c"
        some (processCheckboxMenuItem w parentMenu label menuid disabled checked "" hascallback).1
      else if t = "r" then
        let checked := getJSONBool item "c"
        some (processRadioMenuItem w parentMenu label menuid disabled checked (some "") hascallback).1
      else some w
  | none => some w

/-- The function `processMenuItem` with a bound `fuel` on the nesting of
submenus that is still allowed (`none` when the bound is reached). -/
def processMenuItemAux (env : Env) : Nat → World → ObjcId → JsonNode → Option World
  | 0, _, _, _ => none
  | fuel + 1, w, parentMenu, item =>
    let hidden := getJSONBool item "h"
    if hidden then some w
    else
    match json_find_member item "r" with
    | some role => processMenuRole env w parentMenu role
    | none =>
    match json_find_member item "S" with
    | some submenu =>
      let name : Option String :=
        match json_find_member item "l" with
        | some menuNameNode => menuNameNode.string_?
        | none => some ""
      match name with
      | none => none
      | some name =>
        let (w, thisMenuItem) := createMenuItemNoAutorelease w (str name) none ""
        let (w, thisMenu) := createMenu w (str name)
        let w := setSubmenu w (some thisMenuItem) (some thisMenu)
        let w := addItem w parentMenu thisMenuItem
        match json_find_member submenu "i" with
        | none => some w
        | some submenuItems =>
          json_foreach (fun w item => processMenuItemAux env fuel w (some thisMenu) item)
            (json_children submenuItems) w
    | none => processUserMenuItem w parentMenu item

/-- The function `processMenuItem`: the nesting depth of the JSON item bounds
the nesting of the recursive calls. -/
def processMenuItem (env : Env) (w : World) (parentMenu : ObjcId) (item : JsonNode) :
    Option World :=
  processMenuItemAux env (item.depth + 1) w parentMenu item

/-- The function `processMenuData`. -/
def processMenuData (env : Env) (w : World) (menuData : JsonNode) : Option World :=
  json_foreach (fun w item => processMenuItem env w w.menu.menu item) (json_children menuData) w

/-! ## Radio groups -/

/-- The first loop of `processRadioGroupJSON`: stores the native item of each
member at position `count`, `count + 1`, ... of the stack array `memberList`.
A slot holds `none` while its content is indeterminate; the result is `none`
when a write falls outside the array. -/
def fillMemberList (menuItemMap : hashmap_s Nat) :
    List String → Nat → List (Option ObjcId) → Option (List (Option ObjcId))
  | [], _, memberList => some memberList
  | member :: rest, count, memberList =>
    let menuItem : ObjcId := hashmap_get menuItemMap member
    if count < memberList.length then
      fillMemberList menuItemMap rest (count + 1) (memberList.set count (some menuItem))
    else none

/-- The function `processRadioGroupJSON`.  `sizeof(id)` is 8.  The result is
`none` when `groupLength` is not set or negative, when `groupLength + 1`
overflows, when a member is not a string, when a write falls outside
`memberList`, or when the copied part of `memberList` has an indeterminate
slot. -/
def processRadioGroupJSON (w : World) (radioGroup : JsonNode) : Option World :=
  match getJSONInt radioGroup "Length" with
  | none => none
  | some groupLength =>
    if groupLength < 0 ∨ groupLength = 2147483647 then none
    else
    let groupLength := groupLength.toNat
    let members : List JsonNode :=
      match json_find_member radioGroup "Members" with
      | some members => json_children members
      | none => []
    match allValid (members.map JsonNode.string_?) with
    | none => none
    | some members =>
      let arrayLength := 8 * (groupLength + 1)
      let memberList : List (Option ObjcId) := List.replicate arrayLength none
      match fillMemberList w.menu.menuItemMap members 0 memberList with
      | none => none
      | some memberList =>
        let memberList := memberList.set groupLength (some none)
        if members = [] then some w
        else
        match allValid (memberList.take (groupLength + 1)) with
        | none => none
        | some newMemberList =>
          some (members.foldl
            (fun w member =>
              { w with menu :=
                { w.menu with
                  radioGroupMap := hashmap_put w.menu.radioGroupMap member newMemberList } })
            w)

/-- The function `ProcessMenu`; returns the new state and the returned `id`. -/
def ProcessMenu (env : Env) (w : World) (menuData : Option JsonNode)
    (radioGroups : Option JsonNode) : Option (World × ObjcId) :=
  match menuData with
  | none => some (w, none)
  | some menuData =>
    let (w, m) := createMenu w (str "")
    let w := { w with menu := { w.menu with menu := some m } }
    match processMenuData env w menuData with
    | none => none
    | some w =>
      match radioGroups with
      | some radioGroups =>
        match json_foreach (fun w radioGroup => processRadioGroupJSON w radioGroup)
            (json_children radioGroups) w with
        | none => none
        | some w => some (w, w.menu.menu)
      | none => some (w, w.menu.menu)

/-- The function `NewMenu`.  The struct comes from `malloc`: `menuType` is the
value the caller assigns afterwards, `parentData` is `NULL`. -/
def NewMenu (env : Env) (w : World) (menuType : MenuType) (menuData : Option JsonNode)
    (radioGroups : Option JsonNode) : Option World :=
  let result : Menu :=
    { title := "", callbackDataCache := [], menuItemMap := [], radioGroupMap := [],
      menu := none, parentData := none, menuType := menuType }
  (ProcessMenu env { w with menu := result } menuData radioGroups).map Prod.fst

/-! ## The click callback -/

/-- The loop of `menuItemCallback` that unchecks the members of a radio group:
it stops at the first `NULL`; `none` when it runs past the end of the array. -/
def uncheckMembers (w : World) : List ObjcId → Option World
  | [] => none
  | none :: _ => some w
  | some thisMember :: rest =>
    uncheckMembers (setState w (some thisMember) NSControlStateValueOff) rest

/-- The part of `menuItemCallback` that updates the checkbox / radio item:
`none` for a crash, `some none` for the early exit, `some (some w)` to go on. -/
def updateItemState (w : World) (callbackData : MenuItemCallbackData) :
    Option (Option World) :=
  match callbackData.menuItemType with
  | .Checkbox =>
    let state : Bool := decide (itemState w callbackData.menuItem ≠ 0)
    some (some (setState w callbackData.menuItem
      (if state then NSControlStateValueOff else NSControlStateValueOn)))
  | .Radio =>
    let selected : Bool := decide (itemState w callbackData.menuItem ≠ 0)
    if selected then some none
    else
    match callbackData.menuID with
    | none => none
    | some menuID =>
      match hashmap_get w.menu.radioGroupMap menuID with
      | none => none
      | some members =>
        match uncheckMembers w members with
        | none => none
        | some w => some (some (setState w callbackData.menuItem NSControlStateValueOn))
  | .Text => some (some w)

/-- The function `menuItemCallback` for a click on the item `sender`.  The
result is `none` when the callback data, the radio group or the context menu
is `NULL` where it is dereferenced, and on `ABORT`. -/
def menuItemCallback (env : Env) (w : World) (sender : ObjcId) : Option World :=
  let representedObject : Option MenuItemCallbackData :=
    match sender with
    | none => none
    | some i =>
      match w.items[i]? with
      | none => none
      | some it => it.representedObject
  match representedObject with
  | none => none
  | some callbackData =>
    match updateItemState w callbackData with
    | none => none
    | some none => some w
    | some (some w) =>
      let menuID := callbackData.menuID
      let menuType := w.menu.menuType
      let data : Option (Option String) :=
        if menuType = .ContextMenuType then
          match w.menu.parentData with
          | none => none
          | some contextMenu => some contextMenu.contextMenuData
        else some none
      match data with
      | none => none
      | some data =>
        match createMenuClickedMessage env menuID data with
        | none => none
        | some message => some (messageFromWindowCallback w message)

/-! ## A sample environment -/

mutual
/-- A compact JSON printer (no escaping of characters) that stands in for the
library encoder where a concrete `Env` is needed. -/
def printJson : JsonNode → String
  | .null => "null"
  | .bool b => if b then "true" else "false"
  | .string s => "\"" ++ s ++ "\""
  | .number n => toString n
  | .array cs => "[" ++ printJsonList cs ++ "]"
  | .object ms => "\x7b" ++ printJsonMembers ms ++ "\x7d"
/-- The elements of an array, separated by commas. -/
def printJsonList : List JsonNode → String
  | [] => ""
  | [c] => printJson c
  | c :: cs => printJson c ++ "," ++ printJsonList cs
/-- The members of an object, separated by commas. -/
def printJsonMembers : List (String × JsonNode) → String
  | [] => ""
  | [(k, c)] => "\"" ++ k ++ "\":" ++ printJson c
  | (k, c) :: ms => "\"" ++ k ++ "\":" ++ printJson c ++ "," ++ printJsonMembers ms
end

/-- An environment with the compact printer and the process name `"App"`. -/
def sampleEnv : Env := { json_encode := printJson, processName := "App" }

/-! ## Definitions used to state the properties -/

/-- The flag the specification gives to one modifier name. -/
def modifierFlag (name : String) : Nat :=
  if name = "CmdOrCtrl" ∨ name = "Super" then 1 <<< 20
  else if name = "OptionOrAlt" then 1 <<< 19
  else if name = "Shift" then 1 <<< 17
  else if name = "Control" then 1 <<< 18
  else 0

/-- The key names that `processAcceleratorKey` treats specially. -/
def namedKeys : List String :=
  ["Backspace", "Tab", "Return", "Escape", "Left", "Right", "Up", "Down", "Space", "Delete", "Home", "End", "Page Up", "Page Down", "F1", "F2", "F3", "F4", "F5", "F6", "F7", "F8", "F9", "F10", "F11", "F12", "F13", "F14", "F15", "F16", "F17", "F18", "F19", "F20", "F21", "F22", "F23", "F24", "F25", "F26", "F27", "F28", "F29", "F30", "F31", "F32", "F33", "F34", "F35", "NumLock"]

/-! ## A sample menu -/

/-- A radio item of the sample menu. -/
def sampleRadio (menuid : String) (hidden checked : Bool) : JsonNode :=
  .object [("t", .string "r"), ("I", .string menuid), ("l", .string menuid),
    ("C", .bool true), ("h", .bool hidden), ("c", .bool checked)]

/-- A sample menu: the text item `"open"`, the checked checkbox `"wrap"`, and
the submenu `"Mode"` with the radio items `"a"`, `"b"` (hidden) and `"c"`
(checked); all items have a callback. -/
def sampleMenuData : JsonNode :=
  .array [
    .object [("t", .string "t"), ("I", .string "open"), ("l", .string "Open"), ("C", .bool true)],
    .object [("t", .string "c"), ("I", .string "wrap"), ("l", .string "Wrap"), ("C", .bool true),
      ("c", .bool true)],
    .object [("l", .string "Mode"), ("S", .object [("i", .array [
      sampleRadio "a" false false, sampleRadio "b" true false, sampleRadio "c" false true])])]]

/-- The radio groups of the sample menu: one group with the members `"a"`,
`"b"` and `"c"` and `Length` 3. -/
def sampleRadioGroups : JsonNode :=
  .array [.object [("Members", .array [.string "a", .string "b", .string "c"]),
    ("Length", .number 3)]]

/-- The state after `ProcessMenu` on the sample menu, from the empty state.
Its items are 0 (`"open"`), 1 (`"wrap"`), 2 (the submenu item `"Mode"`),
3 (`"a"`) and 4 (`"c"`). -/
def sampleWorld : World :=
  match ProcessMenu sampleEnv {} (some sampleMenuData) (some sampleRadioGroups) with
  | some (w, _) => w
  | none => {}

/-- The native item 0 of the sample state: the text item `"open"`. -/
def sampleOpenItem : NSMenuItem :=
  { title := "Open", action := some "menuItemCallback:",
    representedObject :=
      some { menuItem := some 0, menuID := some "open", menuItemType := MenuItemType.Text } }

/-! ## The shape of a compiled menu -/

/-- A visible submenu item: not hidden, without a role, with a member `"S"`. -/
def isVisibleSubmenu (item : JsonNode) : Prop :=
  getJSONBool item "h" = false ∧ json_find_member item "r" = none ∧
    (json_find_member item "S").isSome = true

/-- The items under `"S"."i"` of an item, in JSON order; none when `"S"` or
`"i"` is absent. -/
def submenuItems (item : JsonNode) : List JsonNode :=
  match json_find_member item "S" with
  | some submenu =>
    match json_find_member submenu "i" with
    | some submenuItems => json_children submenuItems
    | none => []
  | none => []

/-- The label of a submenu item: the string of member `"l"`, `""` when the
member is absent; undefined when the member is not a string. -/
def submenuLabel (item : JsonNode) : Option String :=
  match json_find_member item "l" with
  | some menuNameNode => menuNameNode.string_?
  | none => some ""

/-- The ID of a user menu item: the string of member `"I"`, `""` without it. -/
def itemID (item : JsonNode) : String := (getJSONString item "I").getD ""

/-- The part of a native item by which it is recognised: its title, its
action, whether it is a separator, and the ID and the type in its callback
data (`none` for an item without callback data). -/
structure Face where
  title : String := ""
  action : Option String := none
  isSeparatorItem : Bool := false
  callback : Option (Option String × MenuItemType) := none
  deriving DecidableEq

/-- The face of a native item. -/
def face (it : NSMenuItem) : Face :=
  { title := it.title, action := it.action, isSeparatorItem := it.isSeparatorItem,
    callback := it.representedObject.map (fun data => (data.menuID, data.menuItemType)) }

/-- The face of the native item that stands for a role in the parent menu:
the application menu and the edit menu are items titled with the process name
and `Edit`, every other known role is an item with a fixed title and action,
and an unknown role has no item. -/
def roleFace (env : Env) (roleName : String) : Option Face :=
  if roleName = "appMenu" then some { title := env.processName }
  else if roleName = "editMenu" then some { title := "Edit" }
  else if roleName = "hide" then some { title := "Hide Window", action := some "hide:" }
  else if roleName = "hideothers" then
    some { title := "Hide Others", action := some "hideOtherApplications:" }
  else if roleName = "unhide" then
    some { title := "Show All", action := some "unhideAllApplications:" }
  else if roleName = "front" then
    some { title := "Bring All to Front", action := some "arrangeInFront:" }
  else if roleName = "undo" then some { title := "Undo", action := some "undo:" }
  else if roleName = "redo" then some { title := "Redo", action := some "redo:" }
  else if roleName = "cut" then some { title := "Cut", action := some "cut:" }
  else if roleName = "copy" then some { title := "Copy", action := some "copy:" }
  else if roleName = "paste" then some { title := "Paste", action := some "paste:" }
  else if roleName = "delete" then some { title := "Delete", action := some "delete:" }
  else if roleName = "pasteandmatchstyle" then
    some { title := "Paste and Match Style", action := some "pasteandmatchstyle:" }
  else if roleName = "selectall" then some { title := "Select All", action := some "selectAll:" }
  else if roleName = "minimize" then some { title := "Minimize", action := some "miniaturize:" }
  else if roleName = "zoom" then some { title := "Zoom", action := some "performZoom:" }
  else if roleName = "quit" then
    some { title := "Quit (More work TBD)", action := some "terminate:" }
  else if roleName = "togglefullscreen" then
    some { title := "Toggle Full Screen", action := some "toggleFullScreen:" }
  else none

/-- The face of the native item of a user item of the type `type`: a text,
checkbox or radio item is titled with the label (`"(empty)"` without one), has
the click callback as its action and, when `"C"` is true, callback data with
the ID of the item and its type; a separator is a separator item; any other
type has no item. -/
def userFace (item : JsonNode) (type : String) : Option Face :=
  let label := (getJSONString item "l").getD "(empty)"
  let callback (menuItemType : MenuItemType) : Option (Option String × MenuItemType) :=
    if getJSONBool item "C" then some (some (itemID item), menuItemType) else none
  if type = "t" then
    some { title := label, action := some "menuItemCallback:", callback := callback .Text }
  else if type = "s" then some { isSeparatorItem := true }
  else if type = "c" then
    some { title := label, action := some "menuItemCallback:", callback := callback .Checkbox }
  else if type = "r" then
    some { title := label, action := some "menuItemCallback:", callback := callback .Radio }
  else none

/-- The face of the native item of a user item, by its member `"t"`; `none`
without the member. -/
def typeFace (item : JsonNode) : Option Face :=
  match json_find_member item "t" with
  | some type =>
    match type.string_? with
    | some type => userFace item type
    | none => none
  | none => none

/-- What a JSON item that is not a visible submenu contributes to its parent
menu: the face of its one native item, or `none` when it contributes no item
(a hidden item, an unknown role, an item without a type or of an unknown
type). -/
def contribution (env : Env) (item : JsonNode) : Option Face :=
  if getJSONBool item "h" then none
  else
    match json_find_member item "r" with
    | some role =>
      match role.string_? with
      | some roleName => roleFace env roleName
      | none => none
    | none => typeFace item

/-- The native items `a` that a step has added for one JSON item are what the
contribution `f` asks for, in the state `w` after the step: none, or the one
item `n`, with the face `f`. -/
def Added (w : World) (n : Nat) (f : Option Face) (a : List Nat) : Prop :=
  match f with
  | none => a = []
  | some f => ∃ it : NSMenuItem, a = [n] ∧ w.items[n]? = some it ∧ face it = f

/-- The operations from `w` to `w'` keep the face of every item of `w`. -/
def FaceKept (w w' : World) : Prop :=
  ∀ (i : Nat) (it : NSMenuItem), w.items[i]? = some it →
    ∃ it', w'.items[i]? = some it' ∧ face it' = face it

/-- The native items `l` are what the JSON item `item`, not a visible submenu,
contributes in the state `w`: no item when `contribution` is `none`, and
otherwise exactly one item, whose face is the one `contribution` gives. -/
def Contributed (env : Env) (w : World) (item : JsonNode) (l : List Nat) : Prop :=
  match contribution env item with
  | none => l = []
  | some f => ∃ (i : Nat) (it : NSMenuItem), l = [i] ∧ w.items[i]? = some it ∧ face it = f

/-- The native items `ids` (in menu order) are a compilation of the JSON items
`items` (in JSON order) in the state `w`: `ids` is made of one block per item,
in the order of the items; the block of a visible submenu item is exactly one
native item that is titled with its label and whose submenu is a menu object
(of index at least `b`, with the same title) whose items are, in turn, a
compilation of the items under `"S"."i"`; the block of any other item is what
that item contributes (`Contributed`): at most one native item, recognised by
its face. -/
inductive CompiledFrom (env : Env) (w : World) (b : Nat) : List Nat → List JsonNode → Prop
  | nil : CompiledFrom env w b [] []
  | submenu (i : Nat) (ids : List Nat) (item : JsonNode) (items : List JsonNode)
      (it : NSMenuItem) (m : Nat) (mn : NSMenu) :
      isVisibleSubmenu item → w.items[i]? = some it → submenuLabel item = some it.title →
      it.submenu = some m → b ≤ m → w.menus[m]? = some mn → mn.title = it.title →
      CompiledFrom env w b mn.itemArray (submenuItems item) → CompiledFrom env w b ids items →
      CompiledFrom env w b (i :: ids) (item :: items)
  | other (l ids : List Nat) (item : JsonNode) (items : List JsonNode) :
      ¬ isVisibleSubmenu item → Contributed env w item l → CompiledFrom env w b ids items →
      CompiledFrom env w b (l ++ ids) (item :: items)

/-- The items that the code can compile without an undefined read: a role is a
string, the label of a submenu is a string when present, the type of a user
item is a string when present, and the modifiers of a text item are strings. -/
inductive MenuItemJSON : JsonNode → Prop
  | hidden (item : JsonNode) : getJSONBool item "h" = true → MenuItemJSON item
  | role (item : JsonNode) (roleName : String) :
      json_find_member item "r" = some (JsonNode.string roleName) → MenuItemJSON item
  | submenu (item : JsonNode) (name : String) :
      isVisibleSubmenu item → submenuLabel item = some name →
      (∀ c, c ∈ submenuItems item → MenuItemJSON c) → MenuItemJSON item
  | untyped (item : JsonNode) :
      json_find_member item "r" = none → json_find_member item "S" = none →
      json_find_member item "t" = none → MenuItemJSON item
  | typed (item : JsonNode) (t : String) :
      json_find_member item "r" = none → json_find_member item "S" = none →
      json_find_member item "t" = some (JsonNode.string t) → t ≠ "t" → MenuItemJSON item
  | text (item : JsonNode) :
      json_find_member item "r" = none → json_find_member item "S" = none →
      json_find_member item "t" = some (JsonNode.string "t") →
      (∀ accelerator modifiersList, json_find_member item "a" = some accelerator →
        json_find_member accelerator "Modifiers" = some modifiersList →
        ∀ c, c ∈ json_children modifiersList → ∃ s, c = JsonNode.string s) →
      MenuItemJSON item

/-- The heaps of `w'` extend those of `w`: the item objects below index `n`
and the menu objects below index `b` other than `parent` are the same, the
heaps are at least that large, and the items of the menu `parent` are those it
had followed by `added`. -/
structure Grows (n b : Nat) (parent : ObjcId) (added : List Nat) (w w' : World) : Prop where
  items_keep : ∀ i, i < n → w'.items[i]? = w.items[i]?
  items_le : n ≤ w'.items.length
  menus_keep : ∀ m, m < b → parent ≠ some m → w'.menus[m]? = w.menus[m]?
  menus_le : b ≤ w'.menus.length
  parent_eq : ∀ p, parent = some p → p < b →
    w'.menus[p]? = (w.menus[p]?).map (fun mn => { mn with itemArray := mn.itemArray ++ added })

/-! ## Registration in `menuItemMap` -/

/-- A checkbox or radio item that is compiled when it is reached: not hidden,
no role, not a submenu, and of type `"c"` or `"r"`.  The callback flag `"C"`
plays no part. -/
def isRegistered (item : JsonNode) : Prop :=
  getJSONBool item "h" = false ∧ json_find_member item "r" = none ∧
  json_find_member item "S" = none ∧
  (json_find_member item "t" = some (JsonNode.string "c") ∨
   json_find_member item "t" = some (JsonNode.string "r"))

/-- The items that the compilation of the list `items` reaches: the items of
the list and, recursively, the items under `"S"."i"` of its visible submenu
items.  Nothing under a hidden item or a role item is reached. -/
inductive Reached : List JsonNode → JsonNode → Prop
  | here (items : List JsonNode) (item : JsonNode) : item ∈ items → Reached items item
  | under (items : List JsonNode) (sub item : JsonNode) :
      sub ∈ items → isVisibleSubmenu sub → Reached (submenuItems sub) item → Reached items item

/-- The native item that is made for the checkbox or radio item `item`: its
title is the label (`"(empty)"` without one), it is enabled unless `"d"` is
true, it is on exactly when `"c"` is true, and its action is the click
callback. -/
def IsNativeOf (item : JsonNode) (it : NSMenuItem) : Prop :=
  it.title = (getJSONString item "l").getD "(empty)" ∧
  it.enabled = !(getJSONBool item "d") ∧
  it.state = (if getJSONBool item "c" then NSControlStateValueOn else NSControlStateValueOff) ∧
  it.action = some "menuItemCallback:"

/-- What the compilation of the JSON items `items` under the menu `parent`
does to the state, from `w` to `w'`: the heaps grow, the parent gets native
items `added` that are a compilation of `items`, every entry of `menuItemMap`
is an old entry or maps the ID of a reached, registered item to a native item
made for such an item, old keys stay, every reached, registered item has its
ID as a key, and the native menu of the `Menu` struct stays. -/
structure CompileSpec (env : Env) (w w' : World) (parent : ObjcId) (items : List JsonNode) :
    Prop where
  grows : ∃ added : List Nat,
    Grows w.items.length w.menus.length parent added w w' ∧
    CompiledFrom env w' w.menus.length added items
  map_new : ∀ (k : String) (i : Nat), hashmap_get w'.menu.menuItemMap k = some i →
    hashmap_get w.menu.menuItemMap k = some i ∨
    ∃ item it, Reached items item ∧ isRegistered item ∧ itemID item = k ∧
      w'.items[i]? = some it ∧ IsNativeOf item it
  map_keep : ∀ k : String, (hashmap_get w.menu.menuItemMap k).isSome = true →
    (hashmap_get w'.menu.menuItemMap k).isSome = true
  map_reg : ∀ item, Reached items item → isRegistered item →
    (hashmap_get w'.menu.menuItemMap (itemID item)).isSome = true
  menu_menu : w'.menu.menu = w.menu.menu

/-- The state in which `ProcessMenu` calls `processMenuData` when it starts
from the empty state: one empty native menu, stored in the `Menu` struct. -/
def sampleStart : World :=
  { menus := [{ title := "", autoenablesItems := false }], menu := { menu := some 0 } }

/-! ## Radio groups the code reads in full -/

/-- The JSON `radioGroup` is a radio group with the member IDs `ids` whose
`"Length"` is the number of its members: `"Length"` is a number that
`getJSONInt` reads and that leaves room for the terminator, and `"Members"`
holds the strings `ids`. -/
def IsRadioGroupOf (radioGroup : JsonNode) (ids : List String) : Prop :=
  getJSONInt radioGroup "Length" = some (ids.length : Int) ∧
  ids.length < 2147483647 ∧
  allValid ((match json_find_member radioGroup "Members" with
    | some members => json_children members
    | none => []).map JsonNode.string_?) = some ids

/-- A radio group of the sample menu without the hidden item: the members
`"a"` and `"c"`, `Length` 2. -/
def sampleGroup : JsonNode :=
  .object [("Members", .array [.string "a", .string "c"]), ("Length", .number 2)]

/-! # The application (`ffenestri_darwin.c`)

A shallow embedding of the parts of `v2/internal/ffenestri/ffenestri_darwin.c`
that handle script messages, theme changes, message dialogs, window
decorations and the fullscreen state.

* `struct Application` is a record; the state `AppWorld` adds what the code
  reads from and does to its surroundings: the global `debug` flag, the global
  `dialogIconCache`, the `AppleInterfaceStyle` user default, the style mask and
  the backing scale factor of the main window, the messages handed to
  `app->sendMessageToBackend` and to `messageFromWindowCallback`, and the
  native calls made, in order.
* `ON_MAIN_THREAD` hands its block to `dispatch`, which is `dispatch_async` on
  the main queue: the block runs later, on the main thread, and the caller
  goes on at once.  `ToggleFullscreen`, whose callers read the window state
  that its block changes, puts the block on `AppWorld.mainQueue`, and
  `runMainQueue` is the main thread running the waiting blocks.  Where only
  what the block does is in question (`Show`, `ExecJS`, the window drag,
  `MessageDialog`) the block is given by its body.
-/

/-- The constant `NSWindowStyleMaskTitled`. -/
def NSWindowStyleMaskTitled : Nat := 1
/-- The constant `NSWindowStyleMaskClosable`. -/
def NSWindowStyleMaskClosable : Nat := 2
/-- The constant `NSWindowStyleMaskMiniaturizable`. -/
def NSWindowStyleMaskMiniaturizable : Nat := 4
/-- The constant `NSWindowStyleMaskResizable`. -/
def NSWindowStyleMaskResizable : Nat := 8
/-- The constant `NSWindowStyleMaskFullscreen`. -/
def NSWindowStyleMaskFullscreen : Nat := 1 <<< 14
/-- The constant `NSWindowStyleMaskFullSizeContentView`. -/
def NSWindowStyleMaskFullSizeContentView : Nat := 1 <<< 15
/-- The constant `NSAlertStyleWarning`. -/
def NSAlertStyleWarning : Nat := 0
/-- The constant `NSAlertStyleInformational`. -/
def NSAlertStyleInformational : Nat := 1
/-- The constant `NSAlertStyleCritical`. -/
def NSAlertStyleCritical : Nat := 2
/-- The constant `NSAlertFirstButtonReturn`. -/
def NSAlertFirstButtonReturn : Int := 1000
/-- The constant `NSAlertSecondButtonReturn`. -/
def NSAlertSecondButtonReturn : Int := 1001
/-- The constant `NSAlertThirdButtonReturn`. -/
def NSAlertThirdButtonReturn : Int := 1002
/-- The constant `MAXMESSAGE`: the size of `logbuffer`. -/
def MAXMESSAGE : Nat := 1024 * 10

/-- The record `struct Application` without the function pointer
`sendMessageToBackend`, whose calls are recorded in `AppWorld.backend`.
`decorations` is a set of style mask bits. -/
structure Application where
  application : ObjcId := none
  delegate : ObjcId := none
  mainWindow : ObjcId := none
  wkwebview : ObjcId := none
  manager : ObjcId := none
  config : ObjcId := none
  mouseEvent : ObjcId := none
  mouseDownMonitor : ObjcId := none
  mouseUpMonitor : ObjcId := none
  title : Option String := none
  width : Int := 0
  height : Int := 0
  minWidth : Int := 0
  minHeight : Int := 0
  maxWidth : Int := 0
  maxHeight : Int := 0
  resizable : Int := 0
  devtools : Int := 0
  fullscreen : Int := 0
  red : Int := 0
  green : Int := 0
  blue : Int := 0
  alpha : Int := 0
  webviewIsTranparent : Int := 0
  appearance : Option String := none
  decorations : Nat := 0
  logLevel : Int := 0
  frame : Int := 0
  startHidden : Int := 0
  maximised : Int := 0
  titlebarAppearsTransparent : Int := 0
  hideTitle : Int := 0
  hideTitleBar : Int := 0
  fullSizeContent : Int := 0
  useToolBar : Int := 0
  hideToolbarSeparator : Int := 0
  windowBackgroundIsTranslucent : Int := 0
  menuManager : Option Nat := none
  bindings : Option String := none
  running : Bool := false
  deriving DecidableEq

/-- A call the modelled functions make on a Cocoa object or class, with the
receiver first, or on a part of the bridge outside these sources
(`ShowTrayMenus`, on the menu manager).  A message whose receiver is `nil`
does nothing. -/
inductive NativeCall where
  | removeScriptMessageHandlerForName (manager : ObjcId) (name : String)
  | makeKeyAndOrderFront (window : ObjcId)
  | activateIgnoringOtherApps (application : ObjcId) (flag : Bool)
  | ShowTrayMenus (menuManager : Option Nat)
  | setValueForKey (config : ObjcId) (value : Bool) (key : String)
  | hide
  | performWindowDragWithEvent (window : ObjcId) (event : ObjcId)
  | evaluateJavaScript (webview : ObjcId) (js : String)
  | toggleFullScreen (window : ObjcId)
  deriving DecidableEq

/-- A block that waits on the main queue: the block of `ToggleFullscreen`. -/
inductive Block where
  | ToggleFullscreen
  deriving DecidableEq

/-- The application and its surroundings.  `styleMask` and
`backingScaleFactor` are the values the main window has (the scale factor
after the cast to `int`); a message to a `nil` main window returns 0.
`mainQueue` holds the blocks handed to `dispatch` that have not run yet,
oldest first. -/
structure AppWorld where
  app : Application := {}
  debug : Int := 0
  dialogIconCache : hashmap_s Nat := []
  AppleInterfaceStyle : Option String := none
  styleMask : Nat := 0
  backingScaleFactor : Int := 1
  backend : List String := []
  sent : List String := []
  calls : List NativeCall := []
  mainQueue : List Block := []
  deriving DecidableEq

/-- A call of `app->sendMessageToBackend`. -/
def sendMessageToBackend (w : AppWorld) (message : String) : AppWorld :=
  { w with backend := w.backend ++ [message] }

/-- A call of `messageFromWindowCallback` from the application code. -/
def AppWorld.messageFromWindowCallback (w : AppWorld) (message : String) : AppWorld :=
  { w with sent := w.sent ++ [message] }

/-- A native call, recorded. -/
def nativeCall (w : AppWorld) (call : NativeCall) : AppWorld :=
  { w with calls := w.calls ++ [call] }

/-- The longest prefix of whole characters that fits `size` bytes of UTF-8. -/
def takeBytes : Nat → List Char → List Char
  | _, [] => []
  | size, c :: cs => if c.utf8Size ≤ size then c :: takeBytes (size - c.utf8Size) cs else []

/-- The text `vsnprintf` leaves in a buffer of `size` bytes for a format with
at most one directive, which is `%s`.  Where the C function cuts inside a
character of several bytes, the model cuts before that character. -/
def vsnprintf (size : Nat) (format : String) (arg : Option String) : String :=
  let text :=
    match arg with
    | some arg => format.replace "%s" arg
    | none => format
  String.mk (takeBytes (size - 1) text.data)

/-- The function `Debug`, for the formats used here. -/
def Debug (w : AppWorld) (message : String) (arg : Option String) : AppWorld :=
  if w.debug ≠ 0 then
    let temp := concat "LTFfenestri (C) | " message
    sendMessageToBackend w (vsnprintf MAXMESSAGE temp arg)
  else w

/-- The function `isRetina`. -/
def isRetina (w : AppWorld) : Bool :=
  let scale : Int :=
    match w.app.mainWindow with
    | none => 0
    | some _ => w.backingScaleFactor
  if scale = 1 then false else true

/-- The function `HideMouse`. -/
def HideMouse (w : AppWorld) : AppWorld := nativeCall w .hide

/-- The function `Show`. -/
def Show (w : AppWorld) : AppWorld :=
  let w := nativeCall w (.makeKeyAndOrderFront w.app.mainWindow)
  nativeCall w (.activateIgnoringOtherApps w.app.application true)

/-- A script message (`WKScriptMessage`): its name and its body, `none` when
the body has no UTF-8 string (`cstr` gives `NULL`). -/
structure ScriptMessage where
  name : String
  body : Option String
  deriving DecidableEq

/-- What the application code obtains from outside: the JSON parser. -/
structure AppEnv where
  json_decode : String → Option JsonNode

/-- The branch of `messageHandler` for the name `"contextMenu"`. -/
def contextMenuMessage (env : AppEnv) (w : AppWorld) (message : ScriptMessage) : AppWorld :=
  match message.body with
  | none => Debug w "EMPTY CONTEXT MENU MESSAGE!!\n" none
  | some contextMenuMessage =>
    match env.json_decode contextMenuMessage with
    | none => Debug w "Error decoding context menu message: %s" (some contextMenuMessage)
    | some contextMenuMessageJSON =>
      match json_find_member contextMenuMessageJSON "id" with
      | none => Debug w "Error decoding context menu ID: %s" (some contextMenuMessage)
      | some contextMenuIDNode =>
        if contextMenuIDNode.string_? = none then
          Debug w "Error decoding context menu ID (Not a string): %s" (some contextMenuMessage)
        else
        match json_find_member contextMenuMessageJSON "data" with
        | none => Debug w "Error decoding context menu data: %s" (some contextMenuMessage)
        | some contextMenuDataNode =>
          if contextMenuDataNode.string_? = none then
            Debug w "Error decoding context menu data (Not a string): %s"
              (some contextMenuMessage)
          else w

/-- The function `messageHandler`.  The result is `none` where the code hands
a `NULL` body to the backend. -/
def messageHandler (env : AppEnv) (w : AppWorld) (message : ScriptMessage) : Option AppWorld :=
  let name := message.name
  if name = "completed" then
    let w := nativeCall w (.removeScriptMessageHandlerForName w.app.manager (str "completed"))
    let w := if w.app.startHidden = 0 then Show w else w
    let w := nativeCall w (.ShowTrayMenus w.app.menuManager)
    let w := nativeCall w
      (.setValueForKey w.app.config false (str "suppressesIncrementalRendering"))
    some (sendMessageToBackend w "SS")
  else if name = "windowDrag" then
    if w.app.mouseEvent ≠ none then
      let w := HideMouse w
      some (nativeCall w (.performWindowDragWithEvent w.app.mainWindow w.app.mouseEvent))
    else some w
  else if name = "contextMenu" then
    some (contextMenuMessage env w message)
  else
    match message.body with
    | none => none
    | some m => some (sendMessageToBackend w m)

/-- The function `isDarkMode`. -/
def isDarkMode (w : AppWorld) : Bool :=
  let mode : Option String := w.AppleInterfaceStyle
  match mode with
  | none => false
  | some mode => decide (mode = "Dark")

/-- The function `ExecJS`. -/
def ExecJS (w : AppWorld) (js : String) : AppWorld :=
  nativeCall w (.evaluateJavaScript w.app.wkwebview (str js))

/-- The function `emitThemeChange`. -/
def emitThemeChange (w : AppWorld) : AppWorld :=
  let currentThemeIsDark := isDarkMode w
  if currentThemeIsDark then
    w.messageFromWindowCallback
      "Ej\x7b\"name\":\"wails:system:themechange\",\"data\":[true]\x7d"
  else
    w.messageFromWindowCallback
      "Ej\x7b\"name\":\"wails:system:themechange\",\"data\":[false]\x7d"

/-- The function `themeChanged`. -/
def themeChanged (w : AppWorld) : AppWorld :=
  let currentThemeIsDark := isDarkMode w
  if currentThemeIsDark then
    ExecJS w "window.wails.Events.Emit( \x27wails:system:themechange\x27, true );"
  else
    ExecJS w "window.wails.Events.Emit( \x27wails:system:themechange\x27, false );"

/-! ## The fullscreen state -/

/-- The value of `msg(app->mainWindow, s("styleMask"))`. -/
def windowStyleMask (w : AppWorld) : Nat :=
  match w.app.mainWindow with
  | none => 0
  | some _ => w.styleMask

/-- Modelled from the spec: the Cocoa method `toggleFullScreen:`, which is not
part of the sources, flips the bit `1 << 14` of the style mask of the window
that receives it. -/
def toggleFullScreen (w : AppWorld) (window : ObjcId) : AppWorld :=
  let w := nativeCall w (.toggleFullScreen window)
  match window with
  | none => w
  | some _ => { w with styleMask := w.styleMask ^^^ (1 <<< 14) }

/-- The function `dispatch`: `dispatch_async` on the main queue.  The block is
put at the end of the queue and the caller goes on. -/
def dispatch (w : AppWorld) (func : Block) : AppWorld :=
  { w with mainQueue := w.mainQueue ++ [func] }

/-- The function `ToggleFullscreen`: it hands its block to `dispatch`. -/
def ToggleFullscreen (w : AppWorld) : AppWorld :=
  dispatch w .ToggleFullscreen

/-- The main thread runs a block.  The block of `ToggleFullscreen` negates
`app->fullscreen` and sends `toggleFullScreen:` to the main window. -/
def runBlock (w : AppWorld) : Block → AppWorld
  | .ToggleFullscreen =>
    let w := { w with app := { w.app with fullscreen := if w.app.fullscreen = 0 then 1 else 0 } }
    toggleFullScreen w w.app.mainWindow

/-- The main thread takes the waiting blocks off the main queue and runs them,
oldest first. -/
def runMainQueue (w : AppWorld) : AppWorld :=
  w.mainQueue.foldl runBlock { w with mainQueue := [] }

/-- The function `isFullScreen`; the cast to `int` keeps the low 32 bits. -/
def isFullScreen (w : AppWorld) : Bool :=
  let mask : Nat := windowStyleMask w % 2 ^ 32
  let result : Bool :=
    decide ((mask &&& NSWindowStyleMaskFullscreen) = NSWindowStyleMaskFullscreen)
  result

/-- The function `Fullscreen`. -/
def Fullscreen (w : AppWorld) : AppWorld :=
  let w := Debug w "Fullscreen Called" none
  if !isFullScreen w then ToggleFullscreen w else w

/-- The function `UnFullscreen`. -/
def UnFullscreen (w : AppWorld) : AppWorld :=
  let w := Debug w "UnFullscreen Called" none
  if isFullScreen w then ToggleFullscreen w else w

/-! ## Message dialogs -/

/-- A button of an alert: its title and its key equivalent, `none` when the
code has not set one. -/
structure NSButton where
  title : String
  keyEquivalent : Option String := none
  deriving DecidableEq

/-- An `NSAlert` as the code configures it: a member is `none` when the code
has not set it. -/
structure NSAlert where
  alertStyle : Option Nat := none
  messageText : Option String := none
  informativeText : Option String := none
  buttons : List NSButton := []
  icon : ObjcId := none
  deriving DecidableEq

/-- The function `processDialogButton`, for strings that are not `NULL`.
`STR_HAS_CHARS` and `STREQ` are macros of `common.h`: the string is not `NULL`
and not empty; the strings are equal. -/
def processDialogButton (alert : NSAlert) (buttonTitle cancelButton defaultButton : String) :
    NSAlert :=
  if buttonTitle ≠ "" then
    let button : NSButton := { title := str buttonTitle }
    let button :=
      if buttonTitle = defaultButton then { button with keyEquivalent := some (str "\r") }
      else button
    let button :=
      if buttonTitle = cancelButton then { button with keyEquivalent := some (str "\x1b") }
      else button
    { alert with buttons := alert.buttons ++ [button] }
  else alert

/-- The part of `MessageDialog` that looks for the dialog image: the image
found, `NULL` when there is none, and the keys looked up in `dialogIconCache`,
in order. -/
def lookupDialogImage (w : AppWorld) (dialogIcon : String) : ObjcId × List String :=
  let dialogImage : ObjcId := none
  let lookups : List String := []
  let themeIcon := concat dialogIcon (if isDarkMode w then "-dark" else "-light")
  let found : ObjcId × List String :=
    if isRetina w then
      let dialogIcon2x := concat themeIcon "2x"
      let dialogImage := hashmap_get w.dialogIconCache dialogIcon2x
      let lookups := lookups ++ [dialogIcon2x]
      if dialogImage = none then
        let dialogIcon2x := concat dialogIcon "2x"
        (hashmap_get w.dialogIconCache dialogIcon2x, lookups ++ [dialogIcon2x])
      else (dialogImage, lookups)
    else (dialogImage, lookups)
  let found : ObjcId × List String :=
    if found.1 = none then (hashmap_get w.dialogIconCache themeIcon, found.2 ++ [themeIcon])
    else found
  if found.1 = none then (hashmap_get w.dialogIconCache dialogIcon, found.2 ++ [dialogIcon])
  else found

/-- What a run of `MessageDialog` leaves: the state, the alert shown and the
keys looked up in `dialogIconCache`. -/
structure MessageDialogRun where
  world : AppWorld
  alert : NSAlert
  lookups : List String
  deriving DecidableEq

/-- The function `MessageDialog`; `response` is the value `runModal` returns.
Only `type` may be `NULL`.  The result is `none` when `dialogIcon` is `NULL`
where `concat` reads it. -/
def MessageDialog (w : AppWorld) (response : Int) (callbackID : String) (type : Option String)
    (title message icon button1 button2 button3 button4 defaultButton cancelButton : String) :
    Option MessageDialogRun :=
  let alert : NSAlert := {}
  let dialogType : Option String := type
  let dialogIcon : Option String := type
  let dialogType : String :=
    match dialogType with
    | none => "info"
    | some dialogType => dialogType
  let alert :=
    if dialogType = "info" ∨ dialogType = "question" then
      { alert with alertStyle := some NSAlertStyleInformational }
    else if dialogType = "warning" then
      { alert with alertStyle := some NSAlertStyleWarning }
    else if dialogType = "error" then
      { alert with alertStyle := some NSAlertStyleCritical }
    else alert
  let alert := if title ≠ "" then { alert with messageText := some (str title) } else alert
  let alert := if message ≠ "" then { alert with informativeText := some (str message) } else alert
  let alert := processDialogButton alert button1 cancelButton defaultButton
  let alert := processDialogButton alert button2 cancelButton defaultButton
  let alert := processDialogButton alert button3 cancelButton defaultButton
  let alert := processDialogButton alert button4 cancelButton defaultButton
  let dialogIcon : Option String := if icon ≠ "" then some icon else dialogIcon
  match dialogIcon with
  | none => none
  | some dialogIcon =>
    let found := lookupDialogImage w dialogIcon
    let dialogImage := found.1
    let alert := if dialogImage ≠ none then { alert with icon := dialogImage } else alert
    let buttonPressed : String :=
      if response = NSAlertFirstButtonReturn then button1
      else if response = NSAlertSecondButtonReturn then button2
      else if response = NSAlertThirdButtonReturn then button3
      else button4
    let callback := concat "DM" callbackID
    let header := concat callback "|"
    let responseMessage := concat header buttonPressed
    some { world := sendMessageToBackend w responseMessage, alert := alert, lookups := found.2 }

/-! ## Window decorations -/

/-- The function `DisableFrame`. -/
def DisableFrame (app : Application) : Application :=
  { app with frame := 0 }

/-- The function `processDecorations`. -/
def processDecorations (app : Application) : Application :=
  let decorations : Nat := 0
  let decorations :=
    if app.frame = 1 then
      let decorations :=
        if app.hideTitleBar = 0 then decorations ||| NSWindowStyleMaskTitled else decorations
      decorations ||| (NSWindowStyleMaskClosable ||| NSWindowStyleMaskMiniaturizable)
    else decorations
  let decorations :=
    if app.resizable ≠ 0 then decorations ||| NSWindowStyleMaskResizable else decorations
  let decorations :=
    if app.fullscreen ≠ 0 then decorations ||| NSWindowStyleMaskFullscreen else decorations
  let decorations :=
    if app.fullSizeContent ≠ 0 ∨ app.frame = 0 then
      decorations ||| NSWindowStyleMaskFullSizeContentView
    else decorations
  { app with decorations := decorations }

/-! ## A sample application -/

/-- The JSON parser of the sample environment: it parses nothing. -/
def sampleAppEnv : AppEnv := { json_decode := fun _ => none }

/-- A sample application: a main window (object 0) that is not fullscreen,
a content manager (object 1), a web view (object 2), no frame asked for yet,
dark mode on, one cached dialog icon. -/
def sampleApp : AppWorld :=
  { app :=
      { mainWindow := some 0, manager := some 1, wkwebview := some 2, frame := 1, resizable := 1 },
    AppleInterfaceStyle := some "Dark",
    dialogIconCache := [("info-dark", 7)],
    styleMask := 15 }

/-! # Theorems -/

/-! ## Click messages -/

/-- C1: for a non-NULL `menuItemID` and any `data`, `createMenuClickedMessage`
returns `"MC"` followed by the JSON encoding of the object whose first member
is `"i"` with the string `menuItemID`, followed by a member `"data"` with the
string `data` exactly when `data` is not NULL. -/
theorem createMenuClickedMessage_eq (env : Env) (menuItemID : String) (data : Option String) :
    createMenuClickedMessage env (some menuItemID) data =
      some ("MC" ++ env.json_encode (JsonNode.object
        (("i", JsonNode.string menuItemID) ::
          (match data with
           | some d => [("data", JsonNode.string d)]
           | none => [])))) := by
  cases data <;> rfl

theorem createMenuClickedMessage_ne_none (env : Env) (menuItemID data : Option String)
    (h : menuItemID ≠ none) : createMenuClickedMessage env menuItemID data ≠ none := by
  cases menuItemID with
  | none => exact absurd rfl h
  | some a => simp [createMenuClickedMessage]

/-- C10: `createMenuClickedMessage` aborts (produces no message) if and only
if `menuItemID` is NULL, whatever `data` is, NULL included. -/
theorem createMenuClickedMessage_abort_iff (env : Env) (menuItemID data : Option String) :
    createMenuClickedMessage env menuItemID data = none ↔ menuItemID = none := by
  cases menuItemID <;> simp [createMenuClickedMessage]

/-! ## Accelerators and modifiers -/

/-- C9: `processAcceleratorKey` returns the empty string for a NULL key, the
one-character string with the fixed code point for each named key, the
character U+F703+n for `"F<n>"` with n from 1 to 35, and the key itself for
every other key (names are matched case-sensitively). -/
theorem processAcceleratorKey_spec :
    processAcceleratorKey none = "" ∧
    processAcceleratorKey (some "Backspace") = String.singleton (Char.ofNat 0x0008) ∧
    processAcceleratorKey (some "Tab") = String.singleton (Char.ofNat 0x0009) ∧
    processAcceleratorKey (some "Return") = String.singleton (Char.ofNat 0x000D) ∧
    processAcceleratorKey (some "Escape") = String.singleton (Char.ofNat 0x001B) ∧
    processAcceleratorKey (some "Left") = String.singleton (Char.ofNat 0x001C) ∧
    processAcceleratorKey (some "Right") = String.singleton (Char.ofNat 0x001D) ∧
    processAcceleratorKey (some "Up") = String.singleton (Char.ofNat 0x001E) ∧
    processAcceleratorKey (some "Down") = String.singleton (Char.ofNat 0x001F) ∧
    processAcceleratorKey (some "Space") = String.singleton (Char.ofNat 0x0020) ∧
    processAcceleratorKey (some "Delete") = String.singleton (Char.ofNat 0x007F) ∧
    processAcceleratorKey (some "Home") = String.singleton (Char.ofNat 0x2196) ∧
    processAcceleratorKey (some "End") = String.singleton (Char.ofNat 0x2198) ∧
    processAcceleratorKey (some "Page Up") = String.singleton (Char.ofNat 0x21DE) ∧
    processAcceleratorKey (some "Page Down") = String.singleton (Char.ofNat 0x21DF) ∧
    processAcceleratorKey (some "NumLock") = String.singleton (Char.ofNat 0xF739) ∧
    (∀ n : Nat, 1 ≤ n → n ≤ 35 →
      processAcceleratorKey (some ("F" ++ toString n)) =
        String.singleton (Char.ofNat (0xF703 + n))) ∧
    (∀ key : String, key ∉ namedKeys → processAcceleratorKey (some key) = key) := by
  refine ⟨rfl, by decide, by decide, by decide, by decide, by decide, by decide, by decide,
    by decide, by decide, by decide, by decide, by decide, by decide, by decide, by decide,
    ?_, ?_⟩
  · intro n h1 h2
    interval_cases n <;> decide
  · intro key h
    simp only [namedKeys, List.mem_cons, List.mem_singleton, not_or] at h
    simp [processAcceleratorKey, h, str]

/-- Witness for C9: the key `"F7"`, the lower-case `"backspace"` and `"x"`. -/
theorem processAcceleratorKey_spec_witness :
    processAcceleratorKey (some "F7") = String.singleton (Char.ofNat (0xF703 + 7)) ∧
    processAcceleratorKey (some "backspace") = "backspace" ∧
    processAcceleratorKey (some "x") = "x" :=
  ⟨processAcceleratorKey_spec.2.2.2.2.2.2.2.2.2.2.2.2.2.2.2.2.1 7 (by decide) (by decide),
   processAcceleratorKey_spec.2.2.2.2.2.2.2.2.2.2.2.2.2.2.2.2.2 "backspace" (by decide),
   processAcceleratorKey_spec.2.2.2.2.2.2.2.2.2.2.2.2.2.2.2.2.2 "x" (by decide)⟩

theorem parseModifierStep_eq (result : Nat) (m : String) :
    parseModifierStep result m = result ||| modifierFlag m := by
  unfold parseModifierStep modifierFlag
  by_cases h1 : m = "CmdOrCtrl"
  · subst h1; simp; rfl
  by_cases h2 : m = "OptionOrAlt"
  · subst h2; simp; rfl
  by_cases h3 : m = "Shift"
  · subst h3; simp; rfl
  by_cases h4 : m = "Super"
  · subst h4; simp; rfl
  by_cases h5 : m = "Control"
  · subst h5; simp; rfl
  simp [h1, h2, h3, h4, h5]

theorem foldl_parseModifierStep (ms : List String) (result : Nat) :
    ms.foldl parseModifierStep result
      = result ||| (ms.map modifierFlag).foldr (fun a b => a ||| b) 0 := by
  induction ms generalizing result with
  | nil => simp
  | cons m ms ih => simp [ih, parseModifierStep_eq, Nat.lor_assoc]

theorem testBit_foldr_lor (l : List Nat) (i : Nat) :
    (l.foldr (fun a b => a ||| b) 0).testBit i = true ↔ ∃ x ∈ l, x.testBit i = true := by
  induction l with
  | nil => simp
  | cons a l ih => simp [Nat.testBit_lor, ih]

/-- C8: `parseModifiers` returns the bitwise OR, over the names of the list, of
Command (1<<20) for `"CmdOrCtrl"` and `"Super"`, Option (1<<19) for
`"OptionOrAlt"`, Shift (1<<17) for `"Shift"`, Control (1<<18) for `"Control"`
and 0 for any other name; the empty list gives 0; two lists with the same
names, in any order and with any repetition, give the same result. -/
theorem parseModifiers_spec :
    (∀ ms : List String,
      parseModifiers ms = (ms.map modifierFlag).foldr (fun a b => a ||| b) 0) ∧
    parseModifiers [] = 0 ∧
    (∀ ms ms' : List String, (∀ x, x ∈ ms ↔ x ∈ ms') → parseModifiers ms = parseModifiers ms') := by
  have h1 : ∀ ms : List String,
      parseModifiers ms = (ms.map modifierFlag).foldr (fun a b => a ||| b) 0 := by
    intro ms
    simp [parseModifiers, foldl_parseModifierStep]
  refine ⟨h1, rfl, ?_⟩
  intro ms ms' h
  rw [h1, h1]
  apply Nat.eq_of_testBit_eq
  intro i
  rw [Bool.eq_iff_iff, testBit_foldr_lor, testBit_foldr_lor]
  simp only [List.mem_map]
  constructor
  · rintro ⟨x, ⟨m, hm, rfl⟩, hx⟩
    exact ⟨_, ⟨m, (h m).1 hm, rfl⟩, hx⟩
  · rintro ⟨x, ⟨m, hm, rfl⟩, hx⟩
    exact ⟨_, ⟨m, (h m).2 hm, rfl⟩, hx⟩

/-- Witness for C8: a list with a repeated name in another order. -/
theorem parseModifiers_spec_witness :
    parseModifiers ["Shift", "CmdOrCtrl", "Shift"] = parseModifiers ["CmdOrCtrl", "Shift"] :=
  parseModifiers_spec.2.2 _ _ (by intro x; simp; tauto)

/-! ## Basic facts about the native messages -/

@[simp] theorem msgItem_menus (w : World) (item : ObjcId) (f : NSMenuItem → NSMenuItem) :
    (msgItem w item f).menus = w.menus := by
  unfold msgItem; split
  · rfl
  · split <;> rfl

@[simp] theorem msgItem_menu (w : World) (item : ObjcId) (f : NSMenuItem → NSMenuItem) :
    (msgItem w item f).menu = w.menu := by
  unfold msgItem; split
  · rfl
  · split <;> rfl

@[simp] theorem msgItem_sent (w : World) (item : ObjcId) (f : NSMenuItem → NSMenuItem) :
    (msgItem w item f).sent = w.sent := by
  unfold msgItem; split
  · rfl
  · split <;> rfl

@[simp] theorem msgItem_items_length (w : World) (item : ObjcId) (f : NSMenuItem → NSMenuItem) :
    (msgItem w item f).items.length = w.items.length := by
  unfold msgItem; split
  · rfl
  · split <;> simp

theorem msgItem_items_getElem? (w : World) (i j : Nat) (f : NSMenuItem → NSMenuItem) :
    (msgItem w (some i) f).items[j]? = if i = j then (w.items[j]?).map f else w.items[j]? := by
  cases h : w.items[i]? with
  | none =>
    by_cases hij : i = j
    · subst hij; simp [msgItem, h]
    · simp [msgItem, h, hij]
  | some it =>
    by_cases hij : i = j
    · subst hij
      have hlt : i < w.items.length := (List.getElem?_eq_some.1 h).1
      simp [msgItem, h, hlt]
    · simp [msgItem, h, hij]

@[simp] theorem uncheckMembers_menu (members : List ObjcId) (w w' : World)
    (h : uncheckMembers w members = some w') : w'.menu = w.menu := by
  induction members generalizing w with
  | nil => simp [uncheckMembers] at h
  | cons m rest ih =>
    cases m with
    | none => simp [uncheckMembers] at h; subst h; rfl
    | some m => simp only [uncheckMembers] at h; simpa [setState] using ih _ h

@[simp] theorem uncheckMembers_sent (members : List ObjcId) (w w' : World)
    (h : uncheckMembers w members = some w') : w'.sent = w.sent := by
  induction members generalizing w with
  | nil => simp [uncheckMembers] at h
  | cons m rest ih =>
    cases m with
    | none => simp [uncheckMembers] at h; subst h; rfl
    | some m => simp only [uncheckMembers] at h; simpa [setState] using ih _ h

theorem msgItem_items_self {w : World} {i : Nat} {it : NSMenuItem} (f : NSMenuItem → NSMenuItem)
    (h : w.items[i]? = some it) : (msgItem w (some i) f).items[i]? = some (f it) := by
  rw [msgItem_items_getElem?, if_pos rfl, h]
  rfl

theorem allocMenuItem_items_self (w : World) :
    (allocMenuItem w).1.items[w.items.length]? = some {} := by
  simp [allocMenuItem]

/-! ## The click callback -/

/-- The `data` argument that `menuItemCallback` passes to
`createMenuClickedMessage`: the context menu data for a context menu, NULL
for the other menu types. -/
theorem clickData_eq (w : World) (d : Option String)
    (h : (if w.menu.menuType = MenuType.ContextMenuType then
          (match w.menu.parentData with
            | none => none
            | some contextMenu => some contextMenu.contextMenuData)
         else some none) = some d) :
    d = (if w.menu.menuType = MenuType.ContextMenuType then
          w.menu.parentData.bind ContextMenu.contextMenuData else none) ∧
    (w.menu.menuType = MenuType.ContextMenuType → ∃ cm, w.menu.parentData = some cm) := by
  by_cases hm : w.menu.menuType = MenuType.ContextMenuType
  · cases hp : w.menu.parentData with
    | none => simp [hm, hp] at h
    | some cm =>
      simp [hm, hp] at h
      simp [hm, ← h]
  · simp [hm] at h
    simp [hm, ← h]

/-- C3: when `menuItemCallback` handles a click on a text item, a checkbox
item or a radio item that was off, exactly one message is appended to the
messages sent through `messageFromWindowCallback`, and it is
`createMenuClickedMessage(menuID, data)` with the ID of the clicked item and
with `data` the `contextMenuData` of the owning context menu when the menu
type is `ContextMenuType`, NULL otherwise. -/
theorem menuItemCallback_message (env : Env) (w w' : World) (i : Nat) (it : NSMenuItem)
    (cb : MenuItemCallbackData)
    (hit : w.items[i]? = some it) (hcb : it.representedObject = some cb)
    (hkind : cb.menuItemType = MenuItemType.Text ∨ cb.menuItemType = MenuItemType.Checkbox ∨
      (cb.menuItemType = MenuItemType.Radio ∧
        itemState w cb.menuItem = NSControlStateValueOff))
    (h : menuItemCallback env w (some i) = some w') :
    ∃ message : String,
      w'.sent = w.sent ++ [message] ∧
      createMenuClickedMessage env cb.menuID
        (if w.menu.menuType = MenuType.ContextMenuType then
          w.menu.parentData.bind ContextMenu.contextMenuData else none) = some message ∧
      (w.menu.menuType = MenuType.ContextMenuType → ∃ cm, w.menu.parentData = some cm) := by
  simp only [menuItemCallback, hit, hcb] at h
  -- the state update goes on to the message, with the same `Menu` and the same messages
  obtain ⟨w1, hu, hmenu, hsent⟩ : ∃ w1, updateItemState w cb = some (some w1) ∧
      w1.menu = w.menu ∧ w1.sent = w.sent := by
    rcases hkind with hk | hk | ⟨hk, hoff⟩
    · exact ⟨w, by simp [updateItemState, hk], rfl, rfl⟩
    · refine ⟨setState w cb.menuItem
        (if decide (itemState w cb.menuItem ≠ 0) = true then NSControlStateValueOff
         else NSControlStateValueOn), ?_, ?_, ?_⟩
      · simp only [updateItemState, hk]
      · simp [setState]
      · simp [setState]
    · have hsel : decide (itemState w cb.menuItem ≠ 0) = false := by
        simp [hoff, NSControlStateValueOff]
      simp only [updateItemState, hk, hsel, Bool.false_eq_true, if_false] at h ⊢
      cases hid : cb.menuID with
      | none => simp [hid] at h
      | some a =>
        cases hg : hashmap_get w.menu.radioGroupMap a with
        | none => simp [hid, hg] at h
        | some members =>
          cases hun : uncheckMembers w members with
          | none => simp [hid, hg, hun] at h
          | some w2 =>
            refine ⟨setState w2 cb.menuItem NSControlStateValueOn, by simp [hg, hun], ?_, ?_⟩
            · simp [setState, uncheckMembers_menu members w w2 hun]
            · simp [setState, uncheckMembers_sent members w w2 hun]
  simp only [hu, hmenu] at h
  cases hd : (if w.menu.menuType = MenuType.ContextMenuType then
          (match w.menu.parentData with
            | none => none
            | some contextMenu => some contextMenu.contextMenuData)
         else some none) with
  | none => simp [hd] at h
  | some d =>
    obtain ⟨hd1, hd2⟩ := clickData_eq w d hd
    cases hm : createMenuClickedMessage env cb.menuID d with
    | none => simp [hd, hm] at h
    | some m =>
      simp only [hd, hm, Option.some.injEq] at h
      subst h
      exact ⟨m, by simp [messageFromWindowCallback, hsent], by rw [← hd1]; exact hm, hd2⟩

/-- Witness for C3: a click on the text item `"open"` (item 0) of the sample
state. -/
theorem menuItemCallback_message_witness :
    ∃ message : String,
      ((menuItemCallback sampleEnv sampleWorld (some 0)).getD {}).sent
        = sampleWorld.sent ++ [message] ∧
      createMenuClickedMessage sampleEnv (some "open")
        (if sampleWorld.menu.menuType = MenuType.ContextMenuType then
          sampleWorld.menu.parentData.bind ContextMenu.contextMenuData else none) = some message ∧
      (sampleWorld.menu.menuType = MenuType.ContextMenuType →
        ∃ cm, sampleWorld.menu.parentData = some cm) :=
  menuItemCallback_message sampleEnv sampleWorld
    ((menuItemCallback sampleEnv sampleWorld (some 0)).getD {}) 0 sampleOpenItem
    { menuItem := some 0, menuID := some "open", menuItemType := MenuItemType.Text }
    (by rfl) (by rfl) (Or.inl rfl) (by rfl)

/-! ## Hidden items -/

/-- C6: `processMenuItem` on an item whose member `"h"` is true returns the
state it was given: no native item is added to the parent menu or to any
other menu, nothing is registered in `menuItemMap`, no callback data is
created and no native object is made, whatever the other members of the item
are (so nothing under a hidden submenu is compiled). -/
theorem processMenuItem_hidden (env : Env) (w : World) (parentMenu : ObjcId) (item : JsonNode)
    (h : json_find_member item "h" = some (JsonNode.bool true)) :
    processMenuItem env w parentMenu item = some w := by
  simp [processMenuItem, processMenuItemAux, getJSONBool, h]

/-- Witness for C6: a hidden submenu in the sample state. -/
theorem processMenuItem_hidden_witness :
    processMenuItem sampleEnv sampleWorld (some 0)
      (.object [("h", .bool true), ("l", .string "More"),
        ("S", .object [("i", .array [sampleRadio "z" false true])])]) = some sampleWorld :=
  processMenuItem_hidden sampleEnv sampleWorld (some 0) _ (by rfl)

/-! ## Growth of the native heaps -/

@[simp] theorem addItem_items (w : World) (menu : ObjcId) (item : Nat) :
    (addItem w menu item).items = w.items := by
  unfold addItem; split
  · rfl
  · split <;> rfl

@[simp] theorem addItem_menu (w : World) (menu : ObjcId) (item : Nat) :
    (addItem w menu item).menu = w.menu := by
  unfold addItem; split
  · rfl
  · split <;> rfl

@[simp] theorem addItem_menus_length (w : World) (menu : ObjcId) (item : Nat) :
    (addItem w menu item).menus.length = w.menus.length := by
  unfold addItem; split
  · rfl
  · split <;> simp

theorem addItem_menus_getElem? (w : World) (q m item : Nat) :
    (addItem w (some q) item).menus[m]? =
      if q = m then (w.menus[m]?).map (fun mn => { mn with itemArray := mn.itemArray ++ [item] })
      else w.menus[m]? := by
  cases h : w.menus[q]? with
  | none =>
    by_cases hq : q = m
    · subst hq; simp [addItem, h]
    · simp [addItem, h, hq]
  | some mn =>
    by_cases hq : q = m
    · subst hq
      have hlt : q < w.menus.length := (List.getElem?_eq_some.1 h).1
      simp [addItem, h, hlt]
    · simp [addItem, h, hq]

namespace Grows

variable {n b : Nat} {parent : ObjcId} {added : List Nat} {w0 w w' : World}

theorem refl (w : World) (parent : ObjcId) :
    Grows w.items.length w.menus.length parent [] w w :=
  ⟨fun _ _ => rfl, le_refl _, fun _ _ _ => rfl, le_refl _, fun p _ _ => by
    cases h : w.menus[p]? <;> simp⟩

theorem mono {n' b' : Nat} (h : Grows n' b' parent added w w') (hn : n ≤ n') (hb : b ≤ b') :
    Grows n b parent added w w' :=
  ⟨fun i hi => h.items_keep i (by omega), by have := h.items_le; omega,
   fun m hm hp => h.menus_keep m (by omega) hp, by have := h.menus_le; omega,
   fun p hp hpb => h.parent_eq p hp (by omega)⟩

/-- Any step that keeps the items below `n` and all menus below `b`. -/
theorem step (h : Grows n b parent added w0 w)
    (hitems : ∀ i, i < n → w'.items[i]? = w.items[i]?) (hlen : w.items.length ≤ w'.items.length)
    (hmenus : ∀ m, m < b → w'.menus[m]? = w.menus[m]?)
    (hmlen : w.menus.length ≤ w'.menus.length) :
    Grows n b parent added w0 w' :=
  ⟨fun i hi => (hitems i hi).trans (h.items_keep i hi), by have := h.items_le; omega,
   fun m hm hp => (hmenus m hm).trans (h.menus_keep m hm hp), by have := h.menus_le; omega,
   fun p hp hpb => (hmenus p hpb).trans (h.parent_eq p hp hpb)⟩

theorem alloc (h : Grows n b parent added w0 w) :
    Grows n b parent added w0 (allocMenuItem w).1 := by
  refine h.step (fun i hi => ?_) (by simp [allocMenuItem]) (fun _ _ => rfl) (le_refl _)
  have := h.items_le
  simp only [allocMenuItem]
  rw [List.getElem?_append_left (by omega)]

theorem msgItem {i : Nat} (f : NSMenuItem → NSMenuItem) (h : Grows n b parent added w0 w)
    (hi : n ≤ i) : Grows n b parent added w0 (msgItem w (some i) f) := by
  refine h.step (fun j hj => ?_) (by simp) (fun _ _ => by simp) (by simp)
  rw [msgItem_items_getElem?, if_neg (by omega)]

theorem createMenu (title : String) (h : Grows n b parent added w0 w) :
    Grows n b parent added w0 (createMenu w title).1 := by
  refine h.step (fun _ _ => rfl) (le_refl _) (fun m hm => ?_) (by simp [Wails.createMenu])
  have := h.menus_le
  simp only [Wails.createMenu]
  rw [List.getElem?_append_left (by omega)]

theorem setMenu (menu : Menu) (h : Grows n b parent added w0 w) :
    Grows n b parent added w0 { w with menu := menu } :=
  h.step (fun _ _ => rfl) (le_refl _) (fun _ _ => rfl) (le_refl _)

theorem callbackData (menuItem : ObjcId) (menuID : Option String) (type : MenuItemType)
    (h : Grows n b parent added w0 w) :
    Grows n b parent added w0 (CreateMenuItemCallbackData w menuItem menuID type).1 :=
  h.setMenu _

theorem addItem_other {q : Nat} (item : Nat) (h : Grows n b parent added w0 w) (hq : b ≤ q) :
    Grows n b parent added w0 (addItem w (some q) item) := by
  refine h.step (fun _ _ => by simp) (by simp) (fun m hm => ?_) (by simp)
  rw [addItem_menus_getElem?, if_neg (by omega)]

theorem addItem_parent (item : Nat) (h : Grows n b parent added w0 w) :
    Grows n b parent (added ++ [item]) w0 (addItem w parent item) := by
  cases parent with
  | none =>
    exact ⟨h.items_keep, h.items_le, h.menus_keep, h.menus_le, fun p hp => by simp at hp⟩
  | some q =>
    refine ⟨fun i hi => by simpa using h.items_keep i hi, by simpa using h.items_le,
      fun m hm hp => ?_, by simpa using h.menus_le, fun p hp hpb => ?_⟩
    · rw [addItem_menus_getElem?, if_neg (by intro e; exact hp (by rw [e])), h.menus_keep m hm hp]
    · cases hp
      rw [addItem_menus_getElem?, if_pos rfl, h.parent_eq q rfl hpb]
      cases w0.menus[q]? <;> simp

/-- The parent gets no item: the same as adding the empty list. -/
theorem append_nil (h : Grows n b parent (added ++ []) w0 w) : Grows n b parent added w0 w := by
  simpa using h

end Grows

namespace Grows

variable {n b : Nat} {parent : ObjcId} {added : List Nat} {w0 w w' : World}

theorem createMenuItem (title : String) (action : Option String) (key : String)
    (h : Grows n b parent added w0 w) :
    Grows n b parent added w0 (createMenuItem w title action key).1 :=
  (h.alloc).msgItem _ h.items_le

theorem createMenuItemNoAutorelease (title : String) (action : Option String) (key : String)
    (h : Grows n b parent added w0 w) :
    Grows n b parent added w0 (createMenuItemNoAutorelease w title action key).1 :=
  (h.alloc).msgItem _ h.items_le

theorem addMenuItem_parent (title : String) (action : Option String) (key : String)
    (disabled : Bool) (h : Grows n b parent added w0 w) :
    Grows n b parent (added ++ [w.items.length]) w0
      (addMenuItem w parent title action key disabled).1 :=
  (((h.alloc).msgItem _ h.items_le).msgItem _ h.items_le).addItem_parent _

theorem addMenuItem_other {q : Nat} (title : String) (action : Option String) (key : String)
    (disabled : Bool) (h : Grows n b parent added w0 w) (hq : b ≤ q) :
    Grows n b parent added w0 (addMenuItem w (some q) title action key disabled).1 :=
  (((h.alloc).msgItem _ h.items_le).msgItem _ h.items_le).addItem_other _ hq

theorem addSeparator_parent (h : Grows n b parent added w0 w) :
    Grows n b parent (added ++ [w.items.length]) w0 (addSeparator w parent) :=
  (@step n b parent added w0 w
    { w with items := w.items ++ [{ isSeparatorItem := true }] } h
    (fun i hi => by
      have := h.items_le
      simp only
      rw [List.getElem?_append_left (by omega)])
    (by simp) (fun _ _ => rfl) (le_refl _)).addItem_parent _

theorem addSeparator_other {q : Nat} (h : Grows n b parent added w0 w) (hq : b ≤ q) :
    Grows n b parent added w0 (addSeparator w (some q)) :=
  (@step n b parent added w0 w
    { w with items := w.items ++ [{ isSeparatorItem := true }] } h
    (fun i hi => by
      have := h.items_le
      simp only
      rw [List.getElem?_append_left (by omega)])
    (by simp) (fun _ _ => rfl) (le_refl _)).addItem_other _ hq

end Grows

namespace Grows

variable {n b : Nat} {parent : ObjcId} {added : List Nat} {w0 w w' : World}

/-- An item made by `createMenuItemNoAutorelease` that gets a new menu as its
submenu. -/
theorem submenuItem (title title' : String) (h : Grows n b parent added w0 w) :
    Grows n b parent added w0
      (setSubmenu
        (Wails.createMenu (Wails.createMenuItemNoAutorelease w title none "").1 title').1
        (some (Wails.createMenuItemNoAutorelease w title none "").2)
        (some (Wails.createMenu (Wails.createMenuItemNoAutorelease w title none "").1 title').2)) :=
  ((h.createMenuItemNoAutorelease title none "").createMenu title').msgItem _ h.items_le

/-- The call `addMenuItem` on a menu other than the parent followed by
`setKeyEquivalentModifierMask:` on the new item. -/
theorem addMenuItem_mask_other {q : Nat} (title : String) (action : Option String)
    (key : String) (disabled : Bool) (mask : Nat) (h : Grows n b parent added w0 w)
    (hq : b ≤ q) :
    Grows n b parent added w0
      (setKeyEquivalentModifierMask (addMenuItem w (some q) title action key disabled).1
        (some (addMenuItem w (some q) title action key disabled).2) mask) :=
  (h.addMenuItem_other title action key disabled hq).msgItem _ h.items_le

/-- The call `addMenuItem` on the parent followed by
`setKeyEquivalentModifierMask:` on the new item. -/
theorem addMenuItem_mask_parent (title : String) (action : Option String)
    (key : String) (disabled : Bool) (mask : Nat) (h : Grows n b parent added w0 w) :
    Grows n b parent (added ++ [w.items.length]) w0
      (setKeyEquivalentModifierMask (addMenuItem w parent title action key disabled).1
        (some (addMenuItem w parent title action key disabled).2) mask) :=
  (h.addMenuItem_parent title action key disabled).msgItem _ h.items_le

theorem createDefaultAppMenu (env : Env) (h : Grows n b parent added w0 w) :
    Grows n b parent (added ++ [w.items.length]) w0 (createDefaultAppMenu env w parent) := by
  have hq : b ≤ (Wails.createMenu (Wails.createMenuItemNoAutorelease w env.processName none
      "").1 env.processName).2 := (h.createMenuItemNoAutorelease _ _ _).menus_le
  unfold Wails.createDefaultAppMenu
  simp only []
  refine addItem_other _ (createMenuItem _ _ _ (addSeparator_other (addMenuItem_other _ _ _ _
    (addMenuItem_mask_other _ _ _ _ _ (addItem_other _ (createMenuItem _ _ _ (addItem_parent _
      (submenuItem _ _ h))) hq) hq) hq) hq)) hq

theorem createDefaultEditMenu (h : Grows n b parent added w0 w) :
    Grows n b parent (added ++ [w.items.length]) w0 (createDefaultEditMenu w parent) := by
  have hq : b ≤ (Wails.createMenu (Wails.createMenuItemNoAutorelease w "Edit" none
      "").1 "Edit").2 := (h.createMenuItemNoAutorelease _ _ _).menus_le
  unfold Wails.createDefaultEditMenu
  simp only []
  refine addMenuItem_other _ _ _ _ (addMenuItem_other _ _ _ _ (addMenuItem_other _ _ _ _
    (addMenuItem_other _ _ _ _ (addSeparator_other (addMenuItem_other _ _ _ _
      (addMenuItem_other _ _ _ _ (addItem_parent _ (submenuItem _ _ h)) hq) hq) hq) hq) hq) hq) hq

end Grows

/-! ## The native item an operation contributes -/

namespace FaceKept

variable {w0 w : World}

theorem same (w : World) : FaceKept w w := fun _ it h => ⟨it, h, rfl⟩

theorem items_eq {w' : World} (h : FaceKept w0 w) (e : w'.items = w.items) : FaceKept w0 w' :=
  fun i it hi => by rw [e]; exact h i it hi

theorem message (item : ObjcId) (f : NSMenuItem → NSMenuItem) (h : FaceKept w0 w)
    (hf : ∀ it, face (f it) = face it) : FaceKept w0 (Wails.msgItem w item f) := by
  intro i it hi
  obtain ⟨it', hi', hface⟩ := h i it hi
  cases item with
  | none => exact ⟨it', hi', hface⟩
  | some j =>
    by_cases hj : j = i
    · subst hj
      exact ⟨f it', msgItem_items_self f hi', (hf it').trans hface⟩
    · exact ⟨it', by rw [msgItem_items_getElem?, if_neg hj]; exact hi', hface⟩

theorem allocated (h : FaceKept w0 w) : FaceKept w0 (allocMenuItem w).1 := by
  intro i it hi
  obtain ⟨it', hi', hface⟩ := h i it hi
  refine ⟨it', ?_, hface⟩
  have hlt : i < w.items.length := (List.getElem?_eq_some.1 hi').1
  simp only [allocMenuItem]
  rw [List.getElem?_append_left hlt]
  exact hi'

/-- A message to the item just allocated changes no item that was there. -/
theorem fresh (f : NSMenuItem → NSMenuItem) (h : FaceKept w0 w) :
    FaceKept w0 (Wails.msgItem (allocMenuItem w).1 (some (allocMenuItem w).2) f) := by
  intro i it hi
  obtain ⟨it', hi', hface⟩ := h.allocated i it hi
  obtain ⟨it0, hi0, _⟩ := h i it hi
  have hlt : i < w.items.length := (List.getElem?_eq_some.1 hi0).1
  refine ⟨it', ?_, hface⟩
  rw [msgItem_items_getElem?, if_neg (by simp only [allocMenuItem]; omega)]
  exact hi'

theorem newItem (title : String) (action : Option String) (key : String)
    (h : FaceKept w0 w) : FaceKept w0 (Wails.createMenuItem w title action key).1 :=
  h.fresh _

theorem newItemNoAutorelease (title : String) (action : Option String) (key : String)
    (h : FaceKept w0 w) : FaceKept w0 (Wails.createMenuItemNoAutorelease w title action key).1 :=
  h.fresh _

theorem newMenu (title : String) (h : FaceKept w0 w) :
    FaceKept w0 (Wails.createMenu w title).1 :=
  h.items_eq rfl

theorem addItem (menu : ObjcId) (item : Nat) (h : FaceKept w0 w) :
    FaceKept w0 (Wails.addItem w menu item) :=
  h.items_eq (addItem_items w menu item)

theorem setSubmenu (item menu : ObjcId) (h : FaceKept w0 w) :
    FaceKept w0 (Wails.setSubmenu w item menu) :=
  h.message _ _ (fun _ => rfl)

theorem setKeyEquivalentModifierMask (item : ObjcId) (mask : Nat) (h : FaceKept w0 w) :
    FaceKept w0 (Wails.setKeyEquivalentModifierMask w item mask) :=
  h.message _ _ (fun _ => rfl)

theorem setEnabled (item : ObjcId) (value : Bool) (h : FaceKept w0 w) :
    FaceKept w0 (Wails.setEnabled w item value) :=
  h.message _ _ (fun _ => rfl)

theorem setState (item : ObjcId) (value : Int) (h : FaceKept w0 w) :
    FaceKept w0 (Wails.setState w item value) :=
  h.message _ _ (fun _ => rfl)

theorem addMenuItem (menu : ObjcId) (title : String) (action : Option String) (key : String)
    (disabled : Bool) (h : FaceKept w0 w) :
    FaceKept w0 (Wails.addMenuItem w menu title action key disabled).1 :=
  ((h.newItem title action key).setEnabled _ _).addItem _ _

theorem addSeparator (menu : ObjcId) (h : FaceKept w0 w) :
    FaceKept w0 (Wails.addSeparator w menu) := by
  refine FaceKept.addItem _ _ (fun i it hi => ?_)
  obtain ⟨it', hi', hface⟩ := h i it hi
  refine ⟨it', ?_, hface⟩
  have hlt : i < w.items.length := (List.getElem?_eq_some.1 hi').1
  simp only
  rw [List.getElem?_append_left hlt]
  exact hi'

end FaceKept

/-- The item that `createMenuItemNoAutorelease` makes. -/
theorem createMenuItemNoAutorelease_item (w : World) (title : String) (action : Option String)
    (key : String) :
    (createMenuItemNoAutorelease w title action key).1.items[w.items.length]? =
      some { title := title, action := action, keyEquivalent := key } :=
  msgItem_items_self _ (allocMenuItem_items_self w)

/-- The item that `addMenuItem` makes. -/
theorem addMenuItem_item (w : World) (menu : ObjcId) (title : String) (action : Option String)
    (key : String) (disabled : Bool) :
    (addMenuItem w menu title action key disabled).1.items[w.items.length]? =
      some { title := title, action := action, keyEquivalent := key, enabled := !disabled } := by
  unfold addMenuItem
  simp only [addItem_items]
  exact msgItem_items_self _ (msgItem_items_self _ (allocMenuItem_items_self w))

theorem createDefaultAppMenu_face (env : Env) (w : World) (parent : ObjcId) :
    ∃ it, (createDefaultAppMenu env w parent).items[w.items.length]? = some it ∧
      face it = { title := env.processName } := by
  have hk : FaceKept (createMenuItemNoAutorelease w env.processName none "").1
      (createDefaultAppMenu env w parent) := by
    unfold createDefaultAppMenu
    simp only []
    refine FaceKept.addItem _ _ (FaceKept.newItem _ _ _ (FaceKept.addSeparator _
      (FaceKept.addMenuItem _ _ _ _ _ (FaceKept.setKeyEquivalentModifierMask _ _
        (FaceKept.addMenuItem _ _ _ _ _ (FaceKept.addItem _ _ (FaceKept.newItem _ _ _
          (FaceKept.addItem _ _ (FaceKept.setSubmenu _ _ (FaceKept.newMenu _
            (FaceKept.same _)))))))))))
  obtain ⟨it, hit, hface⟩ := hk _ _ (createMenuItemNoAutorelease_item w env.processName none "")
  exact ⟨it, hit, hface⟩

theorem createDefaultEditMenu_face (w : World) (parent : ObjcId) :
    ∃ it, (createDefaultEditMenu w parent).items[w.items.length]? = some it ∧
      face it = { title := "Edit" } := by
  have hk : FaceKept (createMenuItemNoAutorelease w "Edit" none "").1
      (createDefaultEditMenu w parent) := by
    unfold createDefaultEditMenu
    simp only []
    refine FaceKept.addMenuItem _ _ _ _ _ (FaceKept.addMenuItem _ _ _ _ _
      (FaceKept.addMenuItem _ _ _ _ _ (FaceKept.addMenuItem _ _ _ _ _ (FaceKept.addSeparator _
        (FaceKept.addMenuItem _ _ _ _ _ (FaceKept.addMenuItem _ _ _ _ _ (FaceKept.addItem _ _
          (FaceKept.setSubmenu _ _ (FaceKept.newMenu _ (FaceKept.same _))))))))))
  obtain ⟨it, hit, hface⟩ := hk _ _ (createMenuItemNoAutorelease_item w "Edit" none "")
  exact ⟨it, hit, hface⟩

/-- The item of a role that is one call of `addMenuItem`. -/
theorem addMenuItem_face (w : World) (menu : ObjcId) (title : String) (action : Option String)
    (key : String) (disabled : Bool) :
    ∃ it, (addMenuItem w menu title action key disabled).1.items[w.items.length]? = some it ∧
      face it = { title := title, action := action } :=
  ⟨_, addMenuItem_item w menu title action key disabled, rfl⟩

/-- The item of a role that is `addMenuItem` and `setKeyEquivalentModifierMask:`. -/
theorem addMenuItem_mask_face (w : World) (menu : ObjcId) (title : String)
    (action : Option String) (key : String) (disabled : Bool) (mask : Nat) :
    ∃ it, (setKeyEquivalentModifierMask (addMenuItem w menu title action key disabled).1
        (some (addMenuItem w menu title action key disabled).2) mask).items[w.items.length]?
        = some it ∧
      face it = { title := title, action := action } :=
  ⟨_, msgItem_items_self _ (addMenuItem_item w menu title action key disabled), rfl⟩

/-! ## The `Menu` struct during compilation -/

@[simp] theorem setState_menu (w : World) (item : ObjcId) (v : Int) :
    (setState w item v).menu = w.menu := by simp [setState]

@[simp] theorem setEnabled_menu (w : World) (item : ObjcId) (v : Bool) :
    (setEnabled w item v).menu = w.menu := by simp [setEnabled]

@[simp] theorem setSubmenu_menu (w : World) (item menu : ObjcId) :
    (setSubmenu w item menu).menu = w.menu := by simp [setSubmenu]

@[simp] theorem setKeyEquivalentModifierMask_menu (w : World) (item : ObjcId) (mask : Nat) :
    (setKeyEquivalentModifierMask w item mask).menu = w.menu := by
  simp [setKeyEquivalentModifierMask]

@[simp] theorem setRepresentedObject_menu (w : World) (item : ObjcId)
    (cb : MenuItemCallbackData) : (setRepresentedObject w item cb).menu = w.menu := by
  simp [setRepresentedObject]

@[simp] theorem initWithTitle_menu (w : World) (item : ObjcId) (title : String)
    (action : Option String) (key : String) :
    (initWithTitle w item title action key).menu = w.menu := by simp [initWithTitle]

@[simp] theorem allocMenuItem_menu (w : World) : (allocMenuItem w).1.menu = w.menu := rfl

@[simp] theorem createMenu_menu (w : World) (title : String) :
    (createMenu w title).1.menu = w.menu := rfl

@[simp] theorem createMenuItem_menu (w : World) (title : String) (action : Option String)
    (key : String) : (createMenuItem w title action key).1.menu = w.menu := by
  simp [createMenuItem]

@[simp] theorem createMenuItemNoAutorelease_menu (w : World) (title : String)
    (action : Option String) (key : String) :
    (createMenuItemNoAutorelease w title action key).1.menu = w.menu := by
  simp [createMenuItemNoAutorelease]

@[simp] theorem addMenuItem_menu (w : World) (menu : ObjcId) (title : String)
    (action : Option String) (key : String) (disabled : Bool) :
    (addMenuItem w menu title action key disabled).1.menu = w.menu := by
  simp [addMenuItem]

@[simp] theorem addSeparator_menu (w : World) (menu : ObjcId) :
    (addSeparator w menu).menu = w.menu := by
  simp [addSeparator]

@[simp] theorem createDefaultAppMenu_menu (env : Env) (w : World) (parentMenu : ObjcId) :
    (createDefaultAppMenu env w parentMenu).menu = w.menu := by
  simp [createDefaultAppMenu]

@[simp] theorem createDefaultEditMenu_menu (w : World) (parentMenu : ObjcId) :
    (createDefaultEditMenu w parentMenu).menu = w.menu := by
  simp [createDefaultEditMenu]

namespace Grows

variable {n b : Nat} {parent : ObjcId} {added : List Nat} {w0 w w' : World}

theorem processMenuRole (env : Env) (item : JsonNode) (h : Grows n b parent added w0 w)
    (e : processMenuRole env w parent item = some w') :
    ∃ a : List Nat, a.length ≤ 1 ∧ Grows n b parent (added ++ a) w0 w' ∧ w'.menu = w.menu ∧
      ∀ roleName, item.string_? = some roleName →
        Added w' w.items.length (roleFace env roleName) a := by
  unfold Wails.processMenuRole at e
  cases hs : item.string_? with
  | none => simp [hs] at e
  | some roleName =>
    simp only [hs] at e
    by_cases h0 : roleName = "appMenu"
    · rw [if_pos h0] at e
      simp only [Option.some.injEq] at e
      subst e
      refine ⟨[w.items.length], by simp, h.createDefaultAppMenu env, by simp, ?_⟩
      intro r hr
      cases hr
      obtain ⟨it, hit, hface⟩ := createDefaultAppMenu_face env w parent
      simp only [roleFace, if_pos h0]
      exact ⟨it, rfl, hit, hface⟩
    rw [if_neg h0] at e
    by_cases h1 : roleName = "editMenu"
    · rw [if_pos h1] at e
      simp only [Option.some.injEq] at e
      subst e
      refine ⟨[w.items.length], by simp, h.createDefaultEditMenu, by simp, ?_⟩
      intro r hr
      cases hr
      obtain ⟨it, hit, hface⟩ := createDefaultEditMenu_face w parent
      simp only [roleFace, if_neg h0, if_pos h1]
      exact ⟨it, rfl, hit, hface⟩
    rw [if_neg h1] at e
    by_cases h2 : roleName = "hide"
    · rw [if_pos h2] at e
      simp only [Option.some.injEq] at e
      subst e
      refine ⟨[w.items.length], by simp, h.addMenuItem_parent _ _ _ _, by simp, ?_⟩
      intro r hr
      cases hr
      obtain ⟨it, hit, hface⟩ := addMenuItem_face w parent _ _ _ _
      simp only [roleFace, if_neg h0, if_neg h1, if_pos h2]
      exact ⟨it, rfl, hit, hface⟩
    rw [if_neg h2] at e
    by_cases h3 : roleName = "hideothers"
    · rw [if_pos h3] at e
      simp only [Option.some.injEq] at e
      subst e
      refine ⟨[w.items.length], by simp, h.addMenuItem_mask_parent _ _ _ _ _, by simp, ?_⟩
      intro r hr
      cases hr
      obtain ⟨it, hit, hface⟩ := addMenuItem_mask_face w parent _ _ _ _ _
      simp only [roleFace, if_neg h0, if_neg h1, if_neg h2, if_pos h3]
      exact ⟨it, rfl, hit, hface⟩
    rw [if_neg h3] at e
    by_cases h4 : roleName = "unhide"
    · rw [if_pos h4] at e
      simp only [Option.some.injEq] at e
      subst e
      refine ⟨[w.items.length], by simp, h.addMenuItem_parent _ _ _ _, by simp, ?_⟩
      intro r hr
      cases hr
      obtain ⟨it, hit, hface⟩ := addMenuItem_face w parent _ _ _ _
      simp only [roleFace, if_neg h0, if_neg h1, if_neg h2, if_neg h3, if_pos h4]
      exact ⟨it, rfl, hit, hface⟩
    rw [if_neg h4] at e
    by_cases h5 : roleName = "front"
    · rw [if_pos h5] at e
      simp only [Option.some.injEq] at e
      subst e
      refine ⟨[w.items.length], by simp, h.addMenuItem_parent _ _ _ _, by simp, ?_⟩
      intro r hr
      cases hr
      obtain ⟨it, hit, hface⟩ := addMenuItem_face w parent _ _ _ _
      simp only [roleFace, if_neg h0, if_neg h1, if_neg h2, if_neg h3, if_neg h4, if_pos h5]
      exact ⟨it, rfl, hit, hface⟩
    rw [if_neg h5] at e
    by_cases h6 : roleName = "undo"
    · rw [if_pos h6] at e
      simp only [Option.some.injEq] at e
      subst e
      refine ⟨[w.items.length], by simp, h.addMenuItem_parent _ _ _ _, by simp, ?_⟩
      intro r hr
      cases hr
      obtain ⟨it, hit, hface⟩ := addMenuItem_face w parent _ _ _ _
      simp only [roleFace, if_neg h0, if_neg h1, if_neg h2, if_neg h3, if_neg h4, if_neg h5, if_pos h6]
      exact ⟨it, rfl, hit, hface⟩
    rw [if_neg h6] at e
    by_cases h7 : roleName = "redo"
    · rw [if_pos h7] at e
      simp only [Option.some.injEq] at e
      subst e
      refine ⟨[w.items.length], by simp, h.addMenuItem_parent _ _ _ _, by simp, ?_⟩
      intro r hr
      cases hr
      obtain ⟨it, hit, hface⟩ := addMenuItem_face w parent _ _ _ _
      simp only [roleFace, if_neg h0, if_neg h1, if_neg h2, if_neg h3, if_neg h4, if_neg h5, if_neg h6, if_pos h7]
      exact ⟨it, rfl, hit, hface⟩
    rw [if_neg h7] at e
    by_cases h8 : roleName = "cut"
    · rw [if_pos h8] at e
      simp only [Option.some.injEq] at e
      subst e
      refine ⟨[w.items.length], by simp, h.addMenuItem_parent _ _ _ _, by simp, ?_⟩
      intro r hr
      cases hr
      obtain ⟨it, hit, hface⟩ := addMenuItem_face w parent _ _ _ _
      simp only [roleFace, if_neg h0, if_neg h1, if_neg h2, if_neg h3, if_neg h4, if_neg h5, if_neg h6, if_neg h7, if_pos h8]
      exact ⟨it, rfl, hit, hface⟩
    rw [if_neg h8] at e
    by_cases h9 : roleName = "copy"
    · rw [if_pos h9] at e
      simp only [Option.some.injEq] at e
      subst e
      refine ⟨[w.items.length], by simp, h.addMenuItem_parent _ _ _ _, by simp, ?_⟩
      intro r hr
      cases hr
      obtain ⟨it, hit, hface⟩ := addMenuItem_face w parent _ _ _ _
      simp only [roleFace, if_neg h0, if_neg h1, if_neg h2, if_neg h3, if_neg h4, if_neg h5, if_neg h6, if_neg h7, if_neg h8, if_pos h9]
      exact ⟨it, rfl, hit, hface⟩
    rw [if_neg h9] at e
    by_cases h10 : roleName = "paste"
    · rw [if_pos h10] at e
      simp only [Option.some.injEq] at e
      subst e
      refine ⟨[w.items.length], by simp, h.addMenuItem_parent _ _ _ _, by simp, ?_⟩
      intro r hr
      cases hr
      obtain ⟨it, hit, hface⟩ := addMenuItem_face w parent _ _ _ _
      simp only [roleFace, if_neg h0, if_neg h1, if_neg h2, if_neg h3, if_neg h4, if_neg h5, if_neg h6, if_neg h7, if_neg h8, if_neg h9, if_pos h10]
      exact ⟨it, rfl, hit, hface⟩
    rw [if_neg h10] at e
    by_cases h11 : roleName = "delete"
    · rw [if_pos h11] at e
      simp only [Option.some.injEq] at e
      subst e
      refine ⟨[w.items.length], by simp, h.addMenuItem_parent _ _ _ _, by simp, ?_⟩
      intro r hr
      cases hr
      obtain ⟨it, hit, hface⟩ := addMenuItem_face w parent _ _ _ _
      simp only [roleFace, if_neg h0, if_neg h1, if_neg h2, if_neg h3, if_neg h4, if_neg h5, if_neg h6, if_neg h7, if_neg h8, if_neg h9, if_neg h10, if_pos h11]
      exact ⟨it, rfl, hit, hface⟩
    rw [if_neg h11] at e
    by_cases hp : roleName = "pasteandmatchstyle"
    · subst hp
      rw [if_pos rfl, if_neg (by decide), if_neg (by decide), if_neg (by decide),
        if_neg (by decide), if_neg (by decide)] at e
      simp only [Option.some.injEq] at e
      subst e
      refine ⟨[w.items.length], by simp, h.addMenuItem_mask_parent _ _ _ _ _, by simp, ?_⟩
      intro r hr
      cases hr
      obtain ⟨it, hit, hface⟩ := addMenuItem_mask_face w parent _ _ _ _ _
      simp only [roleFace, if_neg h0, if_neg h1, if_neg h2, if_neg h3, if_neg h4, if_neg h5, if_neg h6, if_neg h7, if_neg h8, if_neg h9, if_neg h10, if_neg h11, if_true]
      exact ⟨it, rfl, hit, hface⟩
    rw [if_neg hp] at e
    by_cases k0 : roleName = "selectall"
    · rw [if_pos k0] at e
      simp only [Option.some.injEq] at e
      subst e
      refine ⟨[w.items.length], by simp, h.addMenuItem_parent _ _ _ _, by simp, ?_⟩
      intro r hr
      cases hr
      obtain ⟨it, hit, hface⟩ := addMenuItem_face w parent _ _ _ _
      simp only [roleFace, if_neg h0, if_neg h1, if_neg h2, if_neg h3, if_neg h4, if_neg h5, if_neg h6, if_neg h7, if_neg h8, if_neg h9, if_neg h10, if_neg h11, if_neg hp, if_pos k0]
      exact ⟨it, rfl, hit, hface⟩
    rw [if_neg k0] at e
    by_cases k1 : roleName = "minimize"
    · rw [if_pos k1] at e
      simp only [Option.some.injEq] at e
      subst e
      refine ⟨[w.items.length], by simp, h.addMenuItem_parent _ _ _ _, by simp, ?_⟩
      intro r hr
      cases hr
      obtain ⟨it, hit, hface⟩ := addMenuItem_face w parent _ _ _ _
      simp only [roleFace, if_neg h0, if_neg h1, if_neg h2, if_neg h3, if_neg h4, if_neg h5, if_neg h6, if_neg h7, if_neg h8, if_neg h9, if_neg h10, if_neg h11, if_neg hp, if_neg k0, if_pos k1]
      exact ⟨it, rfl, hit, hface⟩
    rw [if_neg k1] at e
    by_cases k2 : roleName = "zoom"
    · rw [if_pos k2] at e
      simp only [Option.some.injEq] at e
      subst e
      refine ⟨[w.items.length], by simp, h.addMenuItem_parent _ _ _ _, by simp, ?_⟩
      intro r hr
      cases hr
      obtain ⟨it, hit, hface⟩ := addMenuItem_face w parent _ _ _ _
      simp only [roleFace, if_neg h0, if_neg h1, if_neg h2, if_neg h3, if_neg h4, if_neg h5, if_neg h6, if_neg h7, if_neg h8, if_neg h9, if_neg h10, if_neg h11, if_neg hp, if_neg k0, if_neg k1, if_pos k2]
      exact ⟨it, rfl, hit, hface⟩
    rw [if_neg k2] at e
    by_cases k3 : roleName = "quit"
    · rw [if_pos k3] at e
      simp only [Option.some.injEq] at e
      subst e
      refine ⟨[w.items.length], by simp, h.addMenuItem_parent _ _ _ _, by simp, ?_⟩
      intro r hr
      cases hr
      obtain ⟨it, hit, hface⟩ := addMenuItem_face w parent _ _ _ _
      simp only [roleFace, if_neg h0, if_neg h1, if_neg h2, if_neg h3, if_neg h4, if_neg h5, if_neg h6, if_neg h7, if_neg h8, if_neg h9, if_neg h10, if_neg h11, if_neg hp, if_neg k0, if_neg k1, if_neg k2, if_pos k3]
      exact ⟨it, rfl, hit, hface⟩
    rw [if_neg k3] at e
    by_cases k4 : roleName = "togglefullscreen"
    · rw [if_pos k4] at e
      simp only [Option.some.injEq] at e
      subst e
      refine ⟨[w.items.length], by simp, h.addMenuItem_parent _ _ _ _, by simp, ?_⟩
      intro r hr
      cases hr
      obtain ⟨it, hit, hface⟩ := addMenuItem_face w parent _ _ _ _
      simp only [roleFace, if_neg h0, if_neg h1, if_neg h2, if_neg h3, if_neg h4, if_neg h5, if_neg h6, if_neg h7, if_neg h8, if_neg h9, if_neg h10, if_neg h11, if_neg hp, if_neg k0, if_neg k1, if_neg k2, if_neg k3, if_pos k4]
      exact ⟨it, rfl, hit, hface⟩
    rw [if_neg k4] at e
    simp only [Option.some.injEq] at e
    subst e
    refine ⟨[], by simp, by simpa using h, rfl, ?_⟩
    intro r hr
    cases hr
    simp only [roleFace, if_neg h0, if_neg h1, if_neg h2, if_neg h3, if_neg h4, if_neg h5, if_neg h6, if_neg h7, if_neg h8, if_neg h9, if_neg h10, if_neg h11, if_neg hp, if_neg k0, if_neg k1, if_neg k2, if_neg k3, if_neg k4]
    rfl

end Grows

/-! ## User menu items -/

theorem processCheckboxMenuItem_spec {n b : Nat} {parent : ObjcId} {added : List Nat}
    {w0 w : World} (title menuid : String) (disabled checked : Bool) (key : String)
    (hascallback : Bool) (h : Grows n b parent added w0 w) :
    Grows n b parent (added ++ [w.items.length]) w0
      (processCheckboxMenuItem w parent title menuid disabled checked key hascallback).1 ∧
    (processCheckboxMenuItem w parent title menuid disabled checked key hascallback).1.menu.menuItemMap
      = hashmap_put w.menu.menuItemMap menuid w.items.length ∧
    ∃ it, (processCheckboxMenuItem w parent title menuid disabled checked key
        hascallback).1.items[w.items.length]? = some it ∧
      it.title = title ∧ it.enabled = !disabled ∧
      it.state = (if checked then NSControlStateValueOn else NSControlStateValueOff) ∧
      it.action = some "menuItemCallback:" := by
  refine ⟨?_, ?_, ?_⟩
  · unfold processCheckboxMenuItem
    simp only []
    refine Grows.addItem_parent _ (Grows.msgItem _ (Grows.msgItem _ (Grows.msgItem _ ?_
      h.items_le) h.items_le) h.items_le)
    cases hascallback
    · simp only [Bool.false_eq_true, if_false]
      exact (h.alloc).setMenu _
    · simp only [if_true]
      exact (((h.alloc).setMenu _).callbackData _ _ _).msgItem _ h.items_le
  · cases hascallback <;>
      simp [processCheckboxMenuItem, CreateMenuItemCallbackData, allocMenuItem]
  · unfold processCheckboxMenuItem
    simp only [addItem_items]
    cases hascallback
    · simp only [Bool.false_eq_true, if_false]
      exact ⟨_, msgItem_items_self _ (msgItem_items_self _ (msgItem_items_self _
        (allocMenuItem_items_self w))), rfl, rfl, rfl, rfl⟩
    · simp only [if_true]
      exact ⟨_, msgItem_items_self _ (msgItem_items_self _ (msgItem_items_self _
        (msgItem_items_self _ (allocMenuItem_items_self w)))), rfl, rfl, rfl, rfl⟩

theorem processRadioMenuItem_spec {n b : Nat} {parent : ObjcId} {added : List Nat}
    {w0 w : World} (title menuid : String) (disabled checked : Bool) (key : Option String)
    (hascallback : Bool) (h : Grows n b parent added w0 w) :
    Grows n b parent (added ++ [w.items.length]) w0
      (processRadioMenuItem w parent title menuid disabled checked key hascallback).1 ∧
    (processRadioMenuItem w parent title menuid disabled checked key hascallback).1.menu.menuItemMap
      = hashmap_put w.menu.menuItemMap menuid w.items.length ∧
    ∃ it, (processRadioMenuItem w parent title menuid disabled checked key
        hascallback).1.items[w.items.length]? = some it ∧
      it.title = title ∧ it.enabled = !disabled ∧
      it.state = (if checked then NSControlStateValueOn else NSControlStateValueOff) ∧
      it.action = some "menuItemCallback:" := by
  refine ⟨?_, ?_, ?_⟩
  · unfold processRadioMenuItem
    simp only []
    refine Grows.addItem_parent _ (Grows.msgItem _ (Grows.msgItem _ (Grows.msgItem _ ?_
      h.items_le) h.items_le) h.items_le)
    cases hascallback
    · simp only [Bool.false_eq_true, if_false]
      exact (h.alloc).setMenu _
    · simp only [if_true]
      exact (((h.alloc).setMenu _).callbackData _ _ _).msgItem _ h.items_le
  · cases hascallback <;>
      simp [processRadioMenuItem, CreateMenuItemCallbackData, allocMenuItem]
  · unfold processRadioMenuItem
    simp only [addItem_items]
    cases hascallback
    · simp only [Bool.false_eq_true, if_false]
      exact ⟨_, msgItem_items_self _ (msgItem_items_self _ (msgItem_items_self _
        (allocMenuItem_items_self w))), rfl, rfl, rfl, rfl⟩
    · simp only [if_true]
      exact ⟨_, msgItem_items_self _ (msgItem_items_self _ (msgItem_items_self _
        (msgItem_items_self _ (allocMenuItem_items_self w)))), rfl, rfl, rfl, rfl⟩

theorem processTextMenuItem_spec {n b : Nat} {parent : ObjcId} {added : List Nat}
    {w0 w : World} {title menuid : String} {disabled : Bool} {key : Option String}
    {modifiers : Option (List (Option String))} {hascallback : Bool} {r : World × Nat}
    (h : Grows n b parent added w0 w)
    (e : processTextMenuItem w parent title menuid disabled key modifiers hascallback = some r) :
    Grows n b parent (added ++ [w.items.length]) w0 r.1 ∧
      r.1.menu.menuItemMap = w.menu.menuItemMap ∧ r.1.menu.menu = w.menu.menu := by
  unfold processTextMenuItem at e
  simp only [] at e
  have hbase : Grows n b parent added w0
      (setEnabled (initWithTitle
        (if hascallback = true then
          setRepresentedObject (CreateMenuItemCallbackData (allocMenuItem w).1
            (some (allocMenuItem w).2) (some menuid) MenuItemType.Text).1
            (some (allocMenuItem w).2)
            (CreateMenuItemCallbackData (allocMenuItem w).1 (some (allocMenuItem w).2)
              (some menuid) MenuItemType.Text).2
         else (allocMenuItem w).1)
        (some (allocMenuItem w).2) (str title) (some "menuItemCallback:")
        (processAcceleratorKey key)) (some (allocMenuItem w).2) (!disabled)) := by
    refine Grows.msgItem _ (Grows.msgItem _ ?_ h.items_le) h.items_le
    cases hascallback
    · simp only [Bool.false_eq_true, if_false]
      exact h.alloc
    · simp only [if_true]
      exact ((h.alloc).callbackData _ _ _).msgItem _ h.items_le
  cases modifiers with
  | none =>
    simp only [Option.some.injEq] at e
    subst e
    refine ⟨hbase.addItem_parent _, ?_, ?_⟩ <;>
      cases hascallback <;> simp [CreateMenuItemCallbackData]
  | some ms =>
    cases hm : allValid ms with
    | none => simp [hm] at e
    | some names =>
      simp only [hm, Option.some.injEq] at e
      subst e
      refine ⟨(hbase.msgItem _ h.items_le).addItem_parent _, ?_, ?_⟩ <;>
        cases hascallback <;> simp [CreateMenuItemCallbackData]

/-- The face of the item `processCheckboxMenuItem` makes. -/
theorem processCheckboxMenuItem_face (w : World) (parent : ObjcId) (title menuid : String)
    (disabled checked : Bool) (key : String) (hascallback : Bool) :
    ∃ it, (processCheckboxMenuItem w parent title menuid disabled checked key
        hascallback).1.items[w.items.length]? = some it ∧
      face it = Face.mk title (some "menuItemCallback:") false
        (if hascallback then some (some menuid, MenuItemType.Checkbox) else none) := by
  unfold processCheckboxMenuItem
  simp only [addItem_items]
  cases hascallback
  · simp only [Bool.false_eq_true, if_false]
    exact ⟨_, msgItem_items_self _ (msgItem_items_self _ (msgItem_items_self _
      (allocMenuItem_items_self w))), rfl⟩
  · simp only [if_true]
    exact ⟨_, msgItem_items_self _ (msgItem_items_self _ (msgItem_items_self _
      (msgItem_items_self _ (allocMenuItem_items_self w)))), rfl⟩

/-- The face of the item `processRadioMenuItem` makes. -/
theorem processRadioMenuItem_face (w : World) (parent : ObjcId) (title menuid : String)
    (disabled checked : Bool) (key : Option String) (hascallback : Bool) :
    ∃ it, (processRadioMenuItem w parent title menuid disabled checked key
        hascallback).1.items[w.items.length]? = some it ∧
      face it = Face.mk title (some "menuItemCallback:") false
        (if hascallback then some (some menuid, MenuItemType.Radio) else none) := by
  unfold processRadioMenuItem
  simp only [addItem_items]
  cases hascallback
  · simp only [Bool.false_eq_true, if_false]
    exact ⟨_, msgItem_items_self _ (msgItem_items_self _ (msgItem_items_self _
      (allocMenuItem_items_self w))), rfl⟩
  · simp only [if_true]
    exact ⟨_, msgItem_items_self _ (msgItem_items_self _ (msgItem_items_self _
      (msgItem_items_self _ (allocMenuItem_items_self w)))), rfl⟩

/-- The face of the item `processTextMenuItem` makes. -/
theorem processTextMenuItem_face {w : World} {parent : ObjcId} {title menuid : String}
    {disabled : Bool} {key : Option String} {modifiers : Option (List (Option String))}
    {hascallback : Bool} {r : World × Nat}
    (e : processTextMenuItem w parent title menuid disabled key modifiers hascallback = some r) :
    ∃ it, r.1.items[w.items.length]? = some it ∧
      face it = Face.mk title (some "menuItemCallback:") false
        (if hascallback then some (some menuid, MenuItemType.Text) else none) := by
  unfold processTextMenuItem at e
  simp only [] at e
  cases modifiers with
  | none =>
    simp only [Option.some.injEq] at e
    subst e
    simp only [addItem_items]
    cases hascallback
    · simp only [Bool.false_eq_true, if_false]
      exact ⟨_, msgItem_items_self _ (msgItem_items_self _ (allocMenuItem_items_self w)), rfl⟩
    · simp only [if_true]
      exact ⟨_, msgItem_items_self _ (msgItem_items_self _ (msgItem_items_self _
        (allocMenuItem_items_self w))), rfl⟩
  | some ms =>
    cases hm : allValid ms with
    | none => simp [hm] at e
    | some names =>
      simp only [hm, Option.some.injEq] at e
      subst e
      simp only [addItem_items]
      cases hascallback
      · simp only [Bool.false_eq_true, if_false]
        exact ⟨_, msgItem_items_self _ (msgItem_items_self _ (msgItem_items_self _
          (allocMenuItem_items_self w))), rfl⟩
      · simp only [if_true]
        exact ⟨_, msgItem_items_self _ (msgItem_items_self _ (msgItem_items_self _
          (msgItem_items_self _ (allocMenuItem_items_self w)))), rfl⟩

/-- The item `addSeparator` makes. -/
theorem addSeparator_face (w : World) (menu : ObjcId) :
    ∃ it, (addSeparator w menu).items[w.items.length]? = some it ∧
      face it = { isSeparatorItem := true } := by
  unfold addSeparator
  simp only [addItem_items]
  exact ⟨{ isSeparatorItem := true }, by simp, rfl⟩

theorem string_?_eq_some {node : JsonNode} {s : String} (h : node.string_? = some s) :
    node = JsonNode.string s := by
  cases node <;> simp [JsonNode.string_?] at h
  rw [h]

theorem processUserMenuItem_spec {n b : Nat} {parent : ObjcId} {added : List Nat}
    {w0 w w' : World} (item : JsonNode) (h : Grows n b parent added w0 w)
    (e : processUserMenuItem w parent item = some w') :
    ∃ a : List Nat, a.length ≤ 1 ∧ Grows n b parent (added ++ a) w0 w' ∧
      ((json_find_member item "t" = some (JsonNode.string "c") ∨
        json_find_member item "t" = some (JsonNode.string "r")) →
        w'.menu.menuItemMap = hashmap_put w.menu.menuItemMap (itemID item) w.items.length ∧
        ∃ it, w'.items[w.items.length]? = some it ∧ IsNativeOf item it) ∧
      (¬ (json_find_member item "t" = some (JsonNode.string "c") ∨
        json_find_member item "t" = some (JsonNode.string "r")) →
        w'.menu.menuItemMap = w.menu.menuItemMap) ∧
      Added w' w.items.length (typeFace item) a := by
  unfold processUserMenuItem at e
  simp only [] at e
  cases ht : json_find_member item "t" with
  | none =>
    simp only [ht, Option.some.injEq] at e
    subst e
    exact ⟨[], by simp, by simpa using h, by simp, fun _ => rfl, by simp [typeFace, ht, Added]⟩
  | some type =>
    cases hs : type.string_? with
    | none => simp [ht, hs] at e
    | some t =>
      have htype := string_?_eq_some hs
      subst htype
      simp only [ht, hs] at e
      by_cases h1 : t = "t"
      · subst h1
        rw [if_pos rfl] at e
        obtain ⟨r, hr, rfl⟩ := Option.map_eq_some'.1 e
        obtain ⟨hg, hm, _⟩ := processTextMenuItem_spec h hr
        obtain ⟨it, hit, hface⟩ := processTextMenuItem_face hr
        exact ⟨[w.items.length], by simp, hg, by simp, fun _ => hm,
          by simpa [typeFace, ht, hs, userFace, Added, itemID] using ⟨it, hit, hface⟩⟩
      rw [if_neg h1] at e
      by_cases h2 : t = "s"
      · subst h2
        rw [if_pos rfl, Option.some.injEq] at e
        subst e
        obtain ⟨it, hit, hface⟩ := addSeparator_face w parent
        exact ⟨[w.items.length], by simp, h.addSeparator_parent, by simp, fun _ => by simp,
          by simpa [typeFace, ht, hs, userFace, Added] using ⟨it, hit, hface⟩⟩
      rw [if_neg h2] at e
      by_cases h3 : t = "c"
      · subst h3
        rw [if_pos rfl, Option.some.injEq] at e
        subst e
        obtain ⟨hg, hm, it, hit, ht1, ht2, ht3, ht4⟩ :=
          processCheckboxMenuItem_spec ((getJSONString item "l").getD "(empty)")
            ((getJSONString item "I").getD "") (getJSONBool item "d") (getJSONBool item "c") ""
            (getJSONBool item "C") h
        obtain ⟨jt, hjt, hface⟩ := processCheckboxMenuItem_face w parent
          ((getJSONString item "l").getD "(empty)") ((getJSONString item "I").getD "")
          (getJSONBool item "d") (getJSONBool item "c") "" (getJSONBool item "C")
        exact ⟨[w.items.length], by simp, hg, fun _ => ⟨hm, it, hit, ht1, ht2, ht3, ht4⟩,
          fun hne => absurd (Or.inl rfl) hne,
          by simpa [typeFace, ht, hs, userFace, Added, itemID] using ⟨jt, hjt, hface⟩⟩
      rw [if_neg h3] at e
      by_cases h4 : t = "r"
      · subst h4
        rw [if_pos rfl, Option.some.injEq] at e
        subst e
        obtain ⟨hg, hm, it, hit, ht1, ht2, ht3, ht4⟩ :=
          processRadioMenuItem_spec ((getJSONString item "l").getD "(empty)")
            ((getJSONString item "I").getD "") (getJSONBool item "d") (getJSONBool item "c")
            (some "") (getJSONBool item "C") h
        obtain ⟨jt, hjt, hface⟩ := processRadioMenuItem_face w parent
          ((getJSONString item "l").getD "(empty)") ((getJSONString item "I").getD "")
          (getJSONBool item "d") (getJSONBool item "c") (some "") (getJSONBool item "C")
        exact ⟨[w.items.length], by simp, hg, fun _ => ⟨hm, it, hit, ht1, ht2, ht3, ht4⟩,
          fun hne => absurd (Or.inr rfl) hne,
          by simpa [typeFace, ht, hs, userFace, Added, itemID] using ⟨jt, hjt, hface⟩⟩
      rw [if_neg h4, Option.some.injEq] at e
      subst e
      refine ⟨[], by simp, by simpa using h, fun hc => ?_, fun _ => rfl,
        by simp [typeFace, ht, hs, userFace, Added, h1, h2, h3, h4]⟩
      rcases hc with hc | hc
      · exact absurd (by simpa using hc) h3
      · exact absurd (by simpa using hc) h4

theorem processUserMenuItem_menu_menu {w w' : World} {parent : ObjcId} {item : JsonNode}
    (e : processUserMenuItem w parent item = some w') : w'.menu.menu = w.menu.menu := by
  unfold processUserMenuItem at e
  simp only [] at e
  cases ht : json_find_member item "t" with
  | none =>
    simp only [ht, Option.some.injEq] at e
    subst e
    rfl
  | some type =>
    cases hs : type.string_? with
    | none => simp [ht, hs] at e
    | some t =>
      simp only [ht, hs] at e
      by_cases h1 : t = "t"
      · rw [if_pos h1] at e
        obtain ⟨r, hr, rfl⟩ := Option.map_eq_some'.1 e
        exact (processTextMenuItem_spec (Grows.refl w parent) hr).2.2
      rw [if_neg h1] at e
      by_cases h2 : t = "s"
      · rw [if_pos h2, Option.some.injEq] at e
        subst e
        simp
      rw [if_neg h2] at e
      by_cases h3 : t = "c"
      · rw [if_pos h3, Option.some.injEq] at e
        subst e
        cases getJSONBool item "C" <;> simp [processCheckboxMenuItem, CreateMenuItemCallbackData]
      rw [if_neg h3] at e
      by_cases h4 : t = "r"
      · rw [if_pos h4, Option.some.injEq] at e
        subst e
        cases getJSONBool item "C" <;> simp [processRadioMenuItem, CreateMenuItemCallbackData]
      rw [if_neg h4, Option.some.injEq] at e
      subst e
      rfl

/-! ## Compilation of a list of items -/

theorem hashmap_get_put {V : Type} (m : hashmap_s V) (k k' : String) (v : V) :
    hashmap_get (hashmap_put m k v) k' = if k = k' then some v else hashmap_get m k' := by
  unfold hashmap_get hashmap_put
  by_cases h : k = k'
  · subst h; simp
  · simp only [if_neg h]
    rw [List.find?_cons_of_neg _ (by simpa using h)]
    congr 1
    induction m with
    | nil => rfl
    | cons e m ih =>
      by_cases he : e.1 = k
      · have hne : ¬ e.1 = k' := fun h' => h (he.symm.trans h')
        simp [List.filter_cons, he, hne, ih, h]
      · by_cases he' : e.1 = k'
        · have hk : ¬ k' = k := fun h' => h h'.symm
          simp [List.filter_cons, he, he', hk]
        · simp [List.filter_cons, he, he', ih]

theorem Grows.nest {n b n1 b1 q : Nat} {parent : ObjcId} {a a' : List Nat} {w0 w1 w2 : World}
    (h : Grows n b parent a w0 w1) (h' : Grows n1 b1 (some q) a' w1 w2)
    (hn : n ≤ n1) (hb : b ≤ b1) (hq : b ≤ q) : Grows n b parent a w0 w2 :=
  ⟨fun i hi => (h'.items_keep i (by omega)).trans (h.items_keep i hi),
   by have := h'.items_le; omega,
   fun m hm hp => (h'.menus_keep m (by omega) (by simp; omega)).trans (h.menus_keep m hm hp),
   by have := h'.menus_le; omega,
   fun p hp hpb => (h'.menus_keep p (by omega) (by simp; omega)).trans (h.parent_eq p hp hpb)⟩

theorem Grows.trans {n b n1 b1 : Nat} {parent : ObjcId} {a a' : List Nat} {w0 w1 w2 : World}
    (h : Grows n b parent a w0 w1) (h' : Grows n1 b1 parent a' w1 w2)
    (hn : n ≤ n1) (hb : b ≤ b1) : Grows n b parent (a ++ a') w0 w2 :=
  ⟨fun i hi => (h'.items_keep i (by omega)).trans (h.items_keep i hi),
   by have := h'.items_le; omega,
   fun m hm hp => (h'.menus_keep m (by omega) hp).trans (h.menus_keep m hm hp),
   by have := h'.menus_le; omega,
   fun p hp hpb => by
     rw [h'.parent_eq p hp (by omega), h.parent_eq p hp hpb]
     cases w0.menus[p]? <;> simp⟩

theorem Grows.items_some {n b : Nat} {parent : ObjcId} {a : List Nat} {w w' : World}
    (h : Grows n b parent a w w') (hn : w.items.length ≤ n) {i : Nat} {it : NSMenuItem}
    (hi : w.items[i]? = some it) : w'.items[i]? = some it := by
  rw [h.items_keep i (by have := (List.getElem?_eq_some.1 hi).1; omega), hi]

/-- A contribution stays one when the items of the state are kept. -/
theorem Contributed.keep {env : Env} {w w' : World} {item : JsonNode} {l : List Nat}
    (h : Contributed env w item l)
    (hitems : ∀ (i : Nat) (it : NSMenuItem), w.items[i]? = some it → w'.items[i]? = some it) :
    Contributed env w' item l := by
  unfold Contributed at h ⊢
  cases hc : contribution env item with
  | none => simpa [hc] using h
  | some f =>
    simp only [hc] at h ⊢
    obtain ⟨i, it, hl, hit, hface⟩ := h
    exact ⟨i, it, hl, hitems i it hit, hface⟩

/-- What a step has added is a contribution of the item when the faces agree. -/
theorem Added.contributed {env : Env} {w : World} {item : JsonNode} {n : Nat} {a : List Nat}
    (h : Added w n (contribution env item) a) : Contributed env w item a := by
  unfold Contributed
  unfold Added at h
  cases hc : contribution env item with
  | none => simpa [hc] using h
  | some f =>
    simp only [hc] at h ⊢
    obtain ⟨it, hl, hit, hface⟩ := h
    exact ⟨n, it, hl, hit, hface⟩

theorem CompiledFrom.weaken {env : Env} {w : World} {b b' : Nat} {ids : List Nat} {items : List JsonNode}
    (h : CompiledFrom env w b ids items) (hb : b' ≤ b) : CompiledFrom env w b' ids items := by
  induction h with
  | nil => exact CompiledFrom.nil
  | submenu i ids item items it m mn hv hit hl hs hbm hm ht _ _ ih1 ih2 =>
    exact CompiledFrom.submenu i ids item items it m mn hv hit hl hs (by omega) hm ht ih1 ih2
  | other l ids item items hv hl _ ih => exact CompiledFrom.other l ids item items hv hl ih

/-- A compilation stays one when the items of the state are kept and the menus
from index `b` on are kept. -/
theorem CompiledFrom.frame {env : Env} {w w' : World} {b : Nat} {ids : List Nat} {items : List JsonNode}
    (h : CompiledFrom env w b ids items)
    (hitems : ∀ (i : Nat) (it : NSMenuItem), w.items[i]? = some it → w'.items[i]? = some it)
    (hmenus : ∀ (m : Nat) (mn : NSMenu), b ≤ m → w.menus[m]? = some mn →
      w'.menus[m]? = some mn) :
    CompiledFrom env w' b ids items := by
  induction h with
  | nil => exact CompiledFrom.nil
  | submenu i ids item items it m mn hv hit hl hs hbm hm ht _ _ ih1 ih2 =>
    exact CompiledFrom.submenu i ids item items it m mn hv (hitems _ _ hit) hl hs hbm
      (hmenus _ _ hbm hm) ht ih1 ih2
  | other l ids item items hv hl _ ih =>
    exact CompiledFrom.other l ids item items hv (hl.keep hitems) ih

theorem CompiledFrom.append {env : Env} {w : World} {b : Nat} {ids ids' : List Nat}
    {items items' : List JsonNode} (h : CompiledFrom env w b ids items)
    (h' : CompiledFrom env w b ids' items') : CompiledFrom env w b (ids ++ ids') (items ++ items') := by
  induction h with
  | nil => simpa using h'
  | submenu i ids item items it m mn hv hit hl hs hbm hm ht h1 _ _ ih2 =>
    exact CompiledFrom.submenu i _ item _ it m mn hv hit hl hs hbm hm ht h1 ih2
  | other l ids item items hv hl _ ih =>
    rw [List.append_assoc]
    exact CompiledFrom.other l _ item _ hv hl ih

theorem Reached.cons_iff (c : JsonNode) (cs : List JsonNode) (item : JsonNode) :
    Reached (c :: cs) item ↔ Reached [c] item ∨ Reached cs item := by
  constructor
  · intro h
    cases h with
    | here _ _ hm =>
      rcases List.mem_cons.1 hm with rfl | hm
      · exact Or.inl (Reached.here _ _ (by simp))
      · exact Or.inr (Reached.here _ _ hm)
    | under _ sub _ hm hv hr =>
      rcases List.mem_cons.1 hm with rfl | hm
      · exact Or.inl (Reached.under _ _ _ (by simp) hv hr)
      · exact Or.inr (Reached.under _ _ _ hm hv hr)
  · rintro (h | h)
    · cases h with
      | here _ _ hm => exact Reached.here _ _ (by simp at hm; simp [hm])
      | under _ sub _ hm hv hr =>
        exact Reached.under _ sub _ (by simp at hm; simp [hm]) hv hr
    · cases h with
      | here _ _ hm => exact Reached.here _ _ (List.mem_cons_of_mem _ hm)
      | under _ sub _ hm hv hr => exact Reached.under _ sub _ (List.mem_cons_of_mem _ hm) hv hr

theorem Reached.singleton {c item : JsonNode} (h : Reached [c] item) :
    item = c ∨ (isVisibleSubmenu c ∧ Reached (submenuItems c) item) := by
  cases h with
  | here _ _ hm => exact Or.inl (by simpa using hm)
  | under _ sub _ hm hv hr =>
    have : sub = c := by simpa using hm
    subst this
    exact Or.inr ⟨hv, hr⟩

theorem CompileSpec.nil (env : Env) (w : World) (parent : ObjcId) : CompileSpec env w w parent [] :=
  ⟨⟨[], Grows.refl w parent, CompiledFrom.nil⟩, fun _ _ h => Or.inl h, fun _ h => h,
   fun item h => by
     cases h with
     | here _ _ hm => simp at hm
     | under _ _ _ hm _ _ => simp at hm,
   rfl⟩

theorem CompileSpec.cons {env : Env} {w w1 w2 : World} {parent : ObjcId} {c : JsonNode}
    {cs : List JsonNode} (h1 : CompileSpec env w w1 parent [c]) (h2 : CompileSpec env w1 w2 parent cs)
    (hp : ∀ p, parent = some p → p < w.menus.length) : CompileSpec env w w2 parent (c :: cs) := by
  obtain ⟨a1, g1, c1⟩ := h1.grows
  obtain ⟨a2, g2, c2⟩ := h2.grows
  refine ⟨⟨a1 ++ a2, g1.trans g2 g1.items_le g1.menus_le, ?_⟩, ?_, ?_, ?_,
    h2.menu_menu.trans h1.menu_menu⟩
  · have c1' : CompiledFrom env w2 w.menus.length a1 [c] := by
      refine c1.frame (fun i it hi => g2.items_some (le_refl _) hi) (fun m mn hbm hm => ?_)
      have hlt : m < w1.menus.length := (List.getElem?_eq_some.1 hm).1
      rw [g2.menus_keep m hlt, hm]
      intro hpm
      have := hp m hpm
      omega
    exact c1'.append (c2.weaken g1.menus_le)
  · intro k i hk
    rcases h2.map_new k i hk with hk1 | ⟨item, it, hr, hreg, hid, hit, hnat⟩
    · rcases h1.map_new k i hk1 with hk0 | ⟨item, it, hr, hreg, hid, hit, hnat⟩
      · exact Or.inl hk0
      · exact Or.inr ⟨item, it, (Reached.cons_iff c cs item).2 (Or.inl hr), hreg, hid,
          g2.items_some (le_refl _) hit, hnat⟩
    · exact Or.inr ⟨item, it, (Reached.cons_iff c cs item).2 (Or.inr hr), hreg, hid, hit, hnat⟩
  · exact fun k hk => h2.map_keep k (h1.map_keep k hk)
  · intro item hr hreg
    rcases (Reached.cons_iff c cs item).1 hr with hr | hr
    · exact h2.map_keep _ (h1.map_reg item hr hreg)
    · exact h2.map_reg item hr hreg

/-- The loop `json_foreach` over `items` meets `CompileSpec` when each pass of
its body does. -/
theorem json_foreach_spec (env : Env) (body : World → JsonNode → Option World)
    (parent : ObjcId)
    (hbody : ∀ (w : World) (c : JsonNode) (w' : World),
      (∀ p, parent = some p → p < w.menus.length) → body w c = some w' →
      CompileSpec env w w' parent [c]) :
    ∀ (items : List JsonNode) (w w' : World), (∀ p, parent = some p → p < w.menus.length) →
      json_foreach body items w = some w' → CompileSpec env w w' parent items := by
  intro items
  induction items with
  | nil =>
    intro w w' _ h
    simp only [json_foreach, Option.some.injEq] at h
    subst h
    exact CompileSpec.nil env w parent
  | cons c cs ih =>
    intro w w' hp h
    simp only [json_foreach] at h
    cases hb : body w c with
    | none => simp [hb] at h
    | some w1 =>
      simp only [hb] at h
      have h1 := hbody w c w1 hp hb
      obtain ⟨a1, g1, _⟩ := h1.grows
      have hp1 : ∀ p, parent = some p → p < w1.menus.length := fun p hpp => by
        have := hp p hpp
        have := g1.menus_le
        omega
      exact h1.cons (ih w1 w' hp1 h) hp

/-! ## Compilation of one item -/

theorem CompileSpec.skip {env : Env} {w w' : World} {parent : ObjcId} {item : JsonNode} {a : List Nat}
    (hv : ¬ isVisibleSubmenu item) (hreg : ¬ isRegistered item)
    (ha : Contributed env w' item a)
    (hg : Grows w.items.length w.menus.length parent a w w')
    (hm : w'.menu.menuItemMap = w.menu.menuItemMap) (hmm : w'.menu.menu = w.menu.menu) :
    CompileSpec env w w' parent [item] := by
  refine ⟨⟨a, hg, by simpa using CompiledFrom.other a [] item [] hv ha CompiledFrom.nil⟩,
    fun k i hk => Or.inl (by rw [← hm]; exact hk), fun k hk => by rw [hm]; exact hk, ?_, hmm⟩
  intro j hr hj
  rcases Reached.singleton hr with rfl | ⟨hv', _⟩
  · exact absurd hj hreg
  · exact absurd hv' hv

theorem processSubmenu_spec (env : Env) (fuel : Nat)
    (ih : ∀ (w : World) (parent : ObjcId) (item : JsonNode) (w' : World),
      (∀ p, parent = some p → p < w.menus.length) →
      processMenuItemAux env fuel w parent item = some w' → CompileSpec env w w' parent [item])
    (w : World) (parent : ObjcId) (item : JsonNode) (w' : World) (name : String)
    (hp : ∀ p, parent = some p → p < w.menus.length)
    (hvis : isVisibleSubmenu item) (hname : submenuLabel item = some name)
    (e : json_foreach
        (fun w_1 c => processMenuItemAux env fuel w_1
          (some (createMenu (createMenuItemNoAutorelease w name none "").1 name).2) c)
        (submenuItems item)
        (addItem
          (setSubmenu (createMenu (createMenuItemNoAutorelease w name none "").1 name).1
            (some (createMenuItemNoAutorelease w name none "").2)
            (some (createMenu (createMenuItemNoAutorelease w name none "").1 name).2))
          parent (createMenuItemNoAutorelease w name none "").2) = some w') :
    CompileSpec env w w' parent [item] := by
  generalize hw1 : (addItem
          (setSubmenu (createMenu (createMenuItemNoAutorelease w name none "").1 name).1
            (some (createMenuItemNoAutorelease w name none "").2)
            (some (createMenu (createMenuItemNoAutorelease w name none "").1 name).2))
          parent (createMenuItemNoAutorelease w name none "").2) = w1 at e
  have hq : (createMenu (createMenuItemNoAutorelease w name none "").1 name).2
      = w.menus.length := by
    simp [createMenu, createMenuItemNoAutorelease, allocMenuItem, initWithTitle]
  rw [hq] at e
  have g1 : Grows w.items.length w.menus.length parent ([] ++ [w.items.length]) w w1 := by
    rw [← hw1]
    exact ((Grows.refl w parent).submenuItem name name).addItem_parent _
  have hmenu1 : w1.menu = w.menu := by
    rw [← hw1]; simp
  have hlen_i : w1.items.length = w.items.length + 1 := by
    rw [← hw1]
    simp [setSubmenu, createMenu, createMenuItemNoAutorelease, allocMenuItem, initWithTitle]
  have hlen_m : w1.menus.length = w.menus.length + 1 := by
    rw [← hw1]
    simp [setSubmenu, createMenu, createMenuItemNoAutorelease, allocMenuItem, initWithTitle]
  obtain ⟨it, hit1, htitle, hsub⟩ : ∃ it, w1.items[w.items.length]? = some it ∧
      it.title = name ∧ it.submenu = some w.menus.length := by
    rw [← hw1, addItem_items]
    exact ⟨_, msgItem_items_self _ (msgItem_items_self _ (allocMenuItem_items_self w)), rfl, hq ▸ rfl⟩
  have hmn1 : w1.menus[w.menus.length]? =
      some { title := name, autoenablesItems := false, itemArray := [] } := by
    rw [← hw1]
    cases parent with
    | none =>
      simp [addItem, setSubmenu, createMenu, createMenuItemNoAutorelease, initWithTitle,
        allocMenuItem]
    | some p =>
      have hpp := hp p rfl
      rw [addItem_menus_getElem?, if_neg (by omega)]
      simp [setSubmenu, createMenu, createMenuItemNoAutorelease, initWithTitle, allocMenuItem]
  have inner : CompileSpec env w1 w' (some w.menus.length) (submenuItems item) :=
    json_foreach_spec env _ (some w.menus.length)
      (fun u c u' hu hb => ih u (some w.menus.length) c u' hu hb) _ w1 w'
      (by intro p hpp; cases hpp; omega) e
  obtain ⟨a2, g2, c2⟩ := inner.grows
  have hit' : w'.items[w.items.length]? = some it := g2.items_some (le_refl _) hit1
  have hmn' : w'.menus[w.menus.length]? =
      some { title := name, autoenablesItems := false, itemArray := a2 } := by
    rw [g2.parent_eq _ rfl (by omega), hmn1]
    simp
  refine ⟨⟨[w.items.length], ?_, ?_⟩, ?_, ?_, ?_, by rw [inner.menu_menu, hmenu1]⟩
  · have := g1.nest g2 (by omega) (by omega) (le_refl _)
    simpa using this
  · exact CompiledFrom.submenu _ [] item [] it _ _ hvis hit' (by rw [htitle]; exact hname) hsub
      (le_refl _) hmn' htitle.symm (c2.weaken (by omega)) CompiledFrom.nil
  · intro k i hk
    rcases inner.map_new k i hk with hk1 | ⟨j, jt, hr, hreg, hid, hjt, hnat⟩
    · exact Or.inl (by rw [← hmenu1]; exact hk1)
    · exact Or.inr ⟨j, jt, Reached.under _ item _ (by simp) hvis hr, hreg, hid, hjt, hnat⟩
  · intro k hk
    exact inner.map_keep k (by rw [hmenu1]; exact hk)
  · intro j hr hj
    rcases Reached.singleton hr with rfl | ⟨_, hr'⟩
    · obtain ⟨_, _, hS⟩ := hvis
      rw [hj.2.2.1] at hS
      simp at hS
    · exact inner.map_reg j hr' hj

theorem processMenuItemAux_spec (env : Env) :
    ∀ (fuel : Nat) (w : World) (parent : ObjcId) (item : JsonNode) (w' : World),
      (∀ p, parent = some p → p < w.menus.length) →
      processMenuItemAux env fuel w parent item = some w' → CompileSpec env w w' parent [item] := by
  intro fuel
  induction fuel with
  | zero =>
    intro w parent item w' _ e
    simp [processMenuItemAux] at e
  | succ fuel ih =>
    intro w parent item w' hp e
    unfold processMenuItemAux at e
    simp only [] at e
    by_cases hh : getJSONBool item "h" = true
    · rw [if_pos hh, Option.some.injEq] at e
      subst e
      exact CompileSpec.skip (fun hv => by simp [hv.1] at hh) (fun hj => by simp [hj.1] at hh)
        (by simp [Contributed, contribution, hh]) (Grows.refl w parent) rfl rfl
    · rw [if_neg hh] at e
      have hh' : getJSONBool item "h" = false := by simpa using hh
      cases hr : json_find_member item "r" with
      | some role =>
        simp only [hr] at e
        obtain ⟨a, _, hg, hm, hface⟩ := (Grows.refl w parent).processMenuRole env role e
        have hc : Contributed env w' item a := by
          refine Added.contributed (?_ : Added w' w.items.length _ a)
          cases hrs : role.string_? with
          | none => simp [processMenuRole, hrs] at e
          | some roleName =>
            have hadd := hface roleName hrs
            simpa [contribution, hh', hr, hrs] using hadd
        exact CompileSpec.skip (fun hv => by simp [hv.2.1] at hr)
          (fun hj => by simp [hj.2.1] at hr) hc (by simpa using hg) (by rw [hm]) (by rw [hm])
      | none =>
        simp only [hr] at e
        cases hS : json_find_member item "S" with
        | none =>
          simp only [hS] at e
          obtain ⟨a, _, hg, hreg, hnreg, hadd⟩ :=
            processUserMenuItem_spec item (Grows.refl w parent) e
          have ha : Contributed env w' item a :=
            Added.contributed (by simpa [contribution, hh', hr] using hadd)
          have hmm := processUserMenuItem_menu_menu e
          have hv : ¬ isVisibleSubmenu item := fun hv => by
            have h3 := hv.2.2
            rw [hS] at h3
            simp at h3
          by_cases ht : json_find_member item "t" = some (JsonNode.string "c") ∨
              json_find_member item "t" = some (JsonNode.string "r")
          · obtain ⟨hmap, it, hit, hnat⟩ := hreg ht
            have hisreg : isRegistered item := ⟨hh', hr, hS, ht⟩
            refine ⟨⟨a, by simpa using hg,
              by simpa using CompiledFrom.other a [] item [] hv ha CompiledFrom.nil⟩, ?_, ?_, ?_,
              hmm⟩
            · intro k i hk
              rw [hmap, hashmap_get_put] at hk
              by_cases hki : itemID item = k
              · rw [if_pos hki, Option.some.injEq] at hk
                subst hk
                exact Or.inr ⟨item, it, Reached.here _ _ (by simp), hisreg, hki, hit, hnat⟩
              · rw [if_neg hki] at hk
                exact Or.inl hk
            · intro k hk
              rw [hmap, hashmap_get_put]
              by_cases hki : itemID item = k
              · simp [hki]
              · simpa [hki] using hk
            · intro j hrj hj
              rcases Reached.singleton hrj with rfl | ⟨hv', _⟩
              · rw [hmap, hashmap_get_put]
                simp
              · exact absurd hv' hv
          · exact CompileSpec.skip hv (fun hj => ht hj.2.2.2) ha (by simpa using hg) (hnreg ht)
              hmm
        | some submenu =>
          simp only [hS] at e
          have hvis : isVisibleSubmenu item := ⟨hh', hr, by simp [hS]⟩
          have key : ∀ name : String, submenuLabel item = some name →
              (match json_find_member submenu "i" with
                | none =>
                  some (addItem
                    (setSubmenu
                      (createMenu (createMenuItemNoAutorelease w (str name) none "").1 (str name)).1
                      (some (createMenuItemNoAutorelease w (str name) none "").2)
                      (some (createMenu (createMenuItemNoAutorelease w (str name) none "").1
                        (str name)).2))
                    parent (createMenuItemNoAutorelease w (str name) none "").2)
                | some submenuItems =>
                  json_foreach
                    (fun w_1 item =>
                      processMenuItemAux env fuel w_1
                        (some (createMenu (createMenuItemNoAutorelease w (str name) none "").1
                          (str name)).2) item)
                    (json_children submenuItems)
                    (addItem
                      (setSubmenu
                        (createMenu (createMenuItemNoAutorelease w (str name) none "").1
                          (str name)).1
                        (some (createMenuItemNoAutorelease w (str name) none "").2)
                        (some (createMenu (createMenuItemNoAutorelease w (str name) none "").1
                          (str name)).2))
                      parent (createMenuItemNoAutorelease w (str name) none "").2)) = some w' →
              CompileSpec env w w' parent [item] := by
            intro name hname e
            refine processSubmenu_spec env fuel ih w parent item w' name hp hvis hname ?_
            simp only [submenuItems, hS]
            cases hi : json_find_member submenu "i" with
            | none =>
              simp only [hi] at e
              simpa [json_foreach, str] using e
            | some si =>
              simp only [hi] at e
              simpa [str] using e
          cases hl : json_find_member item "l" with
          | none =>
            simp only [hl] at e
            exact key "" (by simp [submenuLabel, hl]) e
          | some nm =>
            simp only [hl] at e
            cases hs : nm.string_? with
            | none => simp [hs] at e
            | some name =>
              simp only [hs] at e
              exact key name (by simp [submenuLabel, hl, hs]) e

/-! ## The recursion bound -/

theorem depth_le_depthList {c : JsonNode} {cs : List JsonNode} (h : c ∈ cs) :
    c.depth ≤ JsonNode.depthList cs := by
  induction cs with
  | nil => simp at h
  | cons d ds ih =>
    simp only [JsonNode.depthList]
    rcases List.mem_cons.1 h with rfl | h
    · exact le_max_left _ _
    · exact le_trans (ih h) (le_max_right _ _)

theorem depth_le_depthMembers {m : String × JsonNode} {ms : List (String × JsonNode)}
    (h : m ∈ ms) : m.2.depth ≤ JsonNode.depthMembers ms := by
  induction ms with
  | nil => simp at h
  | cons d ds ih =>
    obtain ⟨k, v⟩ := d
    simp only [JsonNode.depthMembers]
    rcases List.mem_cons.1 h with rfl | h
    · exact le_max_left _ _
    · exact le_trans (ih h) (le_max_right _ _)

theorem depth_json_find_member {item n : JsonNode} {key : String}
    (h : json_find_member item key = some n) : n.depth < item.depth := by
  cases item with
  | object ms =>
    simp only [json_find_member, Option.map_eq_some'] at h
    obtain ⟨m, hm, rfl⟩ := h
    have := depth_le_depthMembers (List.mem_of_find?_eq_some hm)
    simp only [JsonNode.depth]
    omega
  | _ => simp [json_find_member] at h

theorem depth_json_children {n c : JsonNode} (h : c ∈ json_children n) : c.depth < n.depth := by
  cases n with
  | array cs =>
    have := @depth_le_depthList c cs h
    simp only [JsonNode.depth]
    omega
  | object ms =>
    simp only [json_children, List.mem_map] at h
    obtain ⟨m, hm, rfl⟩ := h
    have := depth_le_depthMembers hm
    simp only [JsonNode.depth]
    omega
  | _ => simp [json_children] at h

theorem depth_submenuItems {item c : JsonNode} (h : c ∈ submenuItems item) :
    c.depth + 2 < item.depth + 1 := by
  unfold submenuItems at h
  cases hS : json_find_member item "S" with
  | none => simp [hS] at h
  | some submenu =>
    simp only [hS] at h
    cases hi : json_find_member submenu "i" with
    | none => simp [hi] at h
    | some si =>
      simp only [hi] at h
      have h1 := depth_json_find_member hS
      have h2 := depth_json_find_member hi
      have h3 := depth_json_children h
      omega

theorem json_foreach_total {σ : Type} (body : σ → JsonNode → Option σ) (items : List JsonNode)
    (h : ∀ c, c ∈ items → ∀ s, ∃ s', body s c = some s') :
    ∀ s, ∃ s', json_foreach body items s = some s' := by
  induction items with
  | nil => exact fun s => ⟨s, rfl⟩
  | cons c cs ih =>
    intro s
    obtain ⟨s1, h1⟩ := h c (by simp) s
    obtain ⟨s2, h2⟩ := ih (fun d hd => h d (List.mem_cons_of_mem _ hd)) s1
    exact ⟨s2, by simp [json_foreach, h1, h2]⟩

theorem allValid_map_string {cs : List JsonNode}
    (h : ∀ c, c ∈ cs → ∃ s, c = JsonNode.string s) :
    ∃ names, allValid (cs.map JsonNode.string_?) = some names := by
  induction cs with
  | nil => exact ⟨[], rfl⟩
  | cons c cs ih =>
    obtain ⟨s, rfl⟩ := h c (by simp)
    obtain ⟨names, hn⟩ := ih (fun d hd => h d (List.mem_cons_of_mem _ hd))
    exact ⟨s :: names, by simp [allValid, JsonNode.string_?, hn]⟩

theorem processMenuRole_total (env : Env) (w : World) (parentMenu : ObjcId) (roleName : String) :
    ∃ w', processMenuRole env w parentMenu (JsonNode.string roleName) = some w' := by
  unfold processMenuRole
  simp only [JsonNode.string_?]
  by_cases h0 : roleName = "appMenu"
  · rw [if_pos h0]; exact ⟨_, rfl⟩
  rw [if_neg h0]
  by_cases h1 : roleName = "editMenu"
  · rw [if_pos h1]; exact ⟨_, rfl⟩
  rw [if_neg h1]
  by_cases h2 : roleName = "hide"
  · rw [if_pos h2]; exact ⟨_, rfl⟩
  rw [if_neg h2]
  by_cases h3 : roleName = "hideothers"
  · rw [if_pos h3]; exact ⟨_, rfl⟩
  rw [if_neg h3]
  by_cases h4 : roleName = "unhide"
  · rw [if_pos h4]; exact ⟨_, rfl⟩
  rw [if_neg h4]
  by_cases h5 : roleName = "front"
  · rw [if_pos h5]; exact ⟨_, rfl⟩
  rw [if_neg h5]
  by_cases h6 : roleName = "undo"
  · rw [if_pos h6]; exact ⟨_, rfl⟩
  rw [if_neg h6]
  by_cases h7 : roleName = "redo"
  · rw [if_pos h7]; exact ⟨_, rfl⟩
  rw [if_neg h7]
  by_cases h8 : roleName = "cut"
  · rw [if_pos h8]; exact ⟨_, rfl⟩
  rw [if_neg h8]
  by_cases h9 : roleName = "copy"
  · rw [if_pos h9]; exact ⟨_, rfl⟩
  rw [if_neg h9]
  by_cases h10 : roleName = "paste"
  · rw [if_pos h10]; exact ⟨_, rfl⟩
  rw [if_neg h10]
  by_cases h11 : roleName = "delete"
  · rw [if_pos h11]; exact ⟨_, rfl⟩
  rw [if_neg h11]
  by_cases k0 : roleName = "selectall"
  · rw [if_pos k0]; exact ⟨_, rfl⟩
  rw [if_neg k0]
  by_cases k1 : roleName = "minimize"
  · rw [if_pos k1]; exact ⟨_, rfl⟩
  rw [if_neg k1]
  by_cases k2 : roleName = "zoom"
  · rw [if_pos k2]; exact ⟨_, rfl⟩
  rw [if_neg k2]
  by_cases k3 : roleName = "quit"
  · rw [if_pos k3]; exact ⟨_, rfl⟩
  rw [if_neg k3]
  by_cases k4 : roleName = "togglefullscreen"
  · rw [if_pos k4]; exact ⟨_, rfl⟩
  rw [if_neg k4]
  exact ⟨_, rfl⟩

theorem processTextMenuItem_total (w : World) (parentMenu : ObjcId) (title menuid : String)
    (disabled : Bool) (key : Option String) (modifiers : Option (List (Option String)))
    (hascallback : Bool)
    (h : ∀ ms, modifiers = some ms → ∃ names, allValid ms = some names) :
    ∃ r, processTextMenuItem w parentMenu title menuid disabled key modifiers hascallback
      = some r := by
  unfold processTextMenuItem
  simp only []
  cases modifiers with
  | none => exact ⟨_, rfl⟩
  | some ms =>
    obtain ⟨names, hn⟩ := h ms rfl
    simp only [hn]
    exact ⟨_, rfl⟩

theorem processUserMenuItem_total (w : World) (parentMenu : ObjcId) (item : JsonNode)
    (h : json_find_member item "t" = none ∨
      (∃ t, json_find_member item "t" = some (JsonNode.string t) ∧ t ≠ "t") ∨
      (json_find_member item "t" = some (JsonNode.string "t") ∧
        ∀ accelerator modifiersList, json_find_member item "a" = some accelerator →
          json_find_member accelerator "Modifiers" = some modifiersList →
          ∀ c, c ∈ json_children modifiersList → ∃ s, c = JsonNode.string s)) :
    ∃ w', processUserMenuItem w parentMenu item = some w' := by
  unfold processUserMenuItem
  simp only []
  rcases h with ht | ⟨t, ht, hne⟩ | ⟨ht, hmod⟩
  · simp only [ht]
    exact ⟨_, rfl⟩
  · simp only [ht, JsonNode.string_?, if_neg hne]
    by_cases h2 : t = "s"
    · rw [if_pos h2]; exact ⟨_, rfl⟩
    rw [if_neg h2]
    by_cases h3 : t = "c"
    · rw [if_pos h3]; exact ⟨_, rfl⟩
    rw [if_neg h3]
    by_cases h4 : t = "r"
    · rw [if_pos h4]; exact ⟨_, rfl⟩
    rw [if_neg h4]
    exact ⟨_, rfl⟩
  · simp only [ht, JsonNode.string_?, if_true]
    obtain ⟨r, hr⟩ := processTextMenuItem_total w parentMenu
      ((getJSONString item "l").getD "(empty)") ((getJSONString item "I").getD "")
      (getJSONBool item "d")
      (match json_find_member item "a" with
        | some accelerator => getJSONString accelerator "Key"
        | none => none)
      (match json_find_member item "a" with
        | some accelerator =>
          match json_find_member accelerator "Modifiers" with
          | some modifiersList =>
            if json_array_length modifiersList > 0 then
              some ((json_children modifiersList).map JsonNode.string_?)
            else none
          | none => none
        | none => none)
      (getJSONBool item "C")
      (by
        intro ms hms
        cases ha : json_find_member item "a" with
        | none => simp [ha] at hms
        | some accelerator =>
          simp only [ha] at hms
          cases hM : json_find_member accelerator "Modifiers" with
          | none => simp [hM] at hms
          | some modifiersList =>
            simp only [hM] at hms
            split at hms
            · simp only [Option.some.injEq] at hms
              subst hms
              exact allValid_map_string (hmod accelerator modifiersList ha hM)
            · simp at hms)
    exact ⟨r.1, by rw [hr]; rfl⟩

/-- An item that can be compiled without an undefined read is compiled, with
any bound above its nesting depth. -/
theorem processMenuItemAux_total (env : Env) (item : JsonNode) (hitem : MenuItemJSON item) :
    ∀ (fuel : Nat) (w : World) (parentMenu : ObjcId), item.depth < fuel →
      ∃ w', processMenuItemAux env fuel w parentMenu item = some w' := by
  induction hitem with
  | hidden item hh =>
    intro fuel w parentMenu hf
    obtain ⟨fuel, rfl⟩ : ∃ k, fuel = k + 1 := ⟨fuel - 1, by omega⟩
    exact ⟨w, by simp [processMenuItemAux, hh]⟩
  | role item roleName hr =>
    intro fuel w parentMenu hf
    obtain ⟨fuel, rfl⟩ : ∃ k, fuel = k + 1 := ⟨fuel - 1, by omega⟩
    unfold processMenuItemAux
    simp only [hr]
    by_cases hh : getJSONBool item "h" = true
    · exact ⟨w, by rw [if_pos hh]⟩
    · rw [if_neg hh]
      exact processMenuRole_total env w parentMenu roleName
  | submenu item name hv hname hsub ih =>
    intro fuel w parentMenu hf
    obtain ⟨fuel, rfl⟩ : ∃ k, fuel = k + 1 := ⟨fuel - 1, by omega⟩
    obtain ⟨hh, hr, hS⟩ := hv
    obtain ⟨submenu, hS⟩ := Option.isSome_iff_exists.1 hS
    unfold processMenuItemAux
    simp only [hh, hr, hS, Bool.false_eq_true, if_false]
    have hname' : (match json_find_member item "l" with
        | some menuNameNode => menuNameNode.string_?
        | none => some "") = some name := hname
    simp only [hname']
    cases hi : json_find_member submenu "i" with
    | none => exact ⟨_, rfl⟩
    | some si =>
      simp only []
      refine json_foreach_total _ _ (fun c hc u => ih c ?_ fuel u _ ?_) _
      · simp [submenuItems, hS, hi, hc]
      · have := @depth_submenuItems item c (by simp [submenuItems, hS, hi, hc])
        omega
  | untyped item hr hS ht =>
    intro fuel w parentMenu hf
    obtain ⟨fuel, rfl⟩ : ∃ k, fuel = k + 1 := ⟨fuel - 1, by omega⟩
    unfold processMenuItemAux
    simp only [hr, hS]
    by_cases hh : getJSONBool item "h" = true
    · exact ⟨w, by rw [if_pos hh]⟩
    · rw [if_neg hh]
      exact processUserMenuItem_total w parentMenu item (Or.inl ht)
  | typed item t hr hS ht hne =>
    intro fuel w parentMenu hf
    obtain ⟨fuel, rfl⟩ : ∃ k, fuel = k + 1 := ⟨fuel - 1, by omega⟩
    unfold processMenuItemAux
    simp only [hr, hS]
    by_cases hh : getJSONBool item "h" = true
    · exact ⟨w, by rw [if_pos hh]⟩
    · rw [if_neg hh]
      exact processUserMenuItem_total w parentMenu item (Or.inr (Or.inl ⟨t, ht, hne⟩))
  | text item hr hS ht hmod =>
    intro fuel w parentMenu hf
    obtain ⟨fuel, rfl⟩ : ∃ k, fuel = k + 1 := ⟨fuel - 1, by omega⟩
    unfold processMenuItemAux
    simp only [hr, hS]
    by_cases hh : getJSONBool item "h" = true
    · exact ⟨w, by rw [if_pos hh]⟩
    · rw [if_neg hh]
      exact processUserMenuItem_total w parentMenu item (Or.inr (Or.inr ⟨ht, hmod⟩))

/-! ## The compiled menu -/

theorem processMenuItem_spec (env : Env) (w : World) (parent : ObjcId) (item : JsonNode)
    (w' : World) (hp : ∀ p, parent = some p → p < w.menus.length)
    (e : processMenuItem env w parent item = some w') : CompileSpec env w w' parent [item] :=
  processMenuItemAux_spec env _ w parent item w' hp e

theorem processMenuItem_total (env : Env) (w : World) (parent : ObjcId) (item : JsonNode)
    (hitem : MenuItemJSON item) : ∃ w', processMenuItem env w parent item = some w' :=
  processMenuItemAux_total env item hitem _ w parent (Nat.lt_succ_self _)

theorem processMenuData_loop (env : Env) (parent : ObjcId) :
    ∀ (items : List JsonNode) (w w' : World), w.menu.menu = parent →
      (∀ p, parent = some p → p < w.menus.length) →
      json_foreach (fun w item => processMenuItem env w w.menu.menu item) items w = some w' →
      CompileSpec env w w' parent items := by
  intro items
  induction items with
  | nil =>
    intro w w' _ _ h
    simp only [json_foreach, Option.some.injEq] at h
    subst h
    exact CompileSpec.nil env w parent
  | cons c cs ih =>
    intro w w' hw hp h
    simp only [json_foreach] at h
    cases hb : processMenuItem env w w.menu.menu c with
    | none => simp [hb] at h
    | some w1 =>
      simp only [hb] at h
      rw [hw] at hb
      have h1 := processMenuItem_spec env w parent c w1 hp hb
      obtain ⟨a1, g1, _⟩ := h1.grows
      have hp1 : ∀ p, parent = some p → p < w1.menus.length := fun p hpp => by
        have := hp p hpp
        have := g1.menus_le
        omega
      exact h1.cons (ih w1 w' (h1.menu_menu.trans hw) hp1 h) hp

theorem processMenuData_spec (env : Env) (w w' : World) (menuData : JsonNode)
    (hp : ∀ p, w.menu.menu = some p → p < w.menus.length)
    (e : processMenuData env w menuData = some w') :
    CompileSpec env w w' w.menu.menu (json_children menuData) :=
  processMenuData_loop env w.menu.menu _ w w' rfl hp e

/-- Two items that are not visible submenus and contribute one native item each
are compiled into exactly two native items, the first with the face of the
first item and the second with the face of the second: the order of the JSON
is the order of the menu. -/
theorem CompiledFrom.pair {env : Env} {w : World} {b : Nat} {ids : List Nat} {x y : JsonNode}
    {fx fy : Face} (hx : ¬ isVisibleSubmenu x) (hy : ¬ isVisibleSubmenu y)
    (hfx : contribution env x = some fx) (hfy : contribution env y = some fy)
    (h : CompiledFrom env w b ids [x, y]) :
    ∃ (i j : Nat) (itx ity : NSMenuItem), ids = [i, j] ∧
      w.items[i]? = some itx ∧ face itx = fx ∧ w.items[j]? = some ity ∧ face ity = fy := by
  cases h with
  | submenu i ids item items it m mn hv => exact absurd hv hx
  | other l ids item items _ hl hrest =>
    cases hrest with
    | submenu i ids item items it m mn hv => exact absurd hv hy
    | other l' ids' item items _ hl' hnil =>
      cases hnil
      simp only [Contributed, hfx] at hl
      simp only [Contributed, hfy] at hl'
      obtain ⟨i, itx, rfl, hix, hfacex⟩ := hl
      obtain ⟨j, ity, rfl, hjy, hfacey⟩ := hl'
      exact ⟨i, j, itx, ity, rfl, hix, hfacex, hjy, hfacey⟩

/-- C5: `processMenuData` compiles every menu JSON (a JSON whose items the
code can read), in JSON order: the native items added to the menu are the
blocks of the items of the JSON, one block per item, in the order of the JSON
(`CompiledFrom`).  The block of a visible submenu item is exactly one native
item titled with its label (`""` when absent) whose submenu holds,
recursively and in order, the compilation of the items under `"S"."i"` (none
when `"i"` is absent).  The block of any other item is at most one native
item, and it is the item that this JSON item asks for: it has the title, the
action, the separator flag and the callback ID and type that `contribution`
gives for the JSON item (none for a hidden item, an unknown role or an item
without a known type), so that native items stand in the menu in the order of
the JSON items they are made for. -/
theorem processMenuData_compiles (env : Env) (w : World) (menuData : JsonNode) (p : Nat)
    (mn : NSMenu) (hp : w.menu.menu = some p) (hmn : w.menus[p]? = some mn)
    (hjson : ∀ item, item ∈ json_children menuData → MenuItemJSON item) :
    ∃ (w' : World) (added : List Nat),
      processMenuData env w menuData = some w' ∧
      w'.menus[p]? = some { mn with itemArray := mn.itemArray ++ added } ∧
      CompiledFrom env w' 0 added (json_children menuData) := by
  obtain ⟨w', e⟩ := json_foreach_total
    (fun w item => processMenuItem env w w.menu.menu item) (json_children menuData)
    (fun c hc u => processMenuItem_total env u u.menu.menu c (hjson c hc)) w
  have hlt : p < w.menus.length := (List.getElem?_eq_some.1 hmn).1
  have spec := processMenuData_spec env w w' menuData
    (fun q hq => by rw [hp] at hq; cases hq; exact hlt) e
  obtain ⟨added, g, c⟩ := spec.grows
  refine ⟨w', added, e, ?_, c.weaken (Nat.zero_le _)⟩
  rw [g.parent_eq p hp hlt, hmn]
  rfl

/-! ## Radio groups leave the compiled menu alone -/

theorem storeMembers_keeps (newMemberList : List ObjcId) (members : List String) (w : World) :
    let w' := members.foldl
      (fun w member =>
        { w with menu :=
          { w.menu with
            radioGroupMap := hashmap_put w.menu.radioGroupMap member newMemberList } })
      w
    w'.items = w.items ∧ w'.menus = w.menus ∧ w'.menu.menuItemMap = w.menu.menuItemMap ∧
      w'.menu.menu = w.menu.menu := by
  induction members generalizing w with
  | nil => exact ⟨rfl, rfl, rfl, rfl⟩
  | cons m ms ih =>
    simp only [List.foldl_cons]
    obtain ⟨h1, h2, h3, h4⟩ := ih
      { w with menu :=
        { w.menu with radioGroupMap := hashmap_put w.menu.radioGroupMap m newMemberList } }
    exact ⟨h1, h2, h3, h4⟩

theorem processRadioGroupJSON_keeps {w w' : World} {radioGroup : JsonNode}
    (e : processRadioGroupJSON w radioGroup = some w') :
    w'.items = w.items ∧ w'.menus = w.menus ∧ w'.menu.menuItemMap = w.menu.menuItemMap ∧
      w'.menu.menu = w.menu.menu := by
  unfold processRadioGroupJSON at e
  simp only [] at e
  split at e
  · exact absurd e (by simp)
  · split at e
    · exact absurd e (by simp)
    · split at e
      · exact absurd e (by simp)
      · split at e
        · exact absurd e (by simp)
        · split at e
          · simp only [Option.some.injEq] at e
            subst e
            exact ⟨rfl, rfl, rfl, rfl⟩
          · split at e
            · exact absurd e (by simp)
            · simp only [Option.some.injEq] at e
              subst e
              exact storeMembers_keeps _ _ w

theorem radioGroups_keep (groups : List JsonNode) :
    ∀ (w w' : World),
      json_foreach (fun w radioGroup => processRadioGroupJSON w radioGroup) groups w = some w' →
      w'.items = w.items ∧ w'.menus = w.menus ∧ w'.menu.menuItemMap = w.menu.menuItemMap ∧
        w'.menu.menu = w.menu.menu := by
  induction groups with
  | nil =>
    intro w w' h
    simp only [json_foreach, Option.some.injEq] at h
    subst h
    exact ⟨rfl, rfl, rfl, rfl⟩
  | cons g gs ih =>
    intro w w' h
    simp only [json_foreach] at h
    cases hg : processRadioGroupJSON w g with
    | none => simp [hg] at h
    | some w1 =>
      simp only [hg] at h
      obtain ⟨a1, a2, a3, a4⟩ := processRadioGroupJSON_keeps hg
      obtain ⟨b1, b2, b3, b4⟩ := ih w1 w' h
      exact ⟨b1.trans a1, b2.trans a2, b3.trans a3, b4.trans a4⟩

/-- The state `ProcessMenu` reaches on a non-NULL menu JSON: the state after
`processMenuData` on the state with the new native menu, with the items, the
menus and `menuItemMap` that `processMenuData` left. -/
theorem ProcessMenu_some {env : Env} {w w' : World} {menuData : JsonNode}
    {radioGroups : Option JsonNode} {r : ObjcId}
    (e : ProcessMenu env w (some menuData) radioGroups = some (w', r)) :
    ∃ w2 : World,
      processMenuData env
        { (createMenu w (str "")).1 with
          menu := { (createMenu w (str "")).1.menu with menu := some w.menus.length } }
        menuData = some w2 ∧
      w'.items = w2.items ∧ w'.menus = w2.menus ∧
      w'.menu.menuItemMap = w2.menu.menuItemMap ∧ w'.menu.menu = w2.menu.menu ∧
      r = w'.menu.menu := by
  unfold ProcessMenu at e
  simp only [] at e
  split at e
  · exact absurd e (by simp)
  · rename_i w2 h2
    refine ⟨w2, h2, ?_⟩
    cases radioGroups with
    | none =>
      simp only [Option.some.injEq, Prod.mk.injEq] at e
      obtain ⟨rfl, rfl⟩ := e
      exact ⟨rfl, rfl, rfl, rfl, rfl⟩
    | some groups =>
      simp only at e
      split at e
      · exact absurd e (by simp)
      · rename_i w3 h3
        simp only [Option.some.injEq, Prod.mk.injEq] at e
        obtain ⟨rfl, rfl⟩ := e
        obtain ⟨a1, a2, a3, a4⟩ := radioGroups_keep _ _ _ h3
        exact ⟨a1, a2, a3, a4, rfl⟩

/-- C7: after `ProcessMenu` on a non-NULL menu JSON, for a `Menu` whose
`menuItemMap` was empty, an ID is a key of `menuItemMap` exactly when a
reached (not hidden, not under a hidden or role item), registered (checkbox
or radio, no role, no submenu) item of the JSON has that ID, `""` standing for
a missing `"I"`; and the key maps to a native item made for such an item with
that ID.  Being registered does not involve the callback flag `"C"`. -/
theorem ProcessMenu_menuItemMap (env : Env) (w w' : World) (menuData : JsonNode)
    (radioGroups : Option JsonNode) (r : ObjcId) (hempty : w.menu.menuItemMap = [])
    (e : ProcessMenu env w (some menuData) radioGroups = some (w', r)) :
    ∀ k : String,
      ((hashmap_get w'.menu.menuItemMap k).isSome = true ↔
        ∃ item, Reached (json_children menuData) item ∧ isRegistered item ∧ itemID item = k) ∧
      (∀ i : Nat, hashmap_get w'.menu.menuItemMap k = some i →
        ∃ item it, Reached (json_children menuData) item ∧ isRegistered item ∧
          itemID item = k ∧ w'.items[i]? = some it ∧ IsNativeOf item it) := by
  obtain ⟨w2, h2, hitems, _, hmap, _, _⟩ := ProcessMenu_some e
  have spec := processMenuData_spec env _ w2 menuData
    (by intro p hp; simp [createMenu] at hp; subst hp; simp [createMenu]) h2
  have hold : ∀ (k : String) (i : Nat),
      ¬ hashmap_get ({ (createMenu w (str "")).1 with
        menu := { (createMenu w (str "")).1.menu with menu := some w.menus.length } }
        : World).menu.menuItemMap k = some i := by
    intro k i
    simp [createMenu, hempty, hashmap_get]
  have hnew : ∀ i : Nat, ∀ k : String, hashmap_get w'.menu.menuItemMap k = some i →
      ∃ item it, Reached (json_children menuData) item ∧ isRegistered item ∧
        itemID item = k ∧ w'.items[i]? = some it ∧ IsNativeOf item it := by
    intro i k hk
    rw [hmap] at hk
    rcases spec.map_new k i hk with h0 | ⟨item, it, hr, hreg, hid, hit, hnat⟩
    · exact absurd h0 (hold k i)
    · exact ⟨item, it, hr, hreg, hid, by rw [hitems]; exact hit, hnat⟩
  intro k
  refine ⟨⟨fun hk => ?_, fun ⟨item, hr, hreg, hid⟩ => ?_⟩, fun i hk => hnew i k hk⟩
  · obtain ⟨i, hi⟩ := Option.isSome_iff_exists.1 hk
    obtain ⟨item, _, hr, hreg, hid, _, _⟩ := hnew i k hi
    exact ⟨item, hr, hreg, hid⟩
  · rw [hmap, ← hid]
    exact spec.map_reg item hr hreg

/-- Witness for C5: the sample menu, compiled into the empty native menu. -/
theorem processMenuData_compiles_witness :
    ∃ (w' : World) (added : List Nat),
      processMenuData sampleEnv sampleStart sampleMenuData = some w' ∧
      w'.menus[0]? = some { ({ title := "", autoenablesItems := false } : NSMenu) with
        itemArray := ([] : List Nat) ++ added } ∧
      CompiledFrom sampleEnv w' 0 added (json_children sampleMenuData) :=
  processMenuData_compiles sampleEnv sampleStart sampleMenuData 0
    { title := "", autoenablesItems := false } rfl rfl
    (by
      intro item h
      simp only [sampleMenuData, json_children, List.mem_cons, List.mem_singleton,
        List.not_mem_nil, or_false] at h
      rcases h with rfl | rfl | rfl
      · exact MenuItemJSON.text _ rfl rfl rfl (fun a m ha => by simp [json_find_member] at ha)
      · exact MenuItemJSON.typed _ "c" rfl rfl rfl (by decide)
      · refine MenuItemJSON.submenu _ "Mode" ⟨rfl, rfl, rfl⟩ rfl (fun c hc => ?_)
        have hsub : submenuItems (JsonNode.object [("l", .string "Mode"),
            ("S", .object [("i", .array [sampleRadio "a" false false,
              sampleRadio "b" true false, sampleRadio "c" false true])])])
            = [sampleRadio "a" false false, sampleRadio "b" true false,
              sampleRadio "c" false true] := rfl
        rw [hsub] at hc
        simp only [List.mem_cons, List.mem_singleton, List.not_mem_nil, or_false] at hc
        rcases hc with rfl | rfl | rfl
        · exact MenuItemJSON.typed _ "r" rfl rfl rfl (by decide)
        · exact MenuItemJSON.hidden _ rfl
        · exact MenuItemJSON.typed _ "r" rfl rfl rfl (by decide))

/-- Witness for C7: the key `"wrap"` of the sample state. -/
theorem ProcessMenu_menuItemMap_witness :
    ((hashmap_get sampleWorld.menu.menuItemMap "wrap").isSome = true ↔
      ∃ item, Reached (json_children sampleMenuData) item ∧ isRegistered item ∧
        itemID item = "wrap") ∧
    (∀ i : Nat, hashmap_get sampleWorld.menu.menuItemMap "wrap" = some i →
      ∃ item it, Reached (json_children sampleMenuData) item ∧ isRegistered item ∧
        itemID item = "wrap" ∧ sampleWorld.items[i]? = some it ∧ IsNativeOf item it) :=
  ProcessMenu_menuItemMap sampleEnv {} sampleWorld sampleMenuData (some sampleRadioGroups)
    (some 0) rfl (by rfl) "wrap"

/-! ## Radio groups with a member that has no native item -/

/-- C2 (failing input): `ProcessMenu` on the sample menu and its radio group
(`Length` 3, three members) gives the sample state, in which the radio group
of `"a"` is the list item 3, NULL, item 4, NULL, because the member `"b"` is hidden and has no
native item; item 3 (`"a"`) is off and item 4 (`"c"`) is on.  A click on item
3 is handled and leaves both item 3 and item 4 on: the loop that unchecks the
members stops at the first NULL. -/
theorem menuItemCallback_radio_hidden_member :
    ProcessMenu sampleEnv {} (some sampleMenuData) (some sampleRadioGroups)
      = some (sampleWorld, some 0) ∧
    hashmap_get sampleWorld.menu.radioGroupMap "a" = some [some 3, none, some 4, none] ∧
    itemState sampleWorld (some 3) = NSControlStateValueOff ∧
    itemState sampleWorld (some 4) = NSControlStateValueOn ∧
    (menuItemCallback sampleEnv sampleWorld (some 3)).map
      (fun w => (itemState w (some 3), itemState w (some 4)))
      = some (NSControlStateValueOn, NSControlStateValueOn) := by
  refine ⟨by rfl, by rfl, by rfl, by rfl, by rfl⟩

theorem itemState_setState (w : World) (i j : Nat) (v : Int) :
    itemState (setState w (some i) v) (some j) =
      if i = j ∧ j < w.items.length then v else itemState w (some j) := by
  simp only [itemState, setState, msgItem_items_getElem?]
  by_cases hij : i = j
  · subst hij
    cases h : w.items[i]? with
    | none =>
      have : ¬ i < w.items.length := fun hlt => by
        rw [List.getElem?_eq_getElem hlt] at h; simp at h
      simp [this]
    | some it =>
      have : i < w.items.length := (List.getElem?_eq_some.1 h).1
      simp [this]
  · simp [hij]

theorem uncheckMembers_list (members : List Nat) (rest : List ObjcId) (w : World) :
    uncheckMembers w (members.map some ++ none :: rest) =
      some (members.foldl (fun w m => setState w (some m) NSControlStateValueOff) w) := by
  induction members generalizing w with
  | nil => rfl
  | cons m ms ih =>
    show uncheckMembers (setState w (some m) NSControlStateValueOff)
      (ms.map some ++ none :: rest) = _
    rw [ih]
    rfl

theorem itemState_setState_off (w : World) (m : Nat) :
    itemState (setState w (some m) NSControlStateValueOff) (some m) = NSControlStateValueOff := by
  rw [itemState_setState]
  by_cases h : m < w.items.length
  · rw [if_pos ⟨rfl, h⟩]
  · rw [if_neg (fun h' => h h'.2)]
    simp only [itemState]
    rw [List.getElem?_eq_none (by omega)]
    rfl

theorem itemState_uncheck_not_mem (members : List Nat) (w : World) (j : Nat)
    (hj : j ∉ members) :
    itemState (members.foldl (fun w m => setState w (some m) NSControlStateValueOff) w) (some j)
      = itemState w (some j) := by
  induction members generalizing w with
  | nil => rfl
  | cons m ms ih =>
    simp only [List.mem_cons, not_or] at hj
    simp only [List.foldl_cons]
    rw [ih _ hj.2, itemState_setState, if_neg (fun h => hj.1 h.1.symm)]

theorem itemState_uncheck_mem (members : List Nat) (w : World) (j : Nat) (hj : j ∈ members) :
    itemState (members.foldl (fun w m => setState w (some m) NSControlStateValueOff) w) (some j)
      = NSControlStateValueOff := by
  induction members generalizing w with
  | nil => simp at hj
  | cons m ms ih =>
    simp only [List.foldl_cons]
    by_cases hms : j ∈ ms
    · exact ih _ hms
    · have hjm : j = m := by
        rcases List.mem_cons.1 hj with h | h
        · exact h
        · exact absurd h hms
      subst hjm
      rw [itemState_uncheck_not_mem ms _ j hms, itemState_setState_off]

theorem uncheck_length (members : List Nat) (w : World) :
    (members.foldl (fun w m => setState w (some m) NSControlStateValueOff) w).items.length
      = w.items.length := by
  induction members generalizing w with
  | nil => rfl
  | cons m ms ih =>
    simp only [List.foldl_cons]
    rw [ih]
    simp [setState]

theorem uncheck_menu (members : List Nat) (w : World) :
    (members.foldl (fun w m => setState w (some m) NSControlStateValueOff) w).menu = w.menu := by
  induction members generalizing w with
  | nil => rfl
  | cons m ms ih =>
    simp only [List.foldl_cons]
    rw [ih]
    simp

/-- The behaviour C2 describes, for a radio group whose list has no NULL
before its end: a click on a radio item that is off is handled, turns the item
on and leaves every other member of the list off. -/
theorem menuItemCallback_radio_group (env : Env) (w : World) (i : Nat) (it : NSMenuItem)
    (cb : MenuItemCallbackData) (menuID : String) (members : List Nat) (rest : List ObjcId)
    (hit : w.items[i]? = some it) (hcb : it.representedObject = some cb)
    (htype : cb.menuItemType = MenuItemType.Radio) (hself : cb.menuItem = some i)
    (hoff : it.state = NSControlStateValueOff) (hid : cb.menuID = some menuID)
    (hgroup : hashmap_get w.menu.radioGroupMap menuID = some (members.map some ++ none :: rest))
    (hctx : w.menu.menuType = MenuType.ContextMenuType → w.menu.parentData ≠ none) :
    ∃ w', menuItemCallback env w (some i) = some w' ∧
      itemState w' (some i) = NSControlStateValueOn ∧
      ∀ m, m ∈ members → m ≠ i → itemState w' (some m) = NSControlStateValueOff := by
  have hlt : i < w.items.length := (List.getElem?_eq_some.1 hit).1
  have hsel : decide (itemState w cb.menuItem ≠ 0) = false := by
    simp [itemState, hself, hit, hoff, NSControlStateValueOff]
  have hupd : updateItemState w cb = some (some (setState
      (members.foldl (fun w m => setState w (some m) NSControlStateValueOff) w) (some i)
      NSControlStateValueOn)) := by
    rw [hself] at hsel
    simp only [updateItemState, htype, hself, hsel, Bool.false_eq_true, if_false, hid, hgroup,
      uncheckMembers_list]
  obtain ⟨d, hd⟩ : ∃ d : Option String,
      (if w.menu.menuType = MenuType.ContextMenuType then
        (match w.menu.parentData with
          | none => none
          | some contextMenu => some contextMenu.contextMenuData)
       else some none) = some d := by
    by_cases hm : w.menu.menuType = MenuType.ContextMenuType
    · obtain ⟨cm, hcm⟩ := Option.ne_none_iff_exists'.1 (hctx hm)
      exact ⟨cm.contextMenuData, by simp [hm, hcm]⟩
    · exact ⟨none, by simp [hm]⟩
  obtain ⟨msg, hmsg⟩ : ∃ m, createMenuClickedMessage env (some menuID) d = some m :=
    Option.ne_none_iff_exists'.1 (createMenuClickedMessage_ne_none env _ _ (by simp))
  refine ⟨messageFromWindowCallback (setState
      (members.foldl (fun w m => setState w (some m) NSControlStateValueOff) w) (some i)
      NSControlStateValueOn) msg, by
    simp only [menuItemCallback, hit, hcb, hupd, setState_menu, uncheck_menu, hd, hid, hmsg],
    ?_, ?_⟩
  · show itemState (setState _ (some i) NSControlStateValueOn) (some i) = _
    rw [itemState_setState, if_pos ⟨rfl, by rw [uncheck_length]; exact hlt⟩]
  · intro m hm hmi
    show itemState (setState _ (some i) NSControlStateValueOn) (some m) = _
    rw [itemState_setState, if_neg (fun h => hmi h.1.symm)]
    exact itemState_uncheck_mem members w m hm

/-! ## A click on a radio item that is on -/

/-- C19: a click on a radio item that is already on (the item the callback
data points to has the state on) is handled by the early exit: the callback
returns the state it started from, so no item changes its state and no
message is sent. -/
theorem menuItemCallback_radio_on (env : Env) (w : World) (i : Nat) (it : NSMenuItem)
    (cb : MenuItemCallbackData)
    (hit : w.items[i]? = some it) (hcb : it.representedObject = some cb)
    (htype : cb.menuItemType = MenuItemType.Radio)
    (hon : itemState w cb.menuItem = NSControlStateValueOn) :
    ∃ w' : World, menuItemCallback env w (some i) = some w' ∧
      w'.items = w.items ∧ w'.sent = w.sent ∧ w' = w := by
  refine ⟨w, ?_, rfl, rfl, rfl⟩
  simp [menuItemCallback, hit, hcb, updateItemState, htype, hon, NSControlStateValueOn]

/-- Witness for C19: a click on the radio item `"c"` of the sample state,
which is on. -/
theorem menuItemCallback_radio_on_witness :
    ∃ w' : World, menuItemCallback sampleEnv sampleWorld (some 4) = some w' ∧
      w'.items = sampleWorld.items ∧ w'.sent = sampleWorld.sent ∧ w' = sampleWorld :=
  menuItemCallback_radio_on sampleEnv sampleWorld 4
    { title := "c", action := some "menuItemCallback:", state := 1,
      representedObject :=
        some { menuItem := some 4, menuID := some "c", menuItemType := MenuItemType.Radio } }
    { menuItem := some 4, menuID := some "c", menuItemType := MenuItemType.Radio }
    (by rfl) rfl rfl (by rfl)

/-! ## Radio groups whose members all have a native item -/

theorem fillMemberList_replicate (menuItemMap : hashmap_s Nat) :
    ∀ (members : List String) (filled : List (Option ObjcId)) (k : Nat),
      members.length ≤ k →
      fillMemberList menuItemMap members filled.length (filled ++ List.replicate k none) =
        some (filled ++ members.map (fun member => some (hashmap_get menuItemMap member)) ++
          List.replicate (k - members.length) none) := by
  intro members
  induction members with
  | nil => intro filled k _; simp [fillMemberList]
  | cons m ms ih =>
    intro filled k hk
    simp only [List.length_cons] at hk
    obtain ⟨k', rfl⟩ : ∃ k', k = k' + 1 := ⟨k - 1, by omega⟩
    have hlt : filled.length < (filled ++ List.replicate (k' + 1) none).length := by
      simp
    have hset : (filled ++ List.replicate (k' + 1) (none : Option ObjcId)).set filled.length
        (some (hashmap_get menuItemMap m)) =
        (filled ++ [some (hashmap_get menuItemMap m)]) ++ List.replicate k' none := by
      simp [List.replicate_succ]
    have hlen : (filled ++ [some (hashmap_get menuItemMap m)]).length = filled.length + 1 := by
      simp
    simp only [fillMemberList, if_pos hlt, hset]
    rw [← hlen, ih _ k' (by omega)]
    simp

theorem allValid_map_some {α : Type} (l : List α) : allValid (l.map some) = some l := by
  induction l with
  | nil => rfl
  | cons a l ih => simp [allValid, ih]

theorem hashmap_get_store (newMemberList : List ObjcId) (members : List String) :
    ∀ (w : World) (k : String),
      hashmap_get (members.foldl
        (fun w member =>
          { w with menu :=
            { w.menu with
              radioGroupMap := hashmap_put w.menu.radioGroupMap member newMemberList } })
        w).menu.radioGroupMap k =
      if k ∈ members then some newMemberList else hashmap_get w.menu.radioGroupMap k := by
  induction members with
  | nil => intro w k; simp
  | cons m ms ih =>
    intro w k
    simp only [List.foldl_cons, ih, List.mem_cons, hashmap_get_put]
    by_cases h1 : k ∈ ms
    · simp [h1]
    · by_cases h2 : m = k
      · simp [h2]
      · have h3 : ¬ k = m := fun h => h2 h.symm
        simp [h1, h2, h3]

/-- What `processRadioGroupJSON` computes for a radio group whose `Length` is
the number of its members. -/
theorem processRadioGroupJSON_eq (w : World) (radioGroup : JsonNode) (ids : List String)
    (hgroup : IsRadioGroupOf radioGroup ids) :
    processRadioGroupJSON w radioGroup =
      some (ids.foldl
        (fun u member =>
          { u with menu :=
            { u.menu with
              radioGroupMap := hashmap_put u.menu.radioGroupMap member
                (ids.map (fun member => hashmap_get w.menu.menuItemMap member) ++ [none]) } })
        w) := by
  obtain ⟨hlen, hbound, hmem⟩ := hgroup
  have hcond : ¬ ((ids.length : Int) < 0 ∨ (ids.length : Int) = 2147483647) := by omega
  have hfill := fillMemberList_replicate w.menu.menuItemMap ids [] (8 * (ids.length + 1))
    (by omega)
  simp only [List.length_nil, List.nil_append] at hfill
  obtain ⟨k, hk⟩ : ∃ k, 8 * (ids.length + 1) - ids.length = k + 1 :=
    ⟨8 * (ids.length + 1) - ids.length - 1, by omega⟩
  rw [hk] at hfill
  have hset : (List.map (fun member => some (hashmap_get w.menu.menuItemMap member)) ids ++
      List.replicate (k + 1) (none : Option ObjcId)).set ids.length (some none) =
      (List.map (fun member => some (hashmap_get w.menu.menuItemMap member)) ids ++
        [some none]) ++ List.replicate k none := by
    simp [List.replicate_succ]
  have htake : ((List.map (fun member => some (hashmap_get w.menu.menuItemMap member)) ids ++
      [some none]) ++ List.replicate k (none : Option ObjcId)).take (ids.length + 1) =
      (ids.map (fun member => hashmap_get w.menu.menuItemMap member) ++ [none]).map some := by
    rw [List.take_append_of_le_length (by simp)]
    rw [List.take_of_length_le (by simp)]
    simp
  unfold processRadioGroupJSON
  simp only [hlen, if_neg hcond, Int.toNat_ofNat, hmem, hfill, hset, htake, allValid_map_some]
  by_cases hnil : ids = []
  · subst hnil
    simp
  · simp only [if_neg hnil]

theorem keys_items (menuItemMap : hashmap_s Nat) (ids : List String)
    (hkeys : ∀ id, id ∈ ids → (hashmap_get menuItemMap id).isSome = true) :
    ∃ items : List Nat,
      List.Forall₂ (fun id item => hashmap_get menuItemMap id = some item) ids items ∧
      ids.map (fun member => hashmap_get menuItemMap member) = items.map some := by
  induction ids with
  | nil => exact ⟨[], List.Forall₂.nil, rfl⟩
  | cons id ids ih =>
    obtain ⟨items, h1, h2⟩ := ih (fun k hk => hkeys k (List.mem_cons_of_mem _ hk))
    obtain ⟨item, hitem⟩ := Option.isSome_iff_exists.1 (hkeys id (List.mem_cons_self _ _))
    exact ⟨item :: items, List.Forall₂.cons hitem h1, by simp [hitem, h2]⟩

/-- C20: for a radio group whose `Length` is the number of its members `ids`
and whose member IDs are all keys of `menuItemMap`, `processRadioGroupJSON`
returns, and afterwards every member ID is a key of `radioGroupMap` whose
value is the list of the native items of the members, in the order of
`Members`, followed by one `NULL`; the value of every other key is what it
was, so no ID outside the group is added. -/
theorem processRadioGroupJSON_members (w : World) (radioGroup : JsonNode) (ids : List String)
    (hgroup : IsRadioGroupOf radioGroup ids)
    (hkeys : ∀ id, id ∈ ids → (hashmap_get w.menu.menuItemMap id).isSome = true) :
    ∃ (w' : World) (items : List Nat),
      processRadioGroupJSON w radioGroup = some w' ∧
      List.Forall₂ (fun id item => hashmap_get w.menu.menuItemMap id = some item) ids items ∧
      (∀ id, id ∈ ids →
        hashmap_get w'.menu.radioGroupMap id = some (items.map some ++ [none])) ∧
      (∀ k, k ∉ ids →
        hashmap_get w'.menu.radioGroupMap k = hashmap_get w.menu.radioGroupMap k) := by
  obtain ⟨items, hitems, hmap⟩ := keys_items w.menu.menuItemMap ids hkeys
  refine ⟨_, items, processRadioGroupJSON_eq w radioGroup ids hgroup, hitems, ?_, ?_⟩
  · intro id hid
    rw [hashmap_get_store, if_pos hid, hmap]
  · intro k hk
    rw [hashmap_get_store, if_neg hk]

/-- Witness for C20: the group of the radio items `"a"` and `"c"` of the
sample state. -/
theorem processRadioGroupJSON_members_witness :
    ∃ (w' : World) (items : List Nat),
      processRadioGroupJSON sampleWorld sampleGroup = some w' ∧
      List.Forall₂ (fun id item => hashmap_get sampleWorld.menu.menuItemMap id = some item)
        ["a", "c"] items ∧
      (∀ id, id ∈ ["a", "c"] →
        hashmap_get w'.menu.radioGroupMap id = some (items.map some ++ [none])) ∧
      (∀ k, k ∉ ["a", "c"] →
        hashmap_get w'.menu.radioGroupMap k = hashmap_get sampleWorld.menu.radioGroupMap k) :=
  processRadioGroupJSON_members sampleWorld sampleGroup ["a", "c"] ⟨rfl, by decide, rfl⟩
    (by
      intro id hid
      simp only [List.mem_cons, List.mem_singleton, List.not_mem_nil, or_false] at hid
      rcases hid with rfl | rfl
      · rfl
      · rfl)

/-! ## The result of `ProcessMenu` -/

theorem sampleMenuData_json :
    ∀ item, item ∈ json_children sampleMenuData → MenuItemJSON item := by
  intro item h
  simp only [sampleMenuData, json_children, List.mem_cons, List.mem_singleton,
    List.not_mem_nil, or_false] at h
  rcases h with rfl | rfl | rfl
  · exact MenuItemJSON.text _ rfl rfl rfl (fun a m ha => by simp [json_find_member] at ha)
  · exact MenuItemJSON.typed _ "c" rfl rfl rfl (by decide)
  · refine MenuItemJSON.submenu _ "Mode" ⟨rfl, rfl, rfl⟩ rfl (fun c hc => ?_)
    have hsub : submenuItems (JsonNode.object [("l", .string "Mode"),
        ("S", .object [("i", .array [sampleRadio "a" false false,
          sampleRadio "b" true false, sampleRadio "c" false true])])])
        = [sampleRadio "a" false false, sampleRadio "b" true false,
          sampleRadio "c" false true] := rfl
    rw [hsub] at hc
    simp only [List.mem_cons, List.mem_singleton, List.not_mem_nil, or_false] at hc
    rcases hc with rfl | rfl | rfl
    · exact MenuItemJSON.typed _ "r" rfl rfl rfl (by decide)
    · exact MenuItemJSON.hidden _ rfl
    · exact MenuItemJSON.typed _ "r" rfl rfl rfl (by decide)

theorem processMenuData_ne_none (env : Env) (menuData : JsonNode)
    (hjson : ∀ item, item ∈ json_children menuData → MenuItemJSON item) (u : World) :
    processMenuData env u menuData ≠ none := by
  obtain ⟨u', hu⟩ := json_foreach_total
    (fun w item => processMenuItem env w w.menu.menu item) (json_children menuData)
    (fun c hc v => processMenuItem_total env v v.menu.menu c (hjson c hc)) u
  intro h
  rw [processMenuData, hu] at h
  cases h

theorem radioGroups_ne_none (groups : List JsonNode)
    (hgroups : ∀ g, g ∈ groups → ∃ ids, IsRadioGroupOf g ids) (u : World) :
    json_foreach (fun w radioGroup => processRadioGroupJSON w radioGroup) groups u ≠ none := by
  obtain ⟨u', hu⟩ := json_foreach_total
    (fun w radioGroup => processRadioGroupJSON w radioGroup) groups
    (fun g hg v => by
      obtain ⟨ids, hids⟩ := hgroups g hg
      exact ⟨_, processRadioGroupJSON_eq v g ids hids⟩) u
  rw [hu]
  simp

/-- C11: `ProcessMenu` with `menuData` `NULL` returns `NULL` and the state it
was given, whatever `radioGroups` is: no native menu is made and `menu->menu`,
`menuItemMap` and `radioGroupMap` are as they were; in `NewMenu` that leaves
`menu->menu` `NULL` and both maps empty.  With a `menuData` that is a menu JSON
(and radio groups the code reads in full) it returns the native menu it has
just created, an object that was not in the heap before, and that object is
the one stored in `menu->menu`. -/
theorem ProcessMenu_result (env : Env) (w : World) (radioGroups : Option JsonNode)
    (menuType : MenuType) (menuData : JsonNode)
    (hjson : ∀ item, item ∈ json_children menuData → MenuItemJSON item)
    (hgroups : ∀ groups, radioGroups = some groups →
      ∀ g, g ∈ json_children groups → ∃ ids, IsRadioGroupOf g ids) :
    ProcessMenu env w none radioGroups = some (w, none) ∧
    (∃ w0 : World, NewMenu env w menuType none radioGroups = some w0 ∧
      w0.menu.menu = none ∧ w0.menu.menuItemMap = [] ∧ w0.menu.radioGroupMap = [] ∧
      w0.items = w.items ∧ w0.menus = w.menus) ∧
    ∃ (w' : World) (added : List Nat),
      ProcessMenu env w (some menuData) radioGroups = some (w', some w.menus.length) ∧
      w'.menu.menu = some w.menus.length ∧
      w'.menus[w.menus.length]? =
        some { title := "", autoenablesItems := false, itemArray := added } := by
  refine ⟨rfl, ⟨_, rfl, rfl, rfl, rfl, rfl, rfl⟩, ?_⟩
  cases hres : ProcessMenu env w (some menuData) radioGroups with
  | none =>
    exfalso
    unfold ProcessMenu at hres
    simp only [] at hres
    split at hres
    · rename_i h
      exact processMenuData_ne_none env menuData hjson _ h
    · cases radioGroups with
      | none => simp at hres
      | some groups =>
        simp only at hres
        split at hres
        · rename_i h
          exact radioGroups_ne_none _ (hgroups groups rfl) _ h
        · simp at hres
  | some p =>
    obtain ⟨w', r⟩ := p
    obtain ⟨w2, h2, _, hmenus, _, hmenu, hr⟩ := ProcessMenu_some hres
    have spec := processMenuData_spec env _ w2 menuData
      (by intro p hp; simp [createMenu] at hp; subst hp; simp [createMenu]) h2
    obtain ⟨added, g, _⟩ := spec.grows
    have hm : w'.menu.menu = some w.menus.length := by
      rw [hmenu, spec.menu_menu]
    have hp := g.parent_eq w.menus.length rfl (by simp [createMenu])
    refine ⟨w', added, by rw [hr, hm], hm, ?_⟩
    rw [hmenus, hp]
    simp [createMenu, str]

/-- Witness for C11: the sample menu and its radio groups, from the empty
state. -/
theorem ProcessMenu_result_witness :
    ProcessMenu sampleEnv {} none (some sampleRadioGroups) = some ({}, none) ∧
    (∃ w0 : World,
      NewMenu sampleEnv {} MenuType.ApplicationMenuType none (some sampleRadioGroups) =
        some w0 ∧
      w0.menu.menu = none ∧ w0.menu.menuItemMap = [] ∧ w0.menu.radioGroupMap = [] ∧
      w0.items = ({} : World).items ∧ w0.menus = ({} : World).menus) ∧
    ∃ (w' : World) (added : List Nat),
      ProcessMenu sampleEnv {} (some sampleMenuData) (some sampleRadioGroups) =
        some (w', some ({} : World).menus.length) ∧
      w'.menu.menu = some ({} : World).menus.length ∧
      w'.menus[({} : World).menus.length]? =
        some { title := "", autoenablesItems := false, itemArray := added } :=
  ProcessMenu_result sampleEnv {} (some sampleRadioGroups) MenuType.ApplicationMenuType
    sampleMenuData sampleMenuData_json
    (by
      intro groups hg g hmem
      cases hg
      simp only [sampleRadioGroups, json_children, List.mem_singleton] at hmem
      subst hmem
      exact ⟨["a", "b", "c"], rfl, by decide, rfl⟩)

/-! # The application -/

/-! ## Window decorations -/

/-- C17: after `DisableFrame`, which sets `frame` to 0 and leaves every other
field, the style mask `processDecorations` computes has none of the bits
Titled (1), Closable (2) and Miniaturizable (4) and has the bit
FullSizeContentView (`1 << 15`), whatever `hideTitleBar`, `fullSizeContent`,
`resizable` and `fullscreen` are. -/
theorem processDecorations_DisableFrame (app : Application) :
    DisableFrame app = { app with frame := 0 } ∧
    (processDecorations (DisableFrame app)).decorations &&& NSWindowStyleMaskTitled = 0 ∧
    (processDecorations (DisableFrame app)).decorations &&& NSWindowStyleMaskClosable = 0 ∧
    (processDecorations (DisableFrame app)).decorations &&& NSWindowStyleMaskMiniaturizable
      = 0 ∧
    (processDecorations (DisableFrame app)).decorations &&& NSWindowStyleMaskFullSizeContentView
      = NSWindowStyleMaskFullSizeContentView := by
  refine ⟨rfl, ?_⟩
  by_cases hr : app.resizable = 0 <;> by_cases hf : app.fullscreen = 0 <;>
    simp [processDecorations, DisableFrame, hr, hf, NSWindowStyleMaskTitled,
      NSWindowStyleMaskClosable, NSWindowStyleMaskMiniaturizable, NSWindowStyleMaskResizable,
      NSWindowStyleMaskFullscreen, NSWindowStyleMaskFullSizeContentView] <;>
    decide

/-! ## Theme changes -/

/-- C14: `isDarkMode` holds exactly when the user default `AppleInterfaceStyle`
is present and is the string `"Dark"`; `emitThemeChange` hands exactly one
message to `messageFromWindowCallback`, the theme change event with the data
`[true]` when `isDarkMode` holds and `[false]` otherwise, and does nothing
else; `themeChanged` reports the same boolean, in the script it has the web
view run. -/
theorem emitThemeChange_spec (w : AppWorld) :
    (isDarkMode w = true ↔ w.AppleInterfaceStyle = some "Dark") ∧
    emitThemeChange w =
      { w with sent := w.sent ++
        [if isDarkMode w then "Ej\x7b\"name\":\"wails:system:themechange\",\"data\":[true]\x7d"
         else "Ej\x7b\"name\":\"wails:system:themechange\",\"data\":[false]\x7d"] } ∧
    themeChanged w =
      { w with calls := w.calls ++
        [NativeCall.evaluateJavaScript w.app.wkwebview
          (if isDarkMode w then
            "window.wails.Events.Emit( \x27wails:system:themechange\x27, true );"
           else "window.wails.Events.Emit( \x27wails:system:themechange\x27, false );")] } := by
  refine ⟨?_, ?_, ?_⟩
  · unfold isDarkMode
    cases h : w.AppleInterfaceStyle with
    | none => simp
    | some mode => simp
  · unfold emitThemeChange
    cases hd : isDarkMode w <;> simp [AppWorld.messageFromWindowCallback]
  · unfold themeChanged
    cases hd : isDarkMode w <;> simp [ExecJS, nativeCall, str]

/-! ## Script messages -/

/-- C12: for a script message whose name is not `"completed"`, `"windowDrag"`
or `"contextMenu"`, `messageHandler` hands the body of the message, as it is,
to `app->sendMessageToBackend`, once, and changes nothing else: the
application record, the native calls and every other part of the state are
what they were. -/
theorem messageHandler_other (env : AppEnv) (w : AppWorld) (message : ScriptMessage)
    (body : String) (hbody : message.body = some body)
    (h1 : message.name ≠ "completed") (h2 : message.name ≠ "windowDrag")
    (h3 : message.name ≠ "contextMenu") :
    messageHandler env w message = some { w with backend := w.backend ++ [body] } := by
  simp [messageHandler, h1, h2, h3, hbody, sendMessageToBackend]

/-- Witness for C12: the message `"hello"` with the body `"payload"`. -/
theorem messageHandler_other_witness :
    messageHandler sampleAppEnv sampleApp { name := "hello", body := some "payload" } =
      some { sampleApp with backend := sampleApp.backend ++ ["payload"] } :=
  messageHandler_other sampleAppEnv sampleApp { name := "hello", body := some "payload" }
    "payload" rfl (by decide) (by decide) (by decide)

/-- C13: on a script message named `"completed"`, `messageHandler` hands
exactly the message `"SS"` to the backend and none to
`messageFromWindowCallback`, removes the script message handler
`"completed"`, and shows the main window (`Show`: `makeKeyAndOrderFront:` and
`activateIgnoringOtherApps:`) exactly when `startHidden` is 0; it also calls
`ShowTrayMenus` and sets `suppressesIncrementalRendering`, and leaves the
application record. -/
theorem messageHandler_completed (env : AppEnv) (w : AppWorld) (message : ScriptMessage)
    (hname : message.name = "completed") :
    ∃ w' : AppWorld,
      messageHandler env w message = some w' ∧
      w'.backend = w.backend ++ ["SS"] ∧ w'.sent = w.sent ∧ w'.app = w.app ∧
      w'.calls = w.calls ++
        ([NativeCall.removeScriptMessageHandlerForName w.app.manager "completed"] ++
         (if w.app.startHidden = 0 then
            [NativeCall.makeKeyAndOrderFront w.app.mainWindow,
             NativeCall.activateIgnoringOtherApps w.app.application true]
          else []) ++
         [NativeCall.ShowTrayMenus w.app.menuManager,
          NativeCall.setValueForKey w.app.config false "suppressesIncrementalRendering"]) ∧
      (NativeCall.makeKeyAndOrderFront w.app.mainWindow ∈ w'.calls.drop w.calls.length ↔
        w.app.startHidden = 0) := by
  by_cases hs : w.app.startHidden = 0
  · refine ⟨_, by simp only [messageHandler, if_pos hname]; rfl, ?_, ?_, ?_, ?_, ?_⟩ <;>
      simp [sendMessageToBackend, nativeCall, Show, hs, str]
  · refine ⟨_, by simp only [messageHandler, if_pos hname]; rfl, ?_, ?_, ?_, ?_, ?_⟩ <;>
      simp [sendMessageToBackend, nativeCall, Show, hs, str]

/-- Witness for C13: the sample application, which does not start hidden. -/
theorem messageHandler_completed_witness :
    ∃ w' : AppWorld,
      messageHandler sampleAppEnv sampleApp { name := "completed", body := none } = some w' ∧
      w'.backend = sampleApp.backend ++ ["SS"] ∧ w'.sent = sampleApp.sent ∧
      w'.app = sampleApp.app ∧
      w'.calls = sampleApp.calls ++
        ([NativeCall.removeScriptMessageHandlerForName sampleApp.app.manager "completed"] ++
         (if sampleApp.app.startHidden = 0 then
            [NativeCall.makeKeyAndOrderFront sampleApp.app.mainWindow,
             NativeCall.activateIgnoringOtherApps sampleApp.app.application true]
          else []) ++
         [NativeCall.ShowTrayMenus sampleApp.app.menuManager,
          NativeCall.setValueForKey sampleApp.app.config false
            "suppressesIncrementalRendering"]) ∧
      (NativeCall.makeKeyAndOrderFront sampleApp.app.mainWindow ∈
          w'.calls.drop sampleApp.calls.length ↔
        sampleApp.app.startHidden = 0) :=
  messageHandler_completed sampleAppEnv sampleApp { name := "completed", body := none } rfl

/-! ## The fullscreen state -/

theorem and_bit14_iff (x : Nat) : x &&& 2 ^ 14 = 2 ^ 14 ↔ x.testBit 14 = true := by
  constructor
  · intro h
    have h1 := congrArg (fun y => Nat.testBit y 14) h
    simp only [Nat.testBit_and, Nat.testBit_two_pow_self, Bool.and_true] at h1
    exact h1
  · intro h
    apply Nat.eq_of_testBit_eq
    intro i
    rw [Nat.testBit_and, Nat.testBit_two_pow]
    by_cases hi : 14 = i
    · subst hi
      simp [h]
    · simp [hi]

theorem isFullScreen_eq (w : AppWorld) (hwin : w.app.mainWindow ≠ none) :
    isFullScreen w = w.styleMask.testBit 14 := by
  obtain ⟨win, hw⟩ := Option.ne_none_iff_exists'.1 hwin
  have h14 : NSWindowStyleMaskFullscreen = 2 ^ 14 := by decide
  simp only [isFullScreen, windowStyleMask, hw, h14]
  by_cases hb : w.styleMask.testBit 14 = true
  · rw [hb, decide_eq_true_eq, and_bit14_iff, Nat.testBit_mod_two_pow]
    simp [hb]
  · have hb' : w.styleMask.testBit 14 = false := by simpa using hb
    rw [hb', decide_eq_false_iff_not, and_bit14_iff, Nat.testBit_mod_two_pow]
    simp [hb']

@[simp] theorem Debug_app (w : AppWorld) (message : String) (arg : Option String) :
    (Debug w message arg).app = w.app := by
  unfold Debug; split <;> rfl

@[simp] theorem Debug_styleMask (w : AppWorld) (message : String) (arg : Option String) :
    (Debug w message arg).styleMask = w.styleMask := by
  unfold Debug; split <;> rfl

@[simp] theorem Debug_calls (w : AppWorld) (message : String) (arg : Option String) :
    (Debug w message arg).calls = w.calls := by
  unfold Debug; split <;> rfl

@[simp] theorem Debug_mainQueue (w : AppWorld) (message : String) (arg : Option String) :
    (Debug w message arg).mainQueue = w.mainQueue := by
  unfold Debug; split <;> rfl

theorem testBit_flip14 (m : Nat) : (m ^^^ (1 <<< 14)).testBit 14 = !m.testBit 14 := by
  have h14 : (1 <<< 14 : Nat) = 2 ^ 14 := by decide
  rw [h14, Nat.testBit_xor, Nat.testBit_two_pow_self]
  cases m.testBit 14 <;> rfl

theorem isFullScreen_congr {u v : AppWorld} (ha : u.app = v.app)
    (hs : u.styleMask = v.styleMask) : isFullScreen u = isFullScreen v := by
  unfold isFullScreen windowStyleMask
  rw [ha, hs]

/-- What `Fullscreen` does before it returns: it changes neither the
application record nor the window, and puts the toggle block on the main
queue exactly when `isFullScreen` is false. -/
theorem Fullscreen_call (w : AppWorld) :
    (Fullscreen w).app = w.app ∧ (Fullscreen w).styleMask = w.styleMask ∧
    (Fullscreen w).calls = w.calls ∧
    (Fullscreen w).mainQueue =
      w.mainQueue ++ (if isFullScreen w then [] else [Block.ToggleFullscreen]) := by
  have hD : isFullScreen (Debug w "Fullscreen Called" none) = isFullScreen w :=
    isFullScreen_congr (by simp) (by simp)
  unfold Fullscreen
  simp only [hD]
  cases isFullScreen w <;> simp [ToggleFullscreen, dispatch]

/-- What `UnFullscreen` does before it returns: it changes neither the
application record nor the window, and puts the toggle block on the main
queue exactly when `isFullScreen` is true. -/
theorem UnFullscreen_call (w : AppWorld) :
    (UnFullscreen w).app = w.app ∧ (UnFullscreen w).styleMask = w.styleMask ∧
    (UnFullscreen w).calls = w.calls ∧
    (UnFullscreen w).mainQueue =
      w.mainQueue ++ (if isFullScreen w then [Block.ToggleFullscreen] else []) := by
  have hD : isFullScreen (Debug w "UnFullscreen Called" none) = isFullScreen w :=
    isFullScreen_congr (by simp) (by simp)
  unfold UnFullscreen
  simp only [hD]
  cases isFullScreen w <;> simp [ToggleFullscreen, dispatch]

/-- The main thread with nothing waiting does nothing to the application and
the window. -/
theorem runMainQueue_nil (u : AppWorld) (hq : u.mainQueue = []) :
    (runMainQueue u).app = u.app ∧ (runMainQueue u).styleMask = u.styleMask ∧
    (runMainQueue u).calls = u.calls ∧ (runMainQueue u).mainQueue = [] := by
  simp [runMainQueue, hq]

/-- The main thread with one toggle block waiting flips the fullscreen bit of
the main window. -/
theorem runMainQueue_toggle (u : AppWorld) (hwin : u.app.mainWindow ≠ none)
    (hq : u.mainQueue = [Block.ToggleFullscreen]) :
    (runMainQueue u).app.mainWindow = u.app.mainWindow ∧
    (runMainQueue u).styleMask = u.styleMask ^^^ (1 <<< 14) ∧
    (runMainQueue u).calls = u.calls ++ [NativeCall.toggleFullScreen u.app.mainWindow] ∧
    (runMainQueue u).mainQueue = [] := by
  obtain ⟨win, hw⟩ := Option.ne_none_iff_exists'.1 hwin
  simp [runMainQueue, hq, runBlock, toggleFullScreen, nativeCall, hw]

/-- The state after `Fullscreen` and the run of the main queue, when nothing
was waiting before. -/
theorem Fullscreen_run (w : AppWorld) (hwin : w.app.mainWindow ≠ none)
    (hq : w.mainQueue = []) :
    (runMainQueue (Fullscreen w)).app.mainWindow = w.app.mainWindow ∧
    (runMainQueue (Fullscreen w)).mainQueue = [] ∧
    (runMainQueue (Fullscreen w)).styleMask =
      (if isFullScreen w then w.styleMask else w.styleMask ^^^ (1 <<< 14)) ∧
    (runMainQueue (Fullscreen w)).calls = w.calls ++
      (if isFullScreen w then [] else [NativeCall.toggleFullScreen w.app.mainWindow]) ∧
    isFullScreen (runMainQueue (Fullscreen w)) = true := by
  obtain ⟨ha, hs, hc, hm⟩ := Fullscreen_call w
  rw [hq] at hm
  cases hf : isFullScreen w
  · rw [hf] at hm
    simp only [Bool.false_eq_true, if_false, List.nil_append] at hm ⊢
    obtain ⟨r1, r2, r3, r4⟩ := runMainQueue_toggle (Fullscreen w) (by rw [ha]; exact hwin) hm
    have hwin' : (runMainQueue (Fullscreen w)).app.mainWindow ≠ none := by
      rw [r1, ha]; exact hwin
    refine ⟨by rw [r1, ha], r4, by rw [r2, hs], by rw [r3, hc, ha], ?_⟩
    rw [isFullScreen_eq _ hwin', r2, hs, testBit_flip14]
    rw [isFullScreen_eq w hwin] at hf
    rw [hf]
    rfl
  · rw [hf] at hm
    simp only [if_true, List.append_nil] at hm ⊢
    obtain ⟨r1, r2, r3, r4⟩ := runMainQueue_nil (Fullscreen w) hm
    refine ⟨by rw [r1, ha], r4, by rw [r2, hs], by rw [r3, hc], ?_⟩
    rw [isFullScreen_congr (r1.trans ha) (r2.trans hs)]
    exact hf

/-- The state after `UnFullscreen` and the run of the main queue, when nothing
was waiting before. -/
theorem UnFullscreen_run (w : AppWorld) (hwin : w.app.mainWindow ≠ none)
    (hq : w.mainQueue = []) :
    (runMainQueue (UnFullscreen w)).app.mainWindow = w.app.mainWindow ∧
    (runMainQueue (UnFullscreen w)).mainQueue = [] ∧
    (runMainQueue (UnFullscreen w)).styleMask =
      (if isFullScreen w then w.styleMask ^^^ (1 <<< 14) else w.styleMask) ∧
    (runMainQueue (UnFullscreen w)).calls = w.calls ++
      (if isFullScreen w then [NativeCall.toggleFullScreen w.app.mainWindow] else []) ∧
    isFullScreen (runMainQueue (UnFullscreen w)) = false := by
  obtain ⟨ha, hs, hc, hm⟩ := UnFullscreen_call w
  rw [hq] at hm
  cases hf : isFullScreen w
  · rw [hf] at hm
    simp only [Bool.false_eq_true, if_false, List.append_nil] at hm ⊢
    obtain ⟨r1, r2, r3, r4⟩ := runMainQueue_nil (UnFullscreen w) hm
    refine ⟨by rw [r1, ha], r4, by rw [r2, hs], by rw [r3, hc], ?_⟩
    rw [isFullScreen_congr (r1.trans ha) (r2.trans hs)]
    exact hf
  · rw [hf] at hm
    simp only [if_true, List.nil_append] at hm ⊢
    obtain ⟨r1, r2, r3, r4⟩ := runMainQueue_toggle (UnFullscreen w) (by rw [ha]; exact hwin) hm
    have hwin' : (runMainQueue (UnFullscreen w)).app.mainWindow ≠ none := by
      rw [r1, ha]; exact hwin
    refine ⟨by rw [r1, ha], r4, by rw [r2, hs], by rw [r3, hc, ha], ?_⟩
    rw [isFullScreen_eq _ hwin', r2, hs, testBit_flip14]
    rw [isFullScreen_eq w hwin] at hf
    rw [hf]
    rfl

theorem and_bit14_zero (x : Nat) (h : x.testBit 14 = false) : x &&& 2 ^ 14 = 0 := by
  apply Nat.eq_of_testBit_eq
  intro i
  rw [Nat.testBit_and, Nat.testBit_two_pow]
  by_cases hi : 14 = i
  · subst hi
    simp [h]
  · simp [hi]

/-- C18 (as amended): for an application with a main window and nothing
waiting on the main queue, with `toggleFullScreen:` flipping the bit `1 << 14`
of the style mask of the window: `Fullscreen` hands the toggle block to the
main queue exactly when `isFullScreen` is false at the call, and
`UnFullscreen` exactly when it is true, and neither changes the window before
it returns; once the main thread has run the queue, the mask has the
fullscreen bit after `Fullscreen` and has it not after `UnFullscreen`, with
`toggleFullScreen:` sent exactly in the cases above; and a second call made
after that hands over no block and leaves the window as the first call left
it. -/
theorem Fullscreen_UnFullscreen (w : AppWorld) (hwin : w.app.mainWindow ≠ none)
    (hq : w.mainQueue = []) :
    ((Fullscreen w).mainQueue = (if isFullScreen w then [] else [Block.ToggleFullscreen]) ∧
      (Fullscreen w).styleMask = w.styleMask ∧ (Fullscreen w).calls = w.calls) ∧
    ((UnFullscreen w).mainQueue = (if isFullScreen w then [Block.ToggleFullscreen] else []) ∧
      (UnFullscreen w).styleMask = w.styleMask ∧ (UnFullscreen w).calls = w.calls) ∧
    (isFullScreen (runMainQueue (Fullscreen w)) = true ∧
      (runMainQueue (Fullscreen w)).styleMask &&& NSWindowStyleMaskFullscreen =
        NSWindowStyleMaskFullscreen ∧
      (runMainQueue (Fullscreen w)).calls = w.calls ++
        (if isFullScreen w then [] else [NativeCall.toggleFullScreen w.app.mainWindow])) ∧
    (isFullScreen (runMainQueue (UnFullscreen w)) = false ∧
      (runMainQueue (UnFullscreen w)).styleMask &&& NSWindowStyleMaskFullscreen = 0 ∧
      (runMainQueue (UnFullscreen w)).calls = w.calls ++
        (if isFullScreen w then [NativeCall.toggleFullScreen w.app.mainWindow] else [])) ∧
    ((Fullscreen (runMainQueue (Fullscreen w))).mainQueue = [] ∧
      (runMainQueue (Fullscreen (runMainQueue (Fullscreen w)))).styleMask =
        (runMainQueue (Fullscreen w)).styleMask ∧
      (runMainQueue (Fullscreen (runMainQueue (Fullscreen w)))).calls =
        (runMainQueue (Fullscreen w)).calls) ∧
    ((UnFullscreen (runMainQueue (UnFullscreen w))).mainQueue = [] ∧
      (runMainQueue (UnFullscreen (runMainQueue (UnFullscreen w)))).styleMask =
        (runMainQueue (UnFullscreen w)).styleMask ∧
      (runMainQueue (UnFullscreen (runMainQueue (UnFullscreen w)))).calls =
        (runMainQueue (UnFullscreen w)).calls) := by
  obtain ⟨_, hs1, hc1, hm1⟩ := Fullscreen_call w
  obtain ⟨_, hs2, hc2, hm2⟩ := UnFullscreen_call w
  obtain ⟨a1, q1, s1, c1, f1⟩ := Fullscreen_run w hwin hq
  obtain ⟨a2, q2, s2, c2, f2⟩ := UnFullscreen_run w hwin hq
  have hw1 : (runMainQueue (Fullscreen w)).app.mainWindow ≠ none := by rw [a1]; exact hwin
  have hw2 : (runMainQueue (UnFullscreen w)).app.mainWindow ≠ none := by rw [a2]; exact hwin
  obtain ⟨_, _, _, hm3⟩ := Fullscreen_call (runMainQueue (Fullscreen w))
  obtain ⟨_, _, _, hm4⟩ := UnFullscreen_call (runMainQueue (UnFullscreen w))
  obtain ⟨_, _, s3, c3, _⟩ := Fullscreen_run (runMainQueue (Fullscreen w)) hw1 q1
  obtain ⟨_, _, s4, c4, _⟩ := UnFullscreen_run (runMainQueue (UnFullscreen w)) hw2 q2
  have h14 : NSWindowStyleMaskFullscreen = 2 ^ 14 := by decide
  rw [hq] at hm1 hm2
  refine ⟨⟨by simpa using hm1, hs1, hc1⟩, ⟨by simpa using hm2, hs2, hc2⟩, ⟨f1, ?_, c1⟩,
    ⟨f2, ?_, c2⟩, ⟨?_, ?_, ?_⟩, ⟨?_, ?_, ?_⟩⟩
  · rw [h14, and_bit14_iff, ← isFullScreen_eq _ hw1, f1]
  · rw [h14]
    exact and_bit14_zero _ (by rw [← isFullScreen_eq _ hw2, f2])
  · rw [hm3, q1, f1]; rfl
  · rw [s3, f1]; rfl
  · rw [c3, f1]; simp
  · rw [hm4, q2, f2]; rfl
  · rw [s4, f2]; rfl
  · rw [c4, f2]; simp

/-- Witness for C18 (as amended): the sample application, whose main window is
not fullscreen and whose main queue is empty. -/
theorem Fullscreen_UnFullscreen_witness :
    (Fullscreen sampleApp).mainQueue = [Block.ToggleFullscreen] ∧
    (Fullscreen sampleApp).styleMask = 15 ∧
    isFullScreen (runMainQueue (Fullscreen sampleApp)) = true ∧
    (runMainQueue (Fullscreen (runMainQueue (Fullscreen sampleApp)))).styleMask =
      (runMainQueue (Fullscreen sampleApp)).styleMask :=
  have h := Fullscreen_UnFullscreen sampleApp (by decide) rfl
  ⟨h.1.1, h.1.2.1, h.2.2.1.1, h.2.2.2.2.1.2.1⟩

/-- Counterexample for C18: on the sample application, whose main window is
not fullscreen, the style mask has no fullscreen bit when `Fullscreen`
returns, because the toggle waits on the main queue; and two calls of
`Fullscreen` made before the main thread runs the queue hand over two toggle
blocks, after which the window is not fullscreen, while one call leaves it
fullscreen. -/
theorem Fullscreen_counterexample :
    isFullScreen (Fullscreen sampleApp) = false ∧
    (Fullscreen sampleApp).styleMask &&& NSWindowStyleMaskFullscreen = 0 ∧
    (Fullscreen (Fullscreen sampleApp)).mainQueue =
      [Block.ToggleFullscreen, Block.ToggleFullscreen] ∧
    isFullScreen (runMainQueue (Fullscreen sampleApp)) = true ∧
    isFullScreen (runMainQueue (Fullscreen (Fullscreen sampleApp))) = false ∧
    (runMainQueue (Fullscreen (Fullscreen sampleApp))).styleMask ≠
      (runMainQueue (Fullscreen sampleApp)).styleMask := by
  decide

/-! ## Message dialogs -/

/-- The message `MessageDialog` hands to the backend, and what it leaves of
the state, when `dialogIcon` is not `NULL`. -/
theorem MessageDialog_world (w : AppWorld) (response : Int) (callbackID : String)
    (type : Option String)
    (title message icon button1 button2 button3 button4 defaultButton cancelButton : String)
    (hicon : type ≠ none ∨ icon ≠ "") :
    ∃ run : MessageDialogRun,
      MessageDialog w response callbackID type title message icon button1 button2 button3
        button4 defaultButton cancelButton = some run ∧
      run.world = { w with backend := w.backend ++
        ["DM" ++ callbackID ++ "|" ++
          (if response = 1000 then button1 else if response = 1001 then button2
           else if response = 1002 then button3 else button4)] } := by
  by_cases hi : icon = ""
  · obtain ⟨t, ht⟩ := Option.ne_none_iff_exists'.1 (hicon.resolve_right (not_not.2 hi))
    subst ht
    exact ⟨_, by simp only [MessageDialog, hi, ne_eq, not_true_eq_false, if_false]; rfl, rfl⟩
  · exact ⟨_, by simp only [MessageDialog, hi, ne_eq, not_false_eq_true, if_true]; rfl, rfl⟩

/-- C15: the info dialog with the callback ID `7` and the buttons `OK` and
`Cancel`, answered with the first button, hands the message `DM7|OK` to the
backend: the tag is `DM`, not `DS`, and what follows `|` is the title of the
button, so the message is `DS7|<index>` for no index. -/
theorem MessageDialog_format_DM :
    ∃ run : MessageDialogRun,
      MessageDialog sampleApp 1000 "7" (some "info") "Title" "Text" "" "OK" "Cancel" "" ""
        "OK" "Cancel" = some run ∧
      run.alert.buttons.map NSButton.title = ["OK", "Cancel"] ∧
      run.world.backend = ["DM7|OK"] ∧
      ∀ index : Nat, run.world.backend ≠ ["DS" ++ "7" ++ "|" ++ toString index] := by
  refine ⟨_, rfl, by decide, ?_⟩
  have hb : ∀ l : List String, l = ["DM7|OK"] →
      l = ["DM7|OK"] ∧ ∀ index : Nat, l ≠ ["DS" ++ "7" ++ "|" ++ toString index] := by
    intro l hl
    refine ⟨hl, fun index h => ?_⟩
    rw [hl] at h
    simp only [List.cons.injEq, and_true] at h
    have h3 := congrArg String.data h
    simp only [String.data_append] at h3
    exact absurd h3 (by simp)
  exact hb _ (by decide)

/-- The same dialog with an empty first button title: the alert has the one
button `OK`, and for the first button response the message is `DM7|`, with
the empty title of `button1` after the `|`. -/
theorem MessageDialog_empty_button1 :
    ∃ run : MessageDialogRun,
      MessageDialog sampleApp 1000 "7" (some "info") "Title" "Text" "" "" "OK" "" ""
        "OK" "Cancel" = some run ∧
      run.alert.buttons.map NSButton.title = ["OK"] ∧
      run.world.backend = ["DM7|"] :=
  ⟨_, rfl, by decide, by decide⟩

theorem processDialogButton_alertStyle (alert : NSAlert)
    (buttonTitle cancelButton defaultButton : String) :
    (processDialogButton alert buttonTitle cancelButton defaultButton).alertStyle =
      alert.alertStyle := by
  unfold processDialogButton
  split <;> rfl

/-- What a run of `MessageDialog` with the dialog icon name `dialogIcon`
leaves: the message, the keys looked up and the alert style. -/
theorem MessageDialog_run (w : AppWorld) (response : Int) (callbackID : String)
    (type : Option String)
    (title message icon button1 button2 button3 button4 defaultButton cancelButton : String)
    (dialogIcon : String) (h : (if icon ≠ "" then some icon else type) = some dialogIcon) :
    ∃ run : MessageDialogRun,
      MessageDialog w response callbackID type title message icon button1 button2 button3
        button4 defaultButton cancelButton = some run ∧
      run.world = { w with backend := w.backend ++
        ["DM" ++ callbackID ++ "|" ++
          (if response = 1000 then button1 else if response = 1001 then button2
           else if response = 1002 then button3 else button4)] } ∧
      run.lookups = (lookupDialogImage w dialogIcon).2 ∧
      run.alert.alertStyle =
        (if type.getD "info" = "info" ∨ type.getD "info" = "question" then
          some NSAlertStyleInformational
         else if type.getD "info" = "warning" then some NSAlertStyleWarning
         else if type.getD "info" = "error" then some NSAlertStyleCritical
         else none) := by
  unfold MessageDialog
  simp only [h]
  refine ⟨_, rfl, rfl, rfl, ?_⟩
  simp only [apply_ite NSAlert.alertStyle, processDialogButton_alertStyle, ite_self]
  cases type <;> rfl

/-- With `type` `NULL` and an empty `icon`, `dialogIcon` is still `NULL` where
`concat` reads it, whatever the other arguments are. -/
theorem MessageDialog_NULL_empty_icon (w : AppWorld) (response : Int) (callbackID : String)
    (title message button1 button2 button3 button4 defaultButton cancelButton : String) :
    MessageDialog w response callbackID none title message "" button1 button2 button3 button4
      defaultButton cancelButton = none := by
  simp [MessageDialog]

/-- With `type` `"info"` and an empty `icon` the dialog runs, with the
informational alert style and the lookups for the icon name `info`. -/
theorem MessageDialog_info_empty_icon (w : AppWorld) (response : Int) (callbackID : String)
    (title message button1 button2 button3 button4 defaultButton cancelButton : String) :
    ∃ run : MessageDialogRun,
      MessageDialog w response callbackID (some "info") title message "" button1 button2
        button3 button4 defaultButton cancelButton = some run ∧
      run.alert.alertStyle = some NSAlertStyleInformational ∧
      run.lookups = (lookupDialogImage w "info").2 := by
  obtain ⟨run, h1, _, h3, h4⟩ := MessageDialog_run w response callbackID (some "info") title
    message "" button1 button2 button3 button4 defaultButton cancelButton "info" (by simp)
  exact ⟨run, h1, by rw [h4]; simp, h3⟩

/-- With `type` `NULL` and an `icon` that is not empty, `MessageDialog` does
what it does for the type `"info"`. -/
theorem MessageDialog_NULL_icon (w : AppWorld) (response : Int) (callbackID : String)
    (title message icon button1 button2 button3 button4 defaultButton cancelButton : String)
    (hicon : icon ≠ "") :
    MessageDialog w response callbackID none title message icon button1 button2 button3
        button4 defaultButton cancelButton =
      MessageDialog w response callbackID (some "info") title message icon button1 button2
        button3 button4 defaultButton cancelButton := by
  simp only [MessageDialog, hicon, ne_eq, not_false_eq_true, if_true]

/-- C16: the call of `MessageDialog` with `type` `NULL`, an empty `icon`, the
callback ID `7` and the buttons `OK` and `Cancel` has no defined result
(`dialogIcon` is `NULL` where `concat` reads it), while the same call with the
type `"info"` runs the dialog with the informational alert style, looks up
the key `info-dark` and finds the icon. -/
theorem MessageDialog_type_NULL :
    MessageDialog sampleApp 1000 "7" none "Title" "Text" "" "OK" "Cancel" "" "" "OK" "Cancel"
      = none ∧
    ∃ run : MessageDialogRun,
      MessageDialog sampleApp 1000 "7" (some "info") "Title" "Text" "" "OK" "Cancel" "" ""
        "OK" "Cancel" = some run ∧
      run.alert.alertStyle = some NSAlertStyleInformational ∧
      run.lookups = ["info-dark"] ∧ run.alert.icon = some 7 ∧
      run.world.backend = ["DM7|OK"] := by
  refine ⟨by decide, _, rfl, by decide, by decide, by decide, by decide⟩

end Wails
